import Mathlib

/-!
# APEX in-order pipeline simulator: shallow embedding of `cpu.c`

The five stage functions (`fetch`, `decode`, `execute`, `memory`, `writeback`),
`Create_NOP`, `get_code_index`, `APEX_cpu_init` and the driver `APEX_cpu_run`
are transcribed statement by statement.

Modelling conventions.

* A C `int` is an `Int`.  Signed overflow is undefined behaviour in C; the
  model describes the executions in which no `int` operation overflows, and a
  theorem that states the value of a product assumes it within `int_min ..
  int_max`.
* The arrays `regs`, `regs_valid`, `regs_forwarding`, `data_memory` and
  `code_memory` are total maps from an `Int` index to their cell.  The source
  never tests an index.  For a read, an index outside the declared range
  denotes whatever lies at that place; the cells beyond `code_memory_size` are
  therefore part of the state and are universally quantified in the theorems.
  A store at an index outside the declared range is a store to that cell of
  the same map; which other field of `APEX_CPU` shares the place of the cell
  depends on the layout of the structure (`cpu.h`), which the model does not
  describe.  A theorem about the effect of a store therefore assumes the index
  within `0..31`, or states the index of the store and nothing about the cells
  of other arrays.
* The opcode text is compared with string constants only, so it is a
  constructor of `Opcode`; `EMPTY` is the empty string left by `memset`, and
  `OTHER` stands for every text that equals none of the constants.
* `busy` and `stalled` only ever hold 0 or 1 and are `Bool`s.
* `Create_NOP` fills the fields `opcode`, `busy`, `stalled` and `pc` of a local
  `CPU_Stage` that has no initialiser.  Each stage function therefore takes
  the prior content `u` of that local as an argument; every stage function
  runs at most one `Create_NOP` per call.
* `ENABLE_DATA_FORWARDING` is a compile-time constant (1 in the source); the
  stage functions take it as the Boolean argument `fwd`.
* `ENABLE_DEBUG_MESSAGES` and the printing functions do not touch the machine
  state and are left out.
-/

namespace APEX

/-- The opcode texts the stage functions compare against. -/
inductive Opcode where
  | ADD | SUB | MUL | AND | OR | EXOR | LOAD | STORE | MOVC
  | BZ | BNZ | JUMP | HALT | NOP | EMPTY | OTHER
  deriving DecidableEq, Repr

/-- One record of code memory (`APEX_Instruction`). -/
structure APEX_Instruction where
  opcode : Opcode
  rd : Int
  rs1 : Int
  rs2 : Int
  imm : Int
  deriving DecidableEq, Repr

/-- One pipeline latch (`CPU_Stage`). -/
structure CPU_Stage where
  pc : Int
  opcode : Opcode
  rs1 : Int
  rs2 : Int
  rd : Int
  imm : Int
  rs1_value : Int
  rs2_value : Int
  buffer : Int
  mem_address : Int
  busy : Bool
  stalled : Bool
  deriving DecidableEq, Repr

/-- Indices of the array `cpu->stage`. -/
inductive StageId where
  | F | DRF | EX | MEM | WB
  deriving DecidableEq, Repr

/-- The simulator state (`APEX_CPU`); `stage_F` is `cpu->stage[F]`, and so on. -/
structure APEX_CPU where
  clock : Int
  pc : Int
  regs : Int → Int
  regs_valid : Int → Int
  regs_forwarding : Int → Int
  stage_F : CPU_Stage
  stage_DRF : CPU_Stage
  stage_EX : CPU_Stage
  stage_MEM : CPU_Stage
  stage_WB : CPU_Stage
  code_memory : Int → APEX_Instruction
  code_memory_size : Int
  data_memory : Int → Int
  ins_completed : Int
  zero_flag : Int
  function_cycles : Int

/-- Array store `a[i] = v`. -/
def write (a : Int → Int) (i v : Int) : Int → Int :=
  fun j => if j = i then v else a j

/-- A latch after `memset(.., 0, ..)`. -/
def zero_stage : CPU_Stage :=
  { pc := 0, opcode := Opcode.EMPTY, rs1 := 0, rs2 := 0, rd := 0, imm := 0,
    rs1_value := 0, rs2_value := 0, buffer := 0, mem_address := 0,
    busy := false, stalled := false }

/-- The value `memset(cpu->regs_valid, 1, ..)` leaves in each `int`: every byte is 1. -/
def valid_after_memset : Int := 16843009

/-- The function `APEX_cpu_init`: `m` is the block returned by `malloc` (fields the function
does not assign keep the content of `m`), `code` and `size` are what
`create_code_memory` returns and `cycles` is `atoi(function_cycles)`. -/
def APEX_cpu_init (m : APEX_CPU) (code : Int → APEX_Instruction) (size cycles : Int) :
    APEX_CPU :=
  { m with
    pc := 4000
    function_cycles := cycles
    regs := fun i => if 0 ≤ i ∧ i < 32 then 0 else m.regs i
    regs_forwarding := fun i => if 0 ≤ i ∧ i < 32 then 0 else m.regs_forwarding i
    regs_valid := fun i => if 0 ≤ i ∧ i < 32 then valid_after_memset else m.regs_valid i
    stage_F := zero_stage
    stage_DRF := { zero_stage with busy := true }
    stage_EX := { zero_stage with busy := true }
    stage_MEM := { zero_stage with busy := true }
    stage_WB := { zero_stage with busy := true }
    data_memory := fun i => if 0 ≤ i ∧ i < 4000 then 0 else m.data_memory i
    code_memory := code
    code_memory_size := size }

/-- The function `get_code_index`: C division truncates towards zero. -/
def get_code_index (pc : Int) : Int :=
  Int.tdiv (pc - 4000) 4

/-- The function `Create_NOP(cpu, nopStage)`: it assigns four fields of `*nopStage`. -/
def Create_NOP (cpu : APEX_CPU) (nopStage : CPU_Stage) : CPU_Stage :=
  { nopStage with opcode := Opcode.NOP, busy := false, stalled := false,
                  pc := cpu.stage_EX.pc }

/-- The function `fetch`. -/
def fetch (cpu : APEX_CPU) : APEX_CPU :=
  let stage := cpu.stage_F
  if !stage.busy && !stage.stalled then
    let current_ins := cpu.code_memory (get_code_index cpu.pc)
    let stage := { stage with pc := cpu.pc, opcode := current_ins.opcode,
                              rd := current_ins.rd, rs1 := current_ins.rs1,
                              rs2 := current_ins.rs2, imm := current_ins.imm }
    let cpu := { cpu with stage_F := stage, pc := cpu.pc + 4 }
    if cpu.stage_DRF.stalled then
      { cpu with stage_F := { cpu.stage_F with stalled := true } }
    else
      { cpu with stage_DRF := cpu.stage_F }
  else if stage.stalled then
    if !cpu.stage_DRF.stalled then
      let cpu := { cpu with stage_F := { cpu.stage_F with stalled := false } }
      { cpu with stage_DRF := cpu.stage_F }
    else cpu
  else cpu

/-- The test `ADD || SUB || MUL || AND || OR || EX-OR` of `decode`. -/
def is_reg_reg (o : Opcode) : Bool :=
  o = Opcode.ADD || o = Opcode.SUB || o = Opcode.MUL || o = Opcode.AND || o = Opcode.OR
    || o = Opcode.EXOR

/-- The test `ADD || SUB || MUL` used by `writeback` and, on each of the
latches `EX`, `MEM`, `WB`, by the stalled branch of `decode`. -/
def is_arith (o : Opcode) : Bool :=
  o = Opcode.ADD || o = Opcode.SUB || o = Opcode.MUL

/-- Part of `decode`: the branch `!stage->busy && !stage->stalled`, up to the comment
"Copy data from decode latch to execute latch": the register read. -/
def decode_read (fwd : Bool) (cpu : APEX_CPU) : APEX_CPU :=
  let stage := cpu.stage_DRF
  if is_reg_reg stage.opcode then
    if cpu.regs_valid stage.rs1 ≠ 0 ∧ cpu.regs_valid stage.rs2 ≠ 0 then
      { cpu with
        stage_DRF := { stage with rs1_value := cpu.regs stage.rs1,
                                  rs2_value := cpu.regs stage.rs2 }
        regs_valid := write cpu.regs_valid stage.rd 0 }
    else if fwd then
      if cpu.stage_EX.opcode = Opcode.LOAD
          ∧ (cpu.stage_EX.rd = stage.rs1 ∨ cpu.stage_EX.rd = stage.rs2) then
        { cpu with stage_DRF := { stage with stalled := true } }
      else
        { cpu with
          stage_DRF :=
            { stage with
              rs1_value := if cpu.regs_valid stage.rs1 = 0
                           then cpu.regs_forwarding stage.rs1 else cpu.regs stage.rs1
              rs2_value := if cpu.regs_valid stage.rs2 = 0
                           then cpu.regs_forwarding stage.rs2 else cpu.regs stage.rs2 }
          regs_valid := write cpu.regs_valid stage.rd 0 }
    else
      { cpu with stage_DRF := { stage with stalled := true } }
  else if stage.opcode = Opcode.LOAD then
    if cpu.regs_valid stage.rs1 ≠ 0 then
      { cpu with
        stage_DRF := { stage with rs1_value := cpu.regs stage.rs1 }
        regs_valid := write cpu.regs_valid stage.rd 0 }
    else if fwd then
      if cpu.stage_EX.opcode = Opcode.LOAD ∧ cpu.stage_EX.rd = stage.rs1 then
        { cpu with stage_DRF := { stage with stalled := true } }
      else
        { cpu with
          stage_DRF :=
            { stage with
              rs1_value := if cpu.regs_valid stage.rs1 = 0
                           then cpu.regs_forwarding stage.rs1 else cpu.regs stage.rs1 }
          regs_valid := write cpu.regs_valid stage.rd 0 }
    else
      { cpu with stage_DRF := { stage with stalled := true } }
  else if stage.opcode = Opcode.STORE then
    if cpu.regs_valid stage.rs1 ≠ 0 ∧ cpu.regs_valid stage.rs2 ≠ 0 then
      { cpu with
        stage_DRF := { stage with rs1_value := cpu.regs stage.rs1,
                                  rs2_value := cpu.regs stage.rs2 } }
    else if fwd then
      if cpu.stage_EX.opcode = Opcode.LOAD ∧ cpu.stage_EX.rd = stage.rs2 then
        { cpu with stage_DRF := { stage with stalled := true } }
      else
        { cpu with
          stage_DRF :=
            { stage with
              rs1_value := if cpu.regs_valid stage.rs1 = 0
                           then cpu.regs_forwarding stage.rs1 else cpu.regs stage.rs1
              rs2_value := if cpu.regs_valid stage.rs2 = 0
                           then cpu.regs_forwarding stage.rs2 else cpu.regs stage.rs2 } }
    else
      { cpu with stage_DRF := { stage with stalled := true } }
  else if stage.opcode = Opcode.MOVC then
    { cpu with regs_valid := write cpu.regs_valid stage.rd 0 }
  else if stage.opcode = Opcode.BZ then
    if !fwd then { cpu with stage_DRF := { stage with stalled := true } } else cpu
  else if stage.opcode = Opcode.BNZ then
    if !fwd then { cpu with stage_DRF := { stage with stalled := true } } else cpu
  else if stage.opcode = Opcode.JUMP then
    if cpu.regs_valid stage.rs1 ≠ 0 then
      { cpu with stage_DRF := { stage with rs1_value := cpu.regs stage.rs1 } }
    else if fwd then
      if cpu.stage_EX.opcode = Opcode.LOAD ∧ cpu.stage_EX.rd = stage.rs1 then
        { cpu with stage_DRF := { stage with stalled := true } }
      else
        { cpu with
          stage_DRF :=
            { stage with
              rs1_value := if cpu.regs_valid stage.rs1 = 0
                           then cpu.regs_forwarding stage.rs1 else cpu.regs stage.rs1 } }
    else
      { cpu with stage_DRF := { stage with stalled := true } }
  else cpu

/-- The test of the stalled `BZ`/`BNZ` branches of `decode`: an `ADD`, `SUB` or
`MUL` in the `EX`, `MEM` or `WB` latch. -/
def arith_ahead (cpu : APEX_CPU) : Bool :=
  is_arith cpu.stage_EX.opcode || is_arith cpu.stage_MEM.opcode
    || is_arith cpu.stage_WB.opcode

/-- Part of `decode`: the branch `else if (stage->stalled)` when `EX` is not stalled:
the hazard is evaluated again. -/
def decode_retry (fwd : Bool) (u : CPU_Stage) (cpu : APEX_CPU) : APEX_CPU :=
  let stage := cpu.stage_DRF
  if is_reg_reg stage.opcode then
    if cpu.regs_valid stage.rs1 ≠ 0 ∧ cpu.regs_valid stage.rs2 ≠ 0 then
      let stage := { stage with stalled := false, rs1_value := cpu.regs stage.rs1,
                                rs2_value := cpu.regs stage.rs2 }
      { cpu with stage_DRF := stage, regs_valid := write cpu.regs_valid stage.rd 0,
                 stage_EX := stage }
    else if fwd then
      let stage :=
        { stage with
          stalled := false
          rs1_value := if cpu.regs_valid stage.rs1 = 0
                       then cpu.regs_forwarding stage.rs1 else cpu.regs stage.rs1
          rs2_value := if cpu.regs_valid stage.rs2 = 0
                       then cpu.regs_forwarding stage.rs2 else cpu.regs stage.rs2 }
      { cpu with stage_DRF := stage, regs_valid := write cpu.regs_valid stage.rd 0,
                 stage_EX := stage }
    else
      { cpu with stage_EX := Create_NOP cpu u }
  else if stage.opcode = Opcode.LOAD then
    if cpu.regs_valid stage.rs1 ≠ 0 then
      let stage := { stage with stalled := false, rs1_value := cpu.regs stage.rs1 }
      { cpu with stage_DRF := stage, regs_valid := write cpu.regs_valid stage.rd 0,
                 stage_EX := stage }
    else if fwd then
      if cpu.stage_EX.opcode = Opcode.LOAD ∧ cpu.stage_EX.rd = stage.rs1 then
        { cpu with stage_DRF := { stage with stalled := true },
                   stage_EX := Create_NOP cpu u }
      else
        let stage :=
          { stage with
            stalled := false
            rs1_value := if cpu.regs_valid stage.rs1 = 0
                         then cpu.regs_forwarding stage.rs1 else cpu.regs stage.rs1 }
        { cpu with stage_DRF := stage, regs_valid := write cpu.regs_valid stage.rd 0,
                   stage_EX := stage }
    else
      { cpu with stage_EX := Create_NOP cpu u }
  else if stage.opcode = Opcode.STORE then
    if cpu.regs_valid stage.rs1 ≠ 0 ∧ cpu.regs_valid stage.rs2 ≠ 0 then
      let stage := { stage with stalled := false, rs1_value := cpu.regs stage.rs1,
                                rs2_value := cpu.regs stage.rs2 }
      { cpu with stage_DRF := stage, stage_EX := stage }
    else if fwd then
      if cpu.stage_EX.opcode = Opcode.LOAD ∧ cpu.stage_EX.rd = stage.rs2 then
        { cpu with stage_DRF := { stage with stalled := true },
                   stage_EX := Create_NOP cpu u }
      else
        let stage :=
          { stage with
            stalled := false
            rs1_value := if cpu.regs_valid stage.rs1 = 0
                         then cpu.regs_forwarding stage.rs1 else cpu.regs stage.rs1
            rs2_value := if cpu.regs_valid stage.rs2 = 0
                         then cpu.regs_forwarding stage.rs2 else cpu.regs stage.rs2 }
        { cpu with stage_DRF := stage, stage_EX := stage }
    else
      { cpu with stage_EX := Create_NOP cpu u }
  else if stage.opcode = Opcode.MOVC then
    let stage := { stage with stalled := false }
    { cpu with stage_DRF := stage, regs_valid := write cpu.regs_valid stage.rd 0,
               stage_EX := stage }
  else if stage.opcode = Opcode.BZ then
    if arith_ahead cpu then
      { cpu with stage_DRF := { stage with stalled := true },
                 stage_EX := Create_NOP cpu u }
    else
      let stage := { stage with stalled := false }
      { cpu with stage_DRF := stage, stage_EX := stage }
  else if stage.opcode = Opcode.BNZ then
    if arith_ahead cpu then
      { cpu with stage_DRF := { stage with stalled := true },
                 stage_EX := Create_NOP cpu u }
    else
      let stage := { stage with stalled := false }
      { cpu with stage_DRF := stage, stage_EX := stage }
  else if stage.opcode = Opcode.JUMP then
    if cpu.regs_valid stage.rs1 ≠ 0 then
      let stage := { stage with stalled := false, rs1_value := cpu.regs stage.rs1 }
      { cpu with stage_DRF := stage, stage_EX := stage }
    else if fwd then
      if cpu.stage_EX.opcode = Opcode.LOAD ∧ cpu.stage_EX.rd = stage.rs1 then
        { cpu with stage_DRF := { stage with stalled := true },
                   stage_EX := Create_NOP cpu u }
      else
        let stage :=
          { stage with
            stalled := false
            rs1_value := if cpu.regs_valid stage.rs1 = 0
                         then cpu.regs_forwarding stage.rs1 else cpu.regs stage.rs1 }
        { cpu with stage_DRF := stage, stage_EX := stage }
    else
      { cpu with stage_DRF := { stage with stalled := true },
                 stage_EX := Create_NOP cpu u }
  else if stage.opcode = Opcode.HALT then
    let stage := { stage with stalled := false }
    { cpu with stage_DRF := stage, stage_EX := stage }
  else if stage.opcode = Opcode.EMPTY then
    let stage := { stage with stalled := false }
    { cpu with stage_DRF := stage, stage_EX := stage }
  else cpu

/-- Part of `decode`: the end of the branch `!stage->busy && !stage->stalled`,
from the comment "Copy data from decode latch to execute latch" on. -/
def decode_copy (u : CPU_Stage) (cpu : APEX_CPU) : APEX_CPU :=
  if cpu.stage_EX.stalled then
    { cpu with stage_DRF := { cpu.stage_DRF with stalled := true } }
  else if cpu.stage_DRF.stalled then
    { cpu with stage_EX := Create_NOP cpu u }
  else
    { cpu with stage_EX := cpu.stage_DRF }

/-- The function `decode`. -/
def decode (fwd : Bool) (u : CPU_Stage) (cpu : APEX_CPU) : APEX_CPU :=
  if !cpu.stage_DRF.busy && !cpu.stage_DRF.stalled then
    decode_copy u (decode_read fwd cpu)
  else if cpu.stage_DRF.stalled then
    if !cpu.stage_EX.stalled then decode_retry fwd u cpu else cpu
  else cpu

/-- The C expression `stage->buffer == 0 ? 1 : 0`. -/
def zero_of (buffer : Int) : Int :=
  if buffer = 0 then 1 else 0

/-- The function `execute`.  The arithmetic is that of `Int`: the values are
the C values as long as no operation leaves the range of an `int`.  A store
`regs_forwarding[rd] = ...` is a store to the cell `rd` of the map, which is
an entry of the table for `rd` in `0..31`. -/
def execute (fwd : Bool) (u : CPU_Stage) (cpu : APEX_CPU) : APEX_CPU :=
  let stage := cpu.stage_EX
  if !stage.busy && !stage.stalled then
    let cpu :=
      if stage.opcode = Opcode.ADD then
        let stage := { stage with buffer := stage.rs1_value + stage.rs2_value }
        let cpu := { cpu with stage_EX := stage }
        if fwd then
          { cpu with regs_forwarding := write cpu.regs_forwarding stage.rd stage.buffer,
                     zero_flag := zero_of stage.buffer }
        else cpu
      else if stage.opcode = Opcode.SUB then
        let stage := { stage with buffer := stage.rs1_value - stage.rs2_value }
        let cpu := { cpu with stage_EX := stage }
        if fwd then
          { cpu with regs_forwarding := write cpu.regs_forwarding stage.rd stage.buffer,
                     zero_flag := zero_of stage.buffer }
        else cpu
      else if stage.opcode = Opcode.LOAD then
        { cpu with stage_EX := { stage with mem_address := stage.rs1_value + stage.imm } }
      else if stage.opcode = Opcode.STORE then
        let stage := { stage with mem_address := stage.rs2_value + stage.imm }
        let cpu := { cpu with stage_EX := stage }
        if fwd then
          if cpu.stage_MEM.opcode = Opcode.LOAD ∧ cpu.stage_MEM.rd = stage.rs1 then
            { cpu with
              stage_EX := { stage with rs1_value := cpu.regs_forwarding stage.rs1 } }
          else cpu
        else cpu
      else if stage.opcode = Opcode.MUL then
        { cpu with
          stage_EX := { stage with buffer := stage.rs1_value * stage.rs2_value,
                                   stalled := true } }
      else if stage.opcode = Opcode.MOVC then
        let stage := { stage with buffer := stage.imm + 0 }
        let cpu := { cpu with stage_EX := stage }
        if fwd then
          { cpu with regs_forwarding := write cpu.regs_forwarding stage.rd stage.buffer }
        else cpu
      else if stage.opcode = Opcode.AND then
        let stage := { stage with buffer := Int.land stage.rs1_value stage.rs2_value }
        let cpu := { cpu with stage_EX := stage }
        if fwd then
          { cpu with regs_forwarding := write cpu.regs_forwarding stage.rd stage.buffer }
        else cpu
      else if stage.opcode = Opcode.OR then
        let stage := { stage with buffer := Int.lor stage.rs1_value stage.rs2_value }
        let cpu := { cpu with stage_EX := stage }
        if fwd then
          { cpu with regs_forwarding := write cpu.regs_forwarding stage.rd stage.buffer }
        else cpu
      else if stage.opcode = Opcode.EXOR then
        let stage := { stage with buffer := Int.xor stage.rs1_value stage.rs2_value }
        let cpu := { cpu with stage_EX := stage }
        if fwd then
          { cpu with regs_forwarding := write cpu.regs_forwarding stage.rd stage.buffer }
        else cpu
      else if stage.opcode = Opcode.NOP then cpu
      else if stage.opcode = Opcode.BZ then cpu
      else if stage.opcode = Opcode.BNZ then cpu
      else if stage.opcode = Opcode.JUMP then
        { cpu with stage_EX := { stage with buffer := stage.rs1_value + stage.imm } }
      else if stage.opcode = Opcode.HALT then
        let nopStage := Create_NOP cpu u
        { cpu with stage_DRF := { nopStage with stalled := true },
                   stage_F := { nopStage with stalled := true } }
      else cpu
    if !cpu.stage_EX.stalled then
      { cpu with stage_MEM := cpu.stage_EX }
    else
      { cpu with stage_MEM := Create_NOP cpu u }
  else if stage.stalled then
    let stage := { stage with stalled := false }
    let cpu := { cpu with stage_EX := stage }
    let cpu :=
      if fwd then
        { cpu with regs_forwarding := write cpu.regs_forwarding stage.rd stage.buffer,
                   zero_flag := zero_of stage.buffer }
      else cpu
    { cpu with stage_MEM := cpu.stage_EX }
  else cpu

/-- The function `memory`.  The branches of `ADD` and `SUB`, and those of `MUL`, `MOVC`,
`AND`, `OR` and `EX-OR`, have the same body in the source and share a test here. -/
def memory (fwd : Bool) (u : CPU_Stage) (cpu : APEX_CPU) : APEX_CPU :=
  let stage := cpu.stage_MEM
  if !stage.busy && !stage.stalled then
    let cpu :=
      if stage.opcode = Opcode.ADD ∨ stage.opcode = Opcode.SUB then
        if fwd then
          { cpu with regs_forwarding := write cpu.regs_forwarding stage.rd stage.buffer }
        else cpu
      else if stage.opcode = Opcode.LOAD then
        let stage := { stage with buffer := cpu.data_memory stage.mem_address }
        let cpu := { cpu with stage_MEM := stage }
        if fwd then
          { cpu with regs_forwarding := write cpu.regs_forwarding stage.rd stage.buffer }
        else cpu
      else if stage.opcode = Opcode.STORE then
        { cpu with data_memory := write cpu.data_memory stage.mem_address stage.rs1_value }
      else if stage.opcode = Opcode.MUL ∨ stage.opcode = Opcode.MOVC
          ∨ stage.opcode = Opcode.AND ∨ stage.opcode = Opcode.OR
          ∨ stage.opcode = Opcode.EXOR then
        if fwd then
          { cpu with regs_forwarding := write cpu.regs_forwarding stage.rd stage.buffer }
        else cpu
      else if stage.opcode = Opcode.NOP then cpu
      else if stage.opcode = Opcode.BZ then
        if cpu.zero_flag ≠ 0 then
          let nopStage := Create_NOP cpu u
          { cpu with pc := stage.pc + stage.imm
                     stage_DRF := nopStage
                     regs_valid := write cpu.regs_valid cpu.stage_EX.rd 1
                     stage_EX := nopStage }
        else cpu
      else if stage.opcode = Opcode.BNZ then
        if cpu.zero_flag = 0 then
          let nopStage := Create_NOP cpu u
          { cpu with pc := stage.pc + stage.imm
                     stage_DRF := nopStage
                     regs_valid := write cpu.regs_valid cpu.stage_EX.rd 1
                     stage_EX := nopStage }
        else cpu
      else if stage.opcode = Opcode.JUMP then
        let nopStage := Create_NOP cpu u
        { cpu with pc := stage.buffer
                   regs_valid :=
                     write (write cpu.regs_valid cpu.stage_DRF.rd 1) cpu.stage_EX.rd 1
                   stage_DRF := nopStage
                   stage_F := nopStage
                   stage_EX := nopStage }
      else if stage.opcode = Opcode.HALT then
        { cpu with stage_EX := { Create_NOP cpu u with stalled := true } }
      else cpu
    { cpu with stage_WB := cpu.stage_MEM }
  else cpu

/-- The function `writeback`.  The branches of `AND`/`OR`/`EX-OR` and of `LOAD` have the same
body in the source and share a test here.  The stores at `rd` are stores to
the cell `rd` of each of the three maps, which is an entry of the tables for
`rd` in `0..31`. -/
def writeback (fwd : Bool) (u : CPU_Stage) (cpu : APEX_CPU) : APEX_CPU :=
  let stage := cpu.stage_WB
  if !stage.busy && !stage.stalled then
    let cpu :=
      if is_arith stage.opcode then
        let cpu := { cpu with regs := write cpu.regs stage.rd stage.buffer,
                              regs_valid := write cpu.regs_valid stage.rd 1,
                              zero_flag := zero_of stage.buffer }
        if fwd then
          { cpu with regs_forwarding := write cpu.regs_forwarding stage.rd stage.buffer }
        else cpu
      else if stage.opcode = Opcode.AND ∨ stage.opcode = Opcode.OR
          ∨ stage.opcode = Opcode.EXOR ∨ stage.opcode = Opcode.LOAD then
        let cpu := { cpu with regs := write cpu.regs stage.rd stage.buffer,
                              regs_valid := write cpu.regs_valid stage.rd 1 }
        if fwd then
          { cpu with regs_forwarding := write cpu.regs_forwarding stage.rd stage.buffer }
        else cpu
      else if stage.opcode = Opcode.STORE then cpu
      else if stage.opcode = Opcode.MOVC then
        let cpu := { cpu with regs := write cpu.regs stage.rd stage.buffer,
                              regs_valid := write cpu.regs_valid stage.rd 1 }
        if fwd then
          { cpu with regs_forwarding := write cpu.regs_forwarding stage.rd stage.buffer }
        else cpu
      else if stage.opcode = Opcode.NOP then cpu
      else if stage.opcode = Opcode.HALT then
        { cpu with pc := cpu.pc + 12000
                   stage_MEM := { Create_NOP cpu u with stalled := true } }
      else cpu
    if stage.opcode ≠ Opcode.NOP then
      { cpu with ins_completed := cpu.ins_completed + 1 }
    else cpu
  else cpu

/-- One iteration of the loop body of `APEX_cpu_run`: the five stage calls in
the order of the source and `cpu->clock++`.  `g s` is the content of the
local without initialiser that the stage function `s` hands to `Create_NOP`. -/
def APEX_cpu_tick (fwd : Bool) (g : StageId → CPU_Stage) (cpu : APEX_CPU) : APEX_CPU :=
  let cpu := writeback fwd (g StageId.WB) cpu
  let cpu := memory fwd (g StageId.MEM) cpu
  let cpu := execute fwd (g StageId.EX) cpu
  let cpu := decode fwd (g StageId.DRF) cpu
  let cpu := fetch cpu
  { cpu with clock := cpu.clock + 1 }

/-- The exit test at the head of the loop of `APEX_cpu_run`. -/
def run_done (initial_PC_Value : Int) (cpu : APEX_CPU) : Bool :=
  decide (cpu.pc ≥ cpu.code_memory_size * 4 + initial_PC_Value + 16)
    || decide (cpu.clock = cpu.function_cycles)

/-- The `while (1)` loop of `APEX_cpu_run`, with `fuel` bounding the number of
iterations: `none` when the fuel runs out before the exit test holds, and
otherwise the returned value (always 0) with the state at the `break`.
`g c` supplies the locals without initialiser for the iteration that starts
with `clock = c`. -/
def run_loop (fwd : Bool) (g : Int → StageId → CPU_Stage) (initial_PC_Value : Int) :
    Nat → APEX_CPU → Option (Int × APEX_CPU)
  | 0, cpu => if run_done initial_PC_Value cpu then some (0, cpu) else none
  | fuel + 1, cpu =>
    if run_done initial_PC_Value cpu then some (0, cpu)
    else run_loop fwd g initial_PC_Value fuel (APEX_cpu_tick fwd (g cpu.clock) cpu)

/-- The function `APEX_cpu_run`: `initial_PC_Value` is read once, before the loop. -/
def APEX_cpu_run (fwd : Bool) (g : Int → StageId → CPU_Stage) (fuel : Nat)
    (cpu : APEX_CPU) : Option (Int × APEX_CPU) :=
  run_loop fwd g cpu.pc fuel cpu

/-- The state after `k` iterations of the loop body, the exit test left aside. -/
def run_ticks (fwd : Bool) (g : Int → StageId → CPU_Stage) : Nat → APEX_CPU → APEX_CPU
  | 0, cpu => cpu
  | k + 1, cpu => run_ticks fwd g k (APEX_cpu_tick fwd (g cpu.clock) cpu)

/-- Code memory holding the records of `prog` from index 0 on; `beyond` is the
content of the cells outside the program. -/
def code_of (prog : List APEX_Instruction) (beyond : Int → APEX_Instruction) :
    Int → APEX_Instruction :=
  fun i => if 0 ≤ i ∧ i < prog.length then prog.getD i.toNat (beyond i) else beyond i

/-- The state the driver starts from: the result of `APEX_cpu_init` for the
program `prog`, with the cycle counter at 0.  (`APEX_cpu_init` assigns neither
`clock`, `ins_completed` nor `zero_flag`; the last two keep the content of `m`.) -/
def initial_state (m : APEX_CPU) (prog : List APEX_Instruction)
    (beyond : Int → APEX_Instruction) (cycles : Int) : APEX_CPU :=
  { APEX_cpu_init m (code_of prog beyond) prog.length cycles with clock := 0 }

/-- The fields no stage function assigns. -/
def same_static (a b : APEX_CPU) : Prop :=
  a.clock = b.clock ∧ a.function_cycles = b.function_cycles
    ∧ a.code_memory = b.code_memory ∧ a.code_memory_size = b.code_memory_size

/-- The first disjunct of the exit test of `APEX_cpu_run`. -/
def pc_test (initial_PC_Value : Int) (cpu : APEX_CPU) : Prop :=
  cpu.pc ≥ cpu.code_memory_size * 4 + initial_PC_Value + 16

/-- Assembly shorthand `MOVC Rrd,#imm`. -/
def MOVC (rd imm : Int) : APEX_Instruction :=
  { opcode := Opcode.MOVC, rd := rd, rs1 := 0, rs2 := 0, imm := imm }

/-- Assembly shorthand `ADD Rrd,Rrs1,Rrs2`. -/
def ADD (rd rs1 rs2 : Int) : APEX_Instruction :=
  { opcode := Opcode.ADD, rd := rd, rs1 := rs1, rs2 := rs2, imm := 0 }

/-- Assembly shorthand `LOAD Rrd,Rrs1,#imm`. -/
def LOAD (rd rs1 imm : Int) : APEX_Instruction :=
  { opcode := Opcode.LOAD, rd := rd, rs1 := rs1, rs2 := 0, imm := imm }

/-- Assembly shorthand `HALT`. -/
def HALT : APEX_Instruction :=
  { opcode := Opcode.HALT, rd := 0, rs1 := 0, rs2 := 0, imm := 0 }

/-- A record with the empty opcode text and all fields 0. -/
def empty_instruction : APEX_Instruction :=
  { opcode := Opcode.EMPTY, rd := 0, rs1 := 0, rs2 := 0, imm := 0 }

/-- A memory block whose every cell is 0. -/
def zero_cpu : APEX_CPU :=
  { clock := 0, pc := 0, regs := fun _ => 0, regs_valid := fun _ => 0,
    regs_forwarding := fun _ => 0, stage_F := zero_stage, stage_DRF := zero_stage,
    stage_EX := zero_stage, stage_MEM := zero_stage, stage_WB := zero_stage,
    code_memory := fun _ => empty_instruction, code_memory_size := 0,
    data_memory := fun _ => 0, ins_completed := 0, zero_flag := 0, function_cycles := 0 }

/-- Locals without initialiser that happen to hold zeros. -/
def zero_locals : Int → StageId → CPU_Stage :=
  fun _ _ => zero_stage

/-- The example program of the specification. -/
def prog_example : List APEX_Instruction := [MOVC 1 5, MOVC 2 10, ADD 3 1 2, HALT]

/-- The load-use program `LOAD R1,R2,#0; ADD R3,R1,R4; HALT`. -/
def prog_load_use : List APEX_Instruction := [LOAD 1 2 0, ADD 3 1 4, HALT]

/-- Code memory with `HALT` in cell 0 and `MOVC R1,#0` in every other cell. -/
def code_early_halt : Int → APEX_Instruction :=
  fun i => if i = 0 then HALT else MOVC 1 0

/-- The start state for the 2999-instruction program held in the cells
0..2998 of `code_early_halt` (a `HALT` followed by 2998 further instructions),
with cycle budget 100 and the cycle counter at 0. -/
def early_halt_state : APEX_CPU :=
  { APEX_cpu_init zero_cpu code_early_halt 2999 100 with clock := 0 }

/-- The start state for the load-use program: the pipeline as `APEX_cpu_init`
leaves it, with register contents `r`, validity flags `v`, forwarding table `f`
and data memory `d`. -/
def load_use_state (m : APEX_CPU) (beyond : Int → APEX_Instruction) (cycles : Int)
    (r v f d : Int → Int) : APEX_CPU :=
  { initial_state m prog_load_use beyond cycles with
    regs := r, regs_valid := v, regs_forwarding := f, data_memory := d }

/-- The opcodes `BZ` and `BNZ`. -/
def is_branch (o : Opcode) : Bool :=
  o = Opcode.BZ || o = Opcode.BNZ

/-- Control facts that hold between two iterations of the driver loop when
forwarding is enabled: Fetch is never busy, a branch in `MEM` or `EX` has
neither Fetch nor Decode stalled behind it, only a `MUL` is held stalled in
`EX`, and a latch that was never written holds no branch. -/
def branch_inv (s : APEX_CPU) : Prop :=
  s.stage_F.busy = false
    ∧ (is_branch s.stage_MEM.opcode = true → s.stage_F.stalled = false)
    ∧ (is_branch s.stage_EX.opcode = true →
        s.stage_DRF.stalled = false ∧ s.stage_F.stalled = false ∧ s.stage_DRF.busy = false)
    ∧ (s.stage_EX.stalled = true → s.stage_EX.opcode = Opcode.MUL)
    ∧ (s.stage_EX.busy = true → is_branch s.stage_MEM.opcode = false)
    ∧ (s.stage_DRF.busy = true → s.stage_DRF.stalled = false)

/-- The control facts after the call of `memory`. -/
def branch_inv_mem (s : APEX_CPU) : Prop :=
  s.stage_F.busy = false
    ∧ (is_branch s.stage_EX.opcode = true →
        s.stage_DRF.stalled = false ∧ s.stage_F.stalled = false ∧ s.stage_DRF.busy = false)
    ∧ (s.stage_EX.stalled = true →
        s.stage_EX.opcode = Opcode.MUL ∨ s.stage_EX.opcode = Opcode.NOP)
    ∧ (s.stage_EX.busy = true → is_branch s.stage_MEM.opcode = false)
    ∧ (s.stage_DRF.busy = true → s.stage_DRF.stalled = false)

/-- The control facts after the call of `execute`. -/
def branch_inv_ex (s : APEX_CPU) : Prop :=
  s.stage_F.busy = false
    ∧ (is_branch s.stage_MEM.opcode = true →
        is_branch s.stage_EX.opcode = true ∧ s.stage_EX.stalled = false)
    ∧ (is_branch s.stage_EX.opcode = true →
        s.stage_DRF.stalled = false ∧ s.stage_F.stalled = false ∧ s.stage_DRF.busy = false)
    ∧ (s.stage_EX.stalled = true → s.stage_EX.opcode = Opcode.MUL)
    ∧ (s.stage_EX.busy = true → is_branch s.stage_MEM.opcode = false)
    ∧ (s.stage_DRF.busy = true → s.stage_DRF.stalled = false)

/-- The control facts after the call of `decode`. -/
def branch_inv_drf (s : APEX_CPU) : Prop :=
  s.stage_F.busy = false
    ∧ (is_branch s.stage_MEM.opcode = true →
        s.stage_DRF.stalled = false ∧ s.stage_F.stalled = false)
    ∧ (is_branch s.stage_EX.opcode = true → s.stage_DRF.stalled = false)
    ∧ (s.stage_EX.stalled = true → s.stage_EX.opcode = Opcode.MUL)
    ∧ (s.stage_EX.busy = true → is_branch s.stage_MEM.opcode = false)
    ∧ (s.stage_DRF.busy = true → s.stage_DRF.stalled = false)

/-- Assembly shorthand `BZ #imm`. -/
def BZ (imm : Int) : APEX_Instruction :=
  { opcode := Opcode.BZ, rd := 0, rs1 := 0, rs2 := 0, imm := imm }

/-- A program with a taken branch: the `ADD` yields 0 and sets the zero flag,
and the `BZ` at address 4004 jumps over one instruction to address 4012. -/
def prog_branch : List APEX_Instruction := [ADD 1 2 3, BZ 8, MOVC 4 1, MOVC 5 2, HALT]

/-- The start state for `prog_branch`. -/
def branch_state : APEX_CPU :=
  APEX_cpu_init zero_cpu (code_of prog_branch (fun _ => empty_instruction)) 5 100

/-- The opcodes `MOVC`, `ADD`, `SUB`, `AND`, `OR` and `EX-OR`. -/
def is_alu (o : Opcode) : Bool :=
  o = Opcode.MOVC || o = Opcode.ADD || o = Opcode.SUB || o = Opcode.AND || o = Opcode.OR
    || o = Opcode.EXOR

/-- The value an instruction of opcode `o` with immediate `imm` computes from
the operand values `a` and `b`. -/
def alu_result (o : Opcode) (imm a b : Int) : Int :=
  if o = Opcode.ADD then a + b
  else if o = Opcode.SUB then a - b
  else if o = Opcode.AND then Int.land a b
  else if o = Opcode.OR then Int.lor a b
  else if o = Opcode.EXOR then Int.xor a b
  else imm + 0

/-- Executing one instruction on a register file, outside any pipeline. -/
def seq_step (r : Int → Int) (ins : APEX_Instruction) : Int → Int :=
  write r ins.rd (alu_result ins.opcode ins.imm (r ins.rs1) (r ins.rs2))

/-- Executing the instructions of a list one at a time, in program order. -/
def seq_exec (prog : List APEX_Instruction) (r : Int → Int) : Int → Int :=
  prog.foldl seq_step r

/-- The register file after the instructions in the cells `0 .. j-1` of `code`
have been executed one at a time, in program order, from `r0`. -/
def seq_regs (code : Int → APEX_Instruction) (r0 : Int → Int) : Nat → Int → Int
  | 0 => r0
  | j + 1 => seq_step (seq_regs code r0 j) (code j)

/-- The value instruction `j` computes in the sequential execution. -/
def seq_val (code : Int → APEX_Instruction) (r0 : Int → Int) (j : Nat) : Int :=
  alu_result (code j).opcode (code j).imm (seq_regs code r0 j (code j).rs1)
    (seq_regs code r0 j (code j).rs2)

/-- A straight-line program of `n` register-producing instructions with
pairwise distinct destination registers and source registers in `0..31`,
closed by a `HALT` in cell `n`. -/
structure straight_line (code : Int → APEX_Instruction) (n : Nat) : Prop where
  alu : ∀ j : Nat, j < n → is_alu (code j).opcode = true
  rs1_range : ∀ j : Nat, j < n → 0 ≤ (code j).rs1 ∧ (code j).rs1 < 32
  rs2_range : ∀ j : Nat, j < n → 0 ≤ (code j).rs2 ∧ (code j).rs2 < 32
  distinct : ∀ j k : Nat, j < n → k < n → (code j).rd = (code k).rd → j = k
  halt : (code n).opcode = Opcode.HALT

/-- The same class, for a program given as a list (the `HALT` is appended);
here the destination registers are in `0..31` as well, the range of the
arrays `regs`, `regs_valid` and `regs_forwarding`. -/
structure straight_line_list (prog : List APEX_Instruction) : Prop where
  alu : ∀ ins ∈ prog, is_alu ins.opcode = true
  rd_range : ∀ ins ∈ prog, 0 ≤ ins.rd ∧ ins.rd < 32
  rs1_range : ∀ ins ∈ prog, 0 ≤ ins.rs1 ∧ ins.rs1 < 32
  rs2_range : ∀ ins ∈ prog, 0 ≤ ins.rs2 ∧ ins.rs2 < 32
  distinct : (prog.map (fun ins => ins.rd)).Nodup

/-- Number of instructions an optional latch occupant stands for. -/
def cnt (o : Option Nat) : Nat :=
  if o.isSome then 1 else 0

/-- A latch that holds instruction `j` after `execute`: `buffer` is its result. -/
def lat_done (code : Int → APEX_Instruction) (r0 : Int → Int) (j : Nat) (l : CPU_Stage) :
    Prop :=
  l.busy = false ∧ l.stalled = false ∧ l.opcode = (code j).opcode ∧ l.rd = (code j).rd
    ∧ l.buffer = seq_val code r0 j

/-- A latch that holds instruction `j` after `decode`: its operand values are
those of the sequential execution. -/
def lat_raw (code : Int → APEX_Instruction) (r0 : Int → Int) (j : Nat) (l : CPU_Stage) :
    Prop :=
  l.busy = false ∧ l.stalled = false ∧ l.opcode = (code j).opcode ∧ l.rd = (code j).rd
    ∧ alu_result l.opcode l.imm l.rs1_value l.rs2_value = seq_val code r0 j

/-- A latch that holds no instruction: never written (busy, with the empty
opcode text left by `memset`), or a `NOP` bubble. -/
def lat_idle (l : CPU_Stage) : Prop :=
  l.stalled = false ∧ ((l.busy = true ∧ l.opcode = Opcode.EMPTY) ∨ l.opcode = Opcode.NOP)

/-- Content of the `MEM` or `WB` latch: instruction `j < n`, executed, or nothing. -/
def lat_W (code : Int → APEX_Instruction) (r0 : Int → Int) (n : Nat) (w : Option Nat)
    (l : CPU_Stage) : Prop :=
  match w with
  | some j => j < n ∧ lat_done code r0 j l
  | none => lat_idle l

/-- Content of the `EX` latch: instruction `j < n`, decoded, or nothing. -/
def lat_X (code : Int → APEX_Instruction) (r0 : Int → Int) (n : Nat) (x : Option Nat)
    (l : CPU_Stage) : Prop :=
  match x with
  | some j => j < n ∧ lat_raw code r0 j l
  | none => lat_idle l

/-- The architectural part of the pipeline invariant: `c` instructions are
committed, the instructions `c .. i-1` are in flight, and `x` is the one (if
any) not yet executed.  Registers are those of the sequential execution after
`c` instructions, a register in `0..31` is invalid exactly when an instruction
in flight writes it, and with forwarding the table holds the result of every
executed instruction in flight. -/
def arch (fwd : Bool) (code : Int → APEX_Instruction) (n : Nat) (r0 d0 : Int → Int)
    (s : APEX_CPU) (c i : Nat) (x : Option Nat) : Prop :=
  s.code_memory = code ∧ s.data_memory = d0 ∧ s.regs = seq_regs code r0 c
    ∧ (∀ r : Int, 0 ≤ r → r < 32 →
        (s.regs_valid r = 0 ↔ ∃ j : Nat, c ≤ j ∧ j < i ∧ j < n ∧ (code j).rd = r))
    ∧ (fwd = true → ∀ j : Nat, c ≤ j → j < i → j < n → x ≠ some j →
        s.regs_forwarding (code j).rd = seq_val code r0 j)

/-- A latch holding the fields of the instruction in code cell `j`. -/
def holds_code (code : Int → APEX_Instruction) (j : Nat) (l : CPU_Stage) : Prop :=
  l.opcode = (code j).opcode ∧ l.rd = (code j).rd ∧ l.rs1 = (code j).rs1
    ∧ l.rs2 = (code j).rs2 ∧ l.imm = (code j).imm

/-- The front of the pipeline before the `HALT` is decoded: nothing fetched
yet; or instruction `i` in Decode, not stalled; or (without forwarding)
instruction `i` stalled in Decode and instruction `i + 1` held in Fetch. -/
def front (fwd : Bool) (code : Int → APEX_Instruction) (n : Nat) (s : APEX_CPU) (i : Nat) :
    Prop :=
  s.stage_F.busy = false
    ∧ ((i = 0 ∧ s.stage_DRF.busy = true ∧ s.stage_DRF.stalled = false
          ∧ s.stage_EX.busy = true ∧ s.stage_F.stalled = false ∧ s.pc = 4000)
      ∨ (i ≤ n ∧ s.stage_DRF.busy = false ∧ s.stage_DRF.stalled = false
          ∧ holds_code code i s.stage_DRF ∧ s.stage_F.stalled = false
          ∧ s.pc = 4000 + 4 * ((i : Int) + 1))
      ∨ (fwd = false ∧ i < n ∧ s.stage_DRF.busy = false ∧ s.stage_DRF.stalled = true
          ∧ holds_code code i s.stage_DRF ∧ s.stage_F.stalled = true
          ∧ holds_code code (i + 1) s.stage_F ∧ s.pc = 4000 + 4 * ((i : Int) + 2)))

/-- Ticks the pipeline can still spend without decoding a further instruction:
the position of the youngest instruction in flight. -/
def drain (w m x : Option Nat) : Nat :=
  if x.isSome then 3 else if m.isSome then 2 else if w.isSome then 1 else 0

/-- Termination measure of phase A. -/
def measure_A (n i : Nat) (w m x : Option Nat) (drf_busy : Bool) : Nat :=
  4 * (n - i) + drain w m x + (if drf_busy then 1 else 0)

/-- Pipeline invariant, phase A: the `HALT` is not decoded yet.  `w`, `m`, `x`
are the instructions in the `WB`, `MEM` and `EX` latches. -/
def inv_A (fwd : Bool) (code : Int → APEX_Instruction) (n : Nat) (r0 d0 : Int → Int)
    (s : APEX_CPU) (c i : Nat) (w m x : Option Nat) : Prop :=
  arch fwd code n r0 d0 s c i x
    ∧ lat_W code r0 n w s.stage_WB ∧ lat_W code r0 n m s.stage_MEM
    ∧ lat_X code r0 n x s.stage_EX
    ∧ (∀ j, w = some j → j = c) ∧ (∀ j, m = some j → j = c + cnt w)
    ∧ (∀ j, x = some j → j = c + cnt w + cnt m)
    ∧ i = c + cnt w + cnt m + cnt x
    ∧ (s.stage_MEM.busy = true → w = none) ∧ (s.stage_EX.busy = true → m = none)
    ∧ front fwd code n s i

/-- A latch that holds the `HALT`, neither busy nor stalled. -/
def lat_halt (l : CPU_Stage) : Prop :=
  l.busy = false ∧ l.stalled = false ∧ l.opcode = Opcode.HALT

/-- A `NOP` bubble, not busy, with the given stall flag. -/
def lat_nop (st : Bool) (l : CPU_Stage) : Prop :=
  l.busy = false ∧ l.stalled = st ∧ l.opcode = Opcode.NOP

/-- Pipeline invariant, phase B: the `HALT` is in the `EX` latch. -/
def inv_B (fwd : Bool) (code : Int → APEX_Instruction) (n : Nat) (r0 d0 : Int → Int)
    (s : APEX_CPU) (c : Nat) (w m : Option Nat) : Prop :=
  arch fwd code n r0 d0 s c n none
    ∧ lat_W code r0 n w s.stage_WB ∧ lat_W code r0 n m s.stage_MEM
    ∧ lat_halt s.stage_EX
    ∧ (∀ j, w = some j → j = c) ∧ (∀ j, m = some j → j = c + cnt w)
    ∧ n = c + cnt w + cnt m
    ∧ (s.stage_MEM.busy = true → w = none)
    ∧ s.stage_F.busy = false ∧ s.stage_F.stalled = false
    ∧ s.stage_DRF.busy = false ∧ s.stage_DRF.stalled = false
    ∧ s.pc = 4000 + 4 * ((n : Int) + 2)

/-- Pipeline invariant, phase C: the `HALT` is in the `MEM` latch. -/
def inv_C (fwd : Bool) (code : Int → APEX_Instruction) (n : Nat) (r0 d0 : Int → Int)
    (s : APEX_CPU) (c : Nat) (w : Option Nat) : Prop :=
  arch fwd code n r0 d0 s c n none
    ∧ lat_W code r0 n w s.stage_WB ∧ lat_halt s.stage_MEM ∧ lat_halt s.stage_EX
    ∧ (∀ j, w = some j → j = c) ∧ n = c + cnt w
    ∧ lat_nop true s.stage_F ∧ lat_nop true s.stage_DRF
    ∧ s.pc = 4000 + 4 * ((n : Int) + 2)

/-- Pipeline invariant, phase D: the `HALT` is in the `WB` latch and every
instruction before it is committed. -/
def inv_D (code : Int → APEX_Instruction) (n : Nat) (r0 d0 : Int → Int) (s : APEX_CPU) :
    Prop :=
  s.code_memory = code ∧ s.data_memory = d0 ∧ s.regs = seq_regs code r0 n
    ∧ lat_halt s.stage_WB ∧ lat_nop false s.stage_MEM ∧ lat_nop false s.stage_EX
    ∧ lat_nop true s.stage_F ∧ lat_nop true s.stage_DRF
    ∧ s.pc = 4000 + 4 * ((n : Int) + 2)

/-- Pipeline invariant, phase E: the `HALT` is committed. -/
def inv_E (code : Int → APEX_Instruction) (n : Nat) (r0 d0 : Int → Int) (s : APEX_CPU) :
    Prop :=
  s.code_memory = code ∧ s.data_memory = d0 ∧ s.regs = seq_regs code r0 n
    ∧ lat_halt s.stage_WB ∧ lat_nop false s.stage_MEM ∧ lat_nop false s.stage_EX
    ∧ s.pc = 4000 + 4 * ((n : Int) + 2) + 12000

/-- The pipeline invariant of some phase before the `HALT` is committed. -/
def inv_run (fwd : Bool) (code : Int → APEX_Instruction) (n : Nat) (r0 d0 : Int → Int)
    (s : APEX_CPU) : Prop :=
  (∃ c i w m x, inv_A fwd code n r0 d0 s c i w m x)
    ∨ (∃ c w m, inv_B fwd code n r0 d0 s c w m)
    ∨ (∃ c w, inv_C fwd code n r0 d0 s c w)
    ∨ inv_D code n r0 d0 s

/-- The opcodes whose branch in `writeback` assigns `regs[rd]`. -/
def writes_register (o : Opcode) : Bool :=
  is_arith o || o = Opcode.AND || o = Opcode.OR || o = Opcode.EXOR || o = Opcode.LOAD
    || o = Opcode.MOVC

/-- The latch holds an instruction that has register `r` as its destination. -/
def latch_writes (l : CPU_Stage) (r : Int) : Bool :=
  !l.busy && writes_register l.opcode && decide (l.rd = r)

/-- Number of instructions with destination `r` that have left Decode and are
not committed: the ones in the `EX`, `MEM` and `WB` latches between two
iterations of the driver loop. -/
def in_flight_writers (s : APEX_CPU) (r : Int) : Nat :=
  (if latch_writes s.stage_EX r then 1 else 0)
    + (if latch_writes s.stage_MEM r then 1 else 0)
    + (if latch_writes s.stage_WB r then 1 else 0)

/-- Two producers of `R1` back to back: `MOVC R1,#5; MOVC R1,#7; HALT`. -/
def prog_two_writers : List APEX_Instruction := [MOVC 1 5, MOVC 1 7, HALT]

/-- A consumer behind two producers of `R1`:
`MOVC R1,#5; MOVC R1,#7; ADD R2,R1,R1; HALT`. -/
def prog_overwrite : List APEX_Instruction := [MOVC 1 5, MOVC 1 7, ADD 2 1 1, HALT]

/-- A program of the straight-line class: `MOVC R1,#5; MOVC R2,#10; ADD R3,R1,R2`. -/
def prog_straight : List APEX_Instruction := [MOVC 1 5, MOVC 2 10, ADD 3 1 2]
/-- A state whose `MEM` latch holds a `BZ #8` fetched at 4004, with the zero
flag set and a `MOVC R3` in the `EX` latch. -/
def state_bz_taken : APEX_CPU :=
  { zero_cpu with
    stage_MEM := { zero_stage with opcode := Opcode.BZ, pc := 4004, imm := 8 }
    stage_EX := { zero_stage with opcode := Opcode.MOVC, pc := 4008, rd := 3 }
    zero_flag := 1 }

/-- A state whose Decode latch holds `ADD R1,R2,R3`, with `R2` valid (value 5)
and `R3` pending (forwarded value 9). -/
def state_add_decode : APEX_CPU :=
  { zero_cpu with
    stage_DRF := { zero_stage with opcode := Opcode.ADD, rd := 1, rs1 := 2, rs2 := 3 }
    regs := fun i => if i = 2 then 5 else 0
    regs_valid := fun i => if i = 3 then 0 else 1
    regs_forwarding := fun i => if i = 3 then 9 else 0 }

/-- A state whose Decode latch holds a stalled `BZ #8` while the `MEM` latch
holds an `ADD`. -/
def state_bz_stalled : APEX_CPU :=
  { zero_cpu with
    stage_DRF := { zero_stage with opcode := Opcode.BZ, imm := 8, stalled := true }
    stage_MEM := { zero_stage with opcode := Opcode.ADD } }

/-- A state whose `EX` latch holds a `MUL R1` with operand values 3 and 4. -/
def state_mul : APEX_CPU :=
  { zero_cpu with
    stage_EX := { zero_stage with opcode := Opcode.MUL, rd := 1, rs1_value := 3,
                                  rs2_value := 4 } }

/-- The rest of the tick after the first `execute` call, and the next tick up
to its `execute` call: `decode`, `fetch`, `clock++`, `writeback`, `memory`,
`execute`. -/
def until_next_execute (fwd : Bool) (ud uw um ux : CPU_Stage) (cpu : APEX_CPU) : APEX_CPU :=
  let cpu := fetch (decode fwd ud cpu)
  let cpu := { cpu with clock := cpu.clock + 1 }
  execute fwd ux (memory fwd um (writeback fwd uw cpu))

/-- A state as `APEX_cpu_init` leaves it for the one-instruction code memory
`MOVC R1,#5` with `pc` at the first instruction. -/
def state_fetch : APEX_CPU :=
  { zero_cpu with pc := 4000, code_memory := fun _ => MOVC 1 5, code_memory_size := 1 }

/-- A state whose Fetch latch is stalled holding `MOVC R1,#5` fetched at 4004. -/
def state_fetch_stalled : APEX_CPU :=
  { zero_cpu with
    pc := 4008
    stage_F := { zero_stage with opcode := Opcode.MOVC, pc := 4004, rd := 1, imm := 5,
                                 stalled := true } }

/-- The pipeline behind an executed `HALT`: Fetch and Decode hold stalled
bubbles, and the `EX` and `MEM` latches hold the `HALT` or a bubble (so `memory`
never redirects or flushes). -/
def halted_front (s : APEX_CPU) : Prop :=
  lat_nop true s.stage_F ∧ lat_nop true s.stage_DRF
    ∧ (s.stage_EX.opcode = Opcode.HALT ∨ s.stage_EX.opcode = Opcode.NOP)
    ∧ (s.stage_MEM.opcode = Opcode.HALT ∨ s.stage_MEM.opcode = Opcode.NOP)

/-- The state the `fetch` call of a tick is applied to. -/
def before_fetch (fwd : Bool) (g : StageId → CPU_Stage) (cpu : APEX_CPU) : APEX_CPU :=
  decode fwd (g StageId.DRF) (execute fwd (g StageId.EX)
    (memory fwd (g StageId.MEM) (writeback fwd (g StageId.WB) cpu)))

/-- A state whose `EX` latch holds a `HALT`. -/
def state_halt_ex : APEX_CPU :=
  { zero_cpu with stage_EX := { zero_stage with opcode := Opcode.HALT, pc := 4004 } }

/-- A state whose `WB` latch holds an executed `ADD R1` with result 0. -/
def state_add_wb : APEX_CPU :=
  { zero_cpu with stage_WB := { zero_stage with opcode := Opcode.ADD, rd := 1, buffer := 0 } }

/-- Assembly shorthand `STORE Rrs1,Rrs2,#imm`. -/
def STORE (rs1 rs2 imm : Int) : APEX_Instruction :=
  { opcode := Opcode.STORE, rd := 0, rs1 := rs1, rs2 := rs2, imm := imm }

/-- The state `decode` is called on in the third tick of `prog_branch`: the
`BZ` is in the Decode latch and the `ADD` before it has just been executed. -/
def branch_decode_state : APEX_CPU :=
  execute true zero_stage (memory true zero_stage (writeback true zero_stage
    (run_ticks true zero_locals 2 branch_state)))
/-- The start state for the one-instruction program `HALT`, budget 100. -/
def halt_only_state : APEX_CPU :=
  initial_state zero_cpu [HALT] (fun _ => empty_instruction) 100

/-- Locals without initialiser that happen to hold `rd = 5` and `buffer = 9`. -/
def garbage_locals : Int → StageId → CPU_Stage :=
  fun _ _ => { zero_stage with rd := 5, buffer := 9 }

/-- The state the `execute` call of a tick is applied to. -/
def before_execute (fwd : Bool) (g : StageId → CPU_Stage) (cpu : APEX_CPU) : APEX_CPU :=
  memory fwd (g StageId.MEM) (writeback fwd (g StageId.WB) cpu)

/-- A state at the head of a tick with `MOVC R2,#10` in the `EX` latch and
`ADD R3,R1,R2` in the Decode latch; `R2` is reserved and its forwarding entry
still holds 0. -/
def state_forward : APEX_CPU :=
  { zero_cpu with
    stage_EX := { zero_stage with opcode := Opcode.MOVC, rd := 2, imm := 10 }
    stage_DRF := { zero_stage with opcode := Opcode.ADD, rd := 3, rs1 := 1, rs2 := 2 }
    stage_MEM := { zero_stage with busy := true }
    stage_WB := { zero_stage with busy := true }
    regs_valid := fun i => if i = 2 then 0 else 1 }

/-- The latch `fetch` builds for code cell `j` when the Fetch latch was never
stalled: the fields `fetch` does not assign are still those of `memset`. -/
def fetched (code : Int → APEX_Instruction) (j : Nat) : CPU_Stage :=
  { zero_stage with pc := 4000 + 4 * (j : Int), opcode := (code j).opcode, rd := (code j).rd,
                    rs1 := (code j).rs1, rs2 := (code j).rs2, imm := (code j).imm }

/-- That latch after `execute`: a `MOVC` carries its immediate in `buffer`. -/
def executed (code : Int → APEX_Instruction) (j : Nat) : CPU_Stage :=
  { fetched code j with
    buffer := if (code j).opcode = Opcode.MOVC then (code j).imm + 0 else 0 }

/-- The five latches `F`, `DRF`, `EX`, `MEM`, `WB` after `k` ticks of a pipeline
in which nothing stalls: the instructions move one latch per tick. -/
def movc_latches (code : Int → APEX_Instruction) :
    Nat → CPU_Stage × CPU_Stage × CPU_Stage × CPU_Stage × CPU_Stage
  | 0 => (zero_stage, { zero_stage with busy := true }, { zero_stage with busy := true },
      { zero_stage with busy := true }, { zero_stage with busy := true })
  | 1 => (fetched code 0, fetched code 0, { zero_stage with busy := true },
      { zero_stage with busy := true }, { zero_stage with busy := true })
  | 2 => (fetched code 1, fetched code 1, fetched code 0,
      { zero_stage with busy := true }, { zero_stage with busy := true })
  | 3 => (fetched code 2, fetched code 2, fetched code 1, executed code 0,
      { zero_stage with busy := true })
  | k + 4 => (fetched code (k + 3), fetched code (k + 3), fetched code (k + 2),
      executed code (k + 1), executed code k)

/-- Code memory with `n` `MOVC` instructions and the empty opcode in every cell
from `n` on. -/
def movc_code (code : Int → APEX_Instruction) (n : Nat) : Prop :=
  (∀ j : Nat, j < n → (code j).opcode = Opcode.MOVC)
    ∧ (∀ j : Nat, n ≤ j → (code j).opcode = Opcode.EMPTY)

/-- The state after `k` ticks of a `MOVC`-only program: `pc` has advanced `k`
cells, the latches hold the last instructions fetched, and the instructions
`0 .. k-5` are committed. -/
def movc_inv (code : Int → APEX_Instruction) (r0 : Int → Int) (c0 : Int) (k : Nat)
    (s : APEX_CPU) : Prop :=
  s.code_memory = code ∧ s.pc = 4000 + 4 * (k : Int)
    ∧ (s.stage_F, s.stage_DRF, s.stage_EX, s.stage_MEM, s.stage_WB) = movc_latches code k
    ∧ s.regs = seq_regs code r0 (k - 4) ∧ s.ins_completed = c0 + ((k - 4 : Nat) : Int)

/-- A program of `MOVC` instructions with destination registers in `0..31`. -/
structure movc_list (prog : List APEX_Instruction) : Prop where
  movc : ∀ ins ∈ prog, ins.opcode = Opcode.MOVC
  rd_range : ∀ ins ∈ prog, 0 ≤ ins.rd ∧ ins.rd < 32

/-- Three `MOVC`, two of them to `R1`: `MOVC R1,#5; MOVC R2,#10; MOVC R1,#7`. -/
def prog_movc : List APEX_Instruction := [MOVC 1 5, MOVC 2 10, MOVC 1 7]

/-- The index at which the `fetch` call on `cpu` reads `code_memory`, if it
reads: `fetch` indexes code memory in its first branch only. -/
def fetch_read (cpu : APEX_CPU) : Option Int :=
  if !cpu.stage_F.busy && !cpu.stage_F.stalled then some (get_code_index cpu.pc) else none

/-- The opcodes that neither redirect `pc` nor freeze Fetch and Decode: every
opcode but `HALT`, `BZ`, `BNZ` and `JUMP`. -/
def is_plain (o : Opcode) : Bool :=
  o ≠ Opcode.HALT && o ≠ Opcode.BZ && o ≠ Opcode.BNZ && o ≠ Opcode.JUMP

/-- Code memory whose first `HALT` is in cell `h`, with no branch and no `JUMP`
before it. -/
def halt_at (code : Int → APEX_Instruction) (h : Nat) : Prop :=
  (∀ j : Nat, j < h → is_plain (code j).opcode = true) ∧ (code h).opcode = Opcode.HALT

/-- The `HALT` is not fetched yet: `pc` points at a cell `i ≤ h` and no latch
holds a `HALT`, a branch or a `JUMP`. -/
def front_open (h : Nat) (s : APEX_CPU) : Prop :=
  (∃ i : Nat, i ≤ h ∧ s.pc = 4000 + 4 * (i : Int)) ∧ s.stage_F.busy = false
    ∧ is_plain s.stage_F.opcode = true ∧ is_plain s.stage_DRF.opcode = true
    ∧ is_plain s.stage_EX.opcode = true ∧ is_plain s.stage_MEM.opcode = true
    ∧ is_plain s.stage_WB.opcode = true

/-- The `HALT` is in the Decode latch, about to be decoded. -/
def halt_in_decode (h : Nat) (s : APEX_CPU) : Prop :=
  s.pc = 4000 + 4 * ((h : Int) + 1) ∧ s.stage_F.busy = false ∧ s.stage_F.stalled = false
    ∧ s.stage_DRF.opcode = Opcode.HALT ∧ s.stage_DRF.busy = false
    ∧ s.stage_DRF.stalled = false
    ∧ is_plain s.stage_EX.opcode = true ∧ is_plain s.stage_MEM.opcode = true
    ∧ is_plain s.stage_WB.opcode = true

/-- The `HALT` is held in a stalled Fetch latch behind a stalled Decode. -/
def halt_held (h : Nat) (s : APEX_CPU) : Prop :=
  s.pc = 4000 + 4 * ((h : Int) + 1) ∧ s.stage_F.busy = false ∧ s.stage_F.stalled = true
    ∧ s.stage_F.opcode = Opcode.HALT ∧ s.stage_DRF.stalled = true
    ∧ is_plain s.stage_DRF.opcode = true
    ∧ is_plain s.stage_EX.opcode = true ∧ is_plain s.stage_MEM.opcode = true
    ∧ is_plain s.stage_WB.opcode = true

/-- The `HALT` is in the `EX` latch, about to be executed. -/
def halt_in_ex (s : APEX_CPU) : Prop :=
  s.stage_EX.opcode = Opcode.HALT ∧ s.stage_EX.busy = false ∧ s.stage_EX.stalled = false
    ∧ is_plain s.stage_MEM.opcode = true ∧ is_plain s.stage_WB.opcode = true

/-- The `HALT` is stalled in Decode behind a stalled `EX` latch, and Fetch is
stalled behind it. -/
def halt_behind_stall (s : APEX_CPU) : Prop :=
  s.stage_F.stalled = true ∧ s.stage_DRF.stalled = true
    ∧ s.stage_DRF.opcode = Opcode.HALT ∧ s.stage_DRF.busy = false
    ∧ s.stage_EX.stalled = true
    ∧ is_plain s.stage_EX.opcode = true ∧ is_plain s.stage_MEM.opcode = true
    ∧ is_plain s.stage_WB.opcode = true

/-- Invariant of every run of a program without branch and `JUMP` whose first
`HALT` is in cell `h`: one of the six situations above. -/
def fetch_inv (h : Nat) (s : APEX_CPU) : Prop :=
  front_open h s ∨ halt_in_decode h s ∨ halt_held h s ∨ halt_in_ex s
    ∨ halt_behind_stall s ∨ halted_front s
/-- The least value of an `int` of 32 bits (`INT_MIN`). -/
def int_min : Int := -2147483648

/-- The greatest value of an `int` of 32 bits (`INT_MAX`). -/
def int_max : Int := 2147483647

/-- The value the stage function of `st` returns when called on `cpu`: each of
`fetch`, `decode`, `execute`, `memory` and `writeback` has one return
statement, `return 0;`, at its end, and no path leaves the function before
it. -/
def stage_return (st : StageId) (cpu : APEX_CPU) : Int :=
  match st, cpu with
  | StageId.F, _ => 0
  | StageId.DRF, _ => 0
  | StageId.EX, _ => 0
  | StageId.MEM, _ => 0
  | StageId.WB, _ => 0

/-- A state whose Decode latch holds `ADD R1,R40,R2`: the source register
number 40 is outside `0..31`.  Every register `R0..R31` holds 0 and is flagged
valid with 1, every forwarding entry holds 1, and what lies at the index 40 of
`regs` and of `regs_valid` is 1. -/
def state_source_outside : APEX_CPU :=
  { zero_cpu with
    stage_DRF := { zero_stage with opcode := Opcode.ADD, rd := 1, rs1 := 40, rs2 := 2 }
    regs := fun i => if 0 ≤ i ∧ i < 32 then 0 else 1
    regs_valid := fun _ => 1
    regs_forwarding := fun _ => 1 }

/-- The program `MOVC R1,#5; MOVC R1,#7; MOVC R9,#0; ADD R2,R1,R1; HALT`: two
producers of `R1`, an unrelated instruction, and a consumer of `R1`. -/
def prog_overwrite_spaced : List APEX_Instruction :=
  [MOVC 1 5, MOVC 1 7, MOVC 9 0, ADD 2 1 1, HALT]

/-- A register-to-register instruction in the Decode latch leaves Decode in
the `decode` call on `cpu` (forwarding enabled): `EX` is not stalled, and
either the latch is stalled (the hazard is evaluated again and, with
forwarding, no longer holds the instruction), or the latch is live (neither
busy nor stalled) and the instruction is not held back: both sources are
flagged valid, or `EX` holds no `LOAD` of a source. -/
def leaves_decode (cpu : APEX_CPU) : Prop :=
  is_reg_reg cpu.stage_DRF.opcode = true ∧ cpu.stage_EX.stalled = false
    ∧ (cpu.stage_DRF.stalled = true
      ∨ (cpu.stage_DRF.busy = false ∧ cpu.stage_DRF.stalled = false
        ∧ ((cpu.regs_valid cpu.stage_DRF.rs1 ≠ 0 ∧ cpu.regs_valid cpu.stage_DRF.rs2 ≠ 0)
          ∨ ¬ (cpu.stage_EX.opcode = Opcode.LOAD
            ∧ (cpu.stage_EX.rd = cpu.stage_DRF.rs1 ∨ cpu.stage_EX.rd = cpu.stage_DRF.rs2)))))

/-- The start state of `prog_load_use` with registers `R2 = 20`, `R4 = 3`,
every validity flag 1, a zero forwarding table and data memory in which the
cell `a` holds `a + 1000`. -/
def load_use_start : APEX_CPU :=
  load_use_state zero_cpu (fun _ => empty_instruction) 100
    (fun i => if i = 2 then 20 else if i = 4 then 3 else 0) (fun _ => 1) (fun _ => 0)
    (fun a => a + 1000)

/-- The state the `decode` call of a tick is applied to. -/
def before_decode (fwd : Bool) (g : StageId → CPU_Stage) (cpu : APEX_CPU) : APEX_CPU :=
  execute fwd (g StageId.EX) (before_execute fwd g cpu)
/-! ## Basic facts -/

theorem write_apply (a : Int → Int) (i v j : Int) :
    write a i v j = if j = i then v else a j := rfl

theorem get_code_index_eq (pc : Int) (h : 4000 ≤ pc) :
    get_code_index pc = (pc - 4000) / 4 := by
  unfold get_code_index
  exact Int.tdiv_eq_ediv (by omega) (by omega)

theorem run_ticks_succ (fwd : Bool) (g : Int → StageId → CPU_Stage) (k : Nat)
    (cpu : APEX_CPU) :
    run_ticks fwd g (k + 1) cpu = run_ticks fwd g k (APEX_cpu_tick fwd (g cpu.clock) cpu) :=
  rfl

theorem run_ticks_succ_last (fwd : Bool) (g : Int → StageId → CPU_Stage) (k : Nat)
    (cpu : APEX_CPU) :
    run_ticks fwd g (k + 1) cpu
      = APEX_cpu_tick fwd (g (run_ticks fwd g k cpu).clock) (run_ticks fwd g k cpu) := by
  induction k generalizing cpu with
  | zero => rfl
  | succ k ih => rw [run_ticks_succ, ih]; rfl

theorem run_loop_done (fwd : Bool) (g : Int → StageId → CPU_Stage) (ipc : Int) (fuel : Nat)
    (cpu : APEX_CPU) (h : run_done ipc cpu = true) :
    run_loop fwd g ipc fuel cpu = some (0, cpu) := by
  cases fuel <;> simp [run_loop, h]

theorem run_loop_step (fwd : Bool) (g : Int → StageId → CPU_Stage) (ipc : Int) (fuel : Nat)
    (cpu : APEX_CPU) (h : run_done ipc cpu = false) :
    run_loop fwd g ipc (fuel + 1) cpu
      = run_loop fwd g ipc fuel (APEX_cpu_tick fwd (g cpu.clock) cpu) := by
  simp [run_loop, h]

theorem same_static_trans {a b c : APEX_CPU} (h1 : same_static a b) (h2 : same_static b c) :
    same_static a c :=
  ⟨h1.1.trans h2.1, h1.2.1.trans h2.2.1, h1.2.2.1.trans h2.2.2.1, h1.2.2.2.trans h2.2.2.2⟩

theorem fetch_static (cpu : APEX_CPU) : same_static (fetch cpu) cpu := by
  unfold fetch; dsimp only; split_ifs <;> exact ⟨rfl, rfl, rfl, rfl⟩

theorem decode_read_static (fwd : Bool) (cpu : APEX_CPU) :
    same_static (decode_read fwd cpu) cpu := by
  obtain ⟨o, ho⟩ : ∃ o, cpu.stage_DRF.opcode = o := ⟨_, rfl⟩
  cases o <;> simp only [decode_read, ho, is_reg_reg] <;> simp <;> (try split_ifs) <;>
    exact ⟨rfl, rfl, rfl, rfl⟩

theorem decode_retry_static (fwd : Bool) (u : CPU_Stage) (cpu : APEX_CPU) :
    same_static (decode_retry fwd u cpu) cpu := by
  obtain ⟨o, ho⟩ : ∃ o, cpu.stage_DRF.opcode = o := ⟨_, rfl⟩
  cases o <;> simp only [decode_retry, ho, is_reg_reg] <;> simp <;> (try split_ifs) <;>
    exact ⟨rfl, rfl, rfl, rfl⟩

theorem decode_copy_static (u : CPU_Stage) (cpu : APEX_CPU) :
    same_static (decode_copy u cpu) cpu := by
  unfold decode_copy; split_ifs <;> exact ⟨rfl, rfl, rfl, rfl⟩

theorem decode_static (fwd : Bool) (u : CPU_Stage) (cpu : APEX_CPU) :
    same_static (decode fwd u cpu) cpu := by
  have h1 := same_static_trans (decode_copy_static u _) (decode_read_static fwd cpu)
  have h2 := decode_retry_static fwd u cpu
  unfold decode
  split_ifs <;> first | exact h1 | exact h2 | exact ⟨rfl, rfl, rfl, rfl⟩

theorem execute_static (fwd : Bool) (u : CPU_Stage) (cpu : APEX_CPU) :
    same_static (execute fwd u cpu) cpu := by
  obtain ⟨o, ho⟩ : ∃ o, cpu.stage_EX.opcode = o := ⟨_, rfl⟩
  cases o <;> simp only [execute, ho] <;> simp <;> (try split_ifs) <;>
    exact ⟨rfl, rfl, rfl, rfl⟩

theorem memory_static (fwd : Bool) (u : CPU_Stage) (cpu : APEX_CPU) :
    same_static (memory fwd u cpu) cpu := by
  obtain ⟨o, ho⟩ : ∃ o, cpu.stage_MEM.opcode = o := ⟨_, rfl⟩
  cases o <;> simp only [memory, ho] <;> simp <;> (try split_ifs) <;>
    exact ⟨rfl, rfl, rfl, rfl⟩

theorem writeback_static (fwd : Bool) (u : CPU_Stage) (cpu : APEX_CPU) :
    same_static (writeback fwd u cpu) cpu := by
  obtain ⟨o, ho⟩ : ∃ o, cpu.stage_WB.opcode = o := ⟨_, rfl⟩
  cases o <;> simp only [writeback, ho, is_arith] <;> simp <;> (try split_ifs) <;>
    exact ⟨rfl, rfl, rfl, rfl⟩

theorem tick_static (fwd : Bool) (g : StageId → CPU_Stage) (cpu : APEX_CPU) :
    (APEX_cpu_tick fwd g cpu).clock = cpu.clock + 1
      ∧ (APEX_cpu_tick fwd g cpu).function_cycles = cpu.function_cycles
      ∧ (APEX_cpu_tick fwd g cpu).code_memory = cpu.code_memory
      ∧ (APEX_cpu_tick fwd g cpu).code_memory_size = cpu.code_memory_size := by
  have h := same_static_trans (fetch_static _) (same_static_trans (decode_static fwd (g StageId.DRF) _)
    (same_static_trans (execute_static fwd (g StageId.EX) _)
      (same_static_trans (memory_static fwd (g StageId.MEM) _)
        (writeback_static fwd (g StageId.WB) cpu))))
  obtain ⟨h1, h2, h3, h4⟩ := h
  refine ⟨?_, ?_, ?_, ?_⟩
  · show (fetch _).clock + 1 = _
    rw [h1]
  · exact h2
  · exact h3
  · exact h4

theorem run_ticks_static (fwd : Bool) (g : Int → StageId → CPU_Stage) (k : Nat)
    (cpu : APEX_CPU) :
    (run_ticks fwd g k cpu).clock = cpu.clock + k
      ∧ (run_ticks fwd g k cpu).function_cycles = cpu.function_cycles
      ∧ (run_ticks fwd g k cpu).code_memory = cpu.code_memory
      ∧ (run_ticks fwd g k cpu).code_memory_size = cpu.code_memory_size := by
  induction k generalizing cpu with
  | zero => simp [run_ticks]
  | succ k ih =>
    obtain ⟨h1, h2, h3, h4⟩ := tick_static fwd (g cpu.clock) cpu
    obtain ⟨i1, i2, i3, i4⟩ := ih (APEX_cpu_tick fwd (g cpu.clock) cpu)
    rw [run_ticks_succ]
    refine ⟨?_, i2.trans h2, i3.trans h3, i4.trans h4⟩
    rw [i1, h1]; push_cast; ring

/-- The loop of the driver stops within the cycle budget: from a state whose
clock is `d` ticks short of `function_cycles`, it returns after some `k ≤ d`
iterations, `k` being the first iteration count at which the exit test holds. -/
theorem run_loop_budget (fwd : Bool) (g : Int → StageId → CPU_Stage) (ipc : Int) (d : Nat) :
    ∀ (cpu : APEX_CPU) (fuel : Nat), cpu.clock + d = cpu.function_cycles → d ≤ fuel →
      ∃ k : Nat, k ≤ d
        ∧ run_loop fwd g ipc fuel cpu = some (0, run_ticks fwd g k cpu)
        ∧ (∀ j : Nat, j < k → run_done ipc (run_ticks fwd g j cpu) = false)
        ∧ run_done ipc (run_ticks fwd g k cpu) = true := by
  induction d with
  | zero =>
    intro cpu fuel hc _
    have hd : run_done ipc cpu = true := by
      simp only [run_done, Bool.or_eq_true, decide_eq_true_eq]
      right; simpa using hc
    exact ⟨0, le_refl _, run_loop_done fwd g ipc fuel cpu hd, by intro j hj; omega, hd⟩
  | succ d ih =>
    intro cpu fuel hc hf
    by_cases hd : run_done ipc cpu = true
    · exact ⟨0, Nat.zero_le _, run_loop_done fwd g ipc fuel cpu hd, by intro j hj; omega, hd⟩
    · have hd' : run_done ipc cpu = false := by simpa using hd
      obtain ⟨f, rfl⟩ : ∃ f, fuel = f + 1 := ⟨fuel - 1, by omega⟩
      obtain ⟨h1, h2, _, _⟩ := tick_static fwd (g cpu.clock) cpu
      have hc2 : (APEX_cpu_tick fwd (g cpu.clock) cpu).clock + d
          = (APEX_cpu_tick fwd (g cpu.clock) cpu).function_cycles := by
        rw [h1, h2, ← hc]; push_cast; ring
      obtain ⟨k, hk, hrun, hbefore, hat⟩ := ih (APEX_cpu_tick fwd (g cpu.clock) cpu) f hc2 (by omega)
      refine ⟨k + 1, by omega, ?_, ?_, ?_⟩
      · rw [run_loop_step fwd g ipc f cpu hd', hrun, run_ticks_succ]
      · intro j hj
        cases j with
        | zero => exact hd'
        | succ j => rw [run_ticks_succ]; exact hbefore j (by omega)
      · rw [run_ticks_succ]; exact hat

/-! ## What each stage function leaves alone -/

theorem fetch_frame (s : APEX_CPU) :
    (fetch s).stage_EX = s.stage_EX ∧ (fetch s).stage_MEM = s.stage_MEM
      ∧ (fetch s).stage_WB = s.stage_WB ∧ (fetch s).regs = s.regs
      ∧ (fetch s).regs_valid = s.regs_valid ∧ (fetch s).regs_forwarding = s.regs_forwarding
      ∧ (fetch s).data_memory = s.data_memory ∧ (fetch s).zero_flag = s.zero_flag := by
  simp only [fetch]
  split_ifs <;> simp

theorem decode_read_keeps (fwd : Bool) (s : APEX_CPU) :
    (decode_read fwd s).stage_EX = s.stage_EX ∧ (decode_read fwd s).stage_MEM = s.stage_MEM
      ∧ (decode_read fwd s).stage_WB = s.stage_WB ∧ (decode_read fwd s).stage_F = s.stage_F
      ∧ (decode_read fwd s).regs = s.regs
      ∧ (decode_read fwd s).regs_forwarding = s.regs_forwarding
      ∧ (decode_read fwd s).data_memory = s.data_memory
      ∧ (decode_read fwd s).zero_flag = s.zero_flag
      ∧ (decode_read fwd s).pc = s.pc := by
  obtain ⟨o, ho⟩ : ∃ o, s.stage_DRF.opcode = o := ⟨_, rfl⟩
  cases o <;> simp only [decode_read, ho, is_reg_reg] <;> simp <;> (try split_ifs) <;>
    simp_all

theorem decode_retry_keeps (fwd : Bool) (u : CPU_Stage) (s : APEX_CPU) :
    (decode_retry fwd u s).stage_MEM = s.stage_MEM
      ∧ (decode_retry fwd u s).stage_WB = s.stage_WB
      ∧ (decode_retry fwd u s).stage_F = s.stage_F
      ∧ (decode_retry fwd u s).regs = s.regs
      ∧ (decode_retry fwd u s).regs_forwarding = s.regs_forwarding
      ∧ (decode_retry fwd u s).data_memory = s.data_memory
      ∧ (decode_retry fwd u s).zero_flag = s.zero_flag
      ∧ (decode_retry fwd u s).pc = s.pc := by
  obtain ⟨o, ho⟩ : ∃ o, s.stage_DRF.opcode = o := ⟨_, rfl⟩
  cases o <;> simp only [decode_retry, ho, is_reg_reg] <;> simp <;> (try split_ifs) <;>
    simp_all [Create_NOP]

theorem decode_frame (fwd : Bool) (u : CPU_Stage) (s : APEX_CPU) :
    (decode fwd u s).stage_MEM = s.stage_MEM ∧ (decode fwd u s).stage_WB = s.stage_WB
      ∧ (decode fwd u s).stage_F = s.stage_F ∧ (decode fwd u s).regs = s.regs
      ∧ (decode fwd u s).regs_forwarding = s.regs_forwarding
      ∧ (decode fwd u s).data_memory = s.data_memory
      ∧ (decode fwd u s).zero_flag = s.zero_flag
      ∧ (decode fwd u s).pc = s.pc
      ∧ (s.stage_EX.stalled = true → (decode fwd u s).stage_EX = s.stage_EX) := by
  obtain ⟨r1, r2, r3, r4, r5, r6, r7, r8, r9⟩ := decode_read_keeps fwd s
  obtain ⟨t1, t2, t3, t4, t5, t6, t7, t8⟩ := decode_retry_keeps fwd u s
  unfold decode
  split_ifs with h1 h2 h3
  · unfold decode_copy
    split_ifs with h4 h5
    · simp_all
    · simp_all
    · simp_all
  · simp_all
  · simp_all
  · simp_all

theorem execute_frame (fwd : Bool) (u : CPU_Stage) (s : APEX_CPU) :
    (execute fwd u s).stage_WB = s.stage_WB ∧ (execute fwd u s).regs = s.regs
      ∧ (execute fwd u s).regs_valid = s.regs_valid
      ∧ (execute fwd u s).data_memory = s.data_memory
      ∧ (execute fwd u s).pc = s.pc := by
  obtain ⟨o, ho⟩ : ∃ o, s.stage_EX.opcode = o := ⟨_, rfl⟩
  cases o <;> simp only [execute, ho] <;> simp <;> (try split_ifs) <;> simp_all

theorem memory_frame (fwd : Bool) (u : CPU_Stage) (s : APEX_CPU) :
    (memory fwd u s).regs = s.regs ∧ (memory fwd u s).zero_flag = s.zero_flag
      ∧ (memory fwd u s).ins_completed = s.ins_completed
      ∧ (s.stage_MEM.opcode = Opcode.NOP → (memory fwd u s).stage_EX = s.stage_EX) := by
  obtain ⟨o, ho⟩ : ∃ o, s.stage_MEM.opcode = o := ⟨_, rfl⟩
  cases o <;> simp only [memory, ho] <;> simp <;> (try split_ifs) <;> simp_all
/-! ## C1: the example program -/

set_option maxRecDepth 100000 in
/-- C1: run from the initial state (pc 4000, clock 0, registers 0 and valid,
data memory 0, only Fetch not busy) on `MOVC R1,#5; MOVC R2,#10; ADD R3,R1,R2;
HALT` with a cycle budget `n ≥ 8`, the driver returns after 8 ticks with
`regs[1] = 5`, `regs[2] = 10`, `regs[3] = 15`, and the completed-instruction
counter has been incremented four times (the three instructions and the
`HALT`), so it ends at 4 when it started at 0.  This holds whatever lies beyond
the program in code memory and whatever the locals without initialiser hold. -/
theorem C1_example_program (m : APEX_CPU) (beyond : Int → APEX_Instruction)
    (g : Int → StageId → CPU_Stage) (n : Int) (hn : 8 ≤ n) (fuel : Nat) (hfuel : 8 ≤ fuel) :
    ∃ cpu, APEX_cpu_run true g fuel (initial_state m prog_example beyond n) = some (0, cpu)
      ∧ cpu.regs 1 = 5 ∧ cpu.regs 2 = 10 ∧ cpu.regs 3 = 15
      ∧ cpu.ins_completed = m.ins_completed + 4
      ∧ (m.ins_completed = 0 → cpu.ins_completed = 4)
      ∧ cpu.clock = 8 := by
  obtain ⟨f, rfl⟩ := Nat.exists_eq_add_of_le' hfuel
  have h0 : ¬ (0 = n) := by omega
  have h1 : ¬ (1 = n) := by omega
  have h2 : ¬ (2 = n) := by omega
  have h3 : ¬ (3 = n) := by omega
  have h4 : ¬ (4 = n) := by omega
  have h5 : ¬ (5 = n) := by omega
  have h6 : ¬ (6 = n) := by omega
  have h7 : ¬ (7 = n) := by omega
  simp only [APEX_cpu_run, initial_state, APEX_cpu_init, prog_example, MOVC, ADD, HALT,
    zero_stage]
  iterate 8
    rw [run_loop_step _ _ _ _ _ (by simp [run_done, *])]
    simp [APEX_cpu_tick, writeback, memory, execute, decode, decode_copy, decode_read, decode_retry, fetch,
      code_of, get_code_index_eq, Create_NOP,
      is_arith, is_reg_reg, arith_ahead, valid_after_memset, zero_of, write_apply]
  rw [run_loop_done _ _ _ _ _ (by simp [run_done])]
  simp [write_apply]
  constructor
  · omega
  · intro h; omega

/-- C1, at a concrete instance: budget 8, zeroed memory block and locals. -/
theorem C1_example_program_witness :
    ∃ cpu, APEX_cpu_run true zero_locals 8
        (initial_state zero_cpu prog_example (fun _ => empty_instruction) 8) = some (0, cpu)
      ∧ cpu.regs 1 = 5 ∧ cpu.regs 2 = 10 ∧ cpu.regs 3 = 15
      ∧ cpu.ins_completed = zero_cpu.ins_completed + 4
      ∧ (zero_cpu.ins_completed = 0 → cpu.ins_completed = 4)
      ∧ cpu.clock = 8 :=
  C1_example_program zero_cpu (fun _ => empty_instruction) zero_locals 8 (by decide) 8
    (by decide)

/-! ## C2: the load-use stall -/

set_option maxHeartbeats 4000000 in
set_option maxRecDepth 100000 in
/-- C2: for `LOAD R1,R2,#0; ADD R3,R1,R4; HALT` started with an empty pipeline,
all registers valid, register contents `r` and data memory `d` with `r 2` a
data-memory address, forwarding enabled: after 2 ticks the `LOAD` is in the
`EX` latch; in tick 3, in which `execute` processes it, `decode` leaves the
`ADD` stalled in `DRF` and puts a `NOP` bubble into `EX`; in tick 4 `memory`
processes the `LOAD` (its `buffer` is `d (r 2)`) and only then does the `ADD`
leave Decode, with the loaded value as first operand; and with a budget of at
least 8 the run returns with `regs[3] = d (r 2) + r 4`. -/
theorem C2_load_use_stall (m : APEX_CPU) (beyond : Int → APEX_Instruction)
    (g : Int → StageId → CPU_Stage) (n : Int) (r v f d : Int → Int)
    (hv : ∀ i, v i ≠ 0) (_haddr : 0 ≤ r 2 ∧ r 2 < 4000)
    (hn : 8 ≤ n) (fuel : Nat) (hfuel : 8 ≤ fuel) :
    (run_ticks true g 2 (load_use_state m beyond n r v f d)).stage_EX.opcode = Opcode.LOAD
      ∧ (run_ticks true g 2 (load_use_state m beyond n r v f d)).stage_DRF.opcode = Opcode.ADD
      ∧ (run_ticks true g 3 (load_use_state m beyond n r v f d)).stage_MEM.opcode = Opcode.LOAD
      ∧ (run_ticks true g 3 (load_use_state m beyond n r v f d)).stage_DRF.opcode = Opcode.ADD
      ∧ (run_ticks true g 3 (load_use_state m beyond n r v f d)).stage_DRF.stalled = true
      ∧ (run_ticks true g 3 (load_use_state m beyond n r v f d)).stage_EX.opcode = Opcode.NOP
      ∧ (run_ticks true g 4 (load_use_state m beyond n r v f d)).stage_WB.opcode = Opcode.LOAD
      ∧ (run_ticks true g 4 (load_use_state m beyond n r v f d)).stage_WB.buffer = d (r 2)
      ∧ (run_ticks true g 4 (load_use_state m beyond n r v f d)).stage_EX.opcode = Opcode.ADD
      ∧ (run_ticks true g 4 (load_use_state m beyond n r v f d)).stage_EX.rs1_value = d (r 2)
      ∧ (run_ticks true g 4 (load_use_state m beyond n r v f d)).stage_EX.rs2_value = r 4
      ∧ (run_ticks true g 4 (load_use_state m beyond n r v f d)).stage_DRF.stalled = false
      ∧ ∃ cpu, APEX_cpu_run true g fuel (load_use_state m beyond n r v f d) = some (0, cpu)
          ∧ cpu.regs 3 = d (r 2) + r 4 ∧ cpu.regs 1 = d (r 2) ∧ cpu.clock = 8 := by
  have hv1 := hv 1
  have hv2 := hv 2
  have hv4 := hv 4
  have t2 : (run_ticks true g 2 (load_use_state m beyond n r v f d)).stage_EX.opcode = Opcode.LOAD
      ∧ (run_ticks true g 2 (load_use_state m beyond n r v f d)).stage_DRF.opcode = Opcode.ADD := by
    generalize hs : run_ticks true g 2 (load_use_state m beyond n r v f d) = s
    simp only [load_use_state, initial_state, APEX_cpu_init, prog_load_use, LOAD,
      ADD, HALT, zero_stage] at hs
    iterate 2
      rw [run_ticks_succ] at hs
      simp [APEX_cpu_tick, writeback, memory, execute, decode, decode_copy, decode_read, decode_retry, fetch,
        code_of, get_code_index_eq, Create_NOP, hv1, hv2, hv4,
        is_arith, is_reg_reg, arith_ahead, valid_after_memset, zero_of, write_apply] at hs
    simp only [run_ticks] at hs
    subst hs
    simp
  have t3 : (run_ticks true g 3 (load_use_state m beyond n r v f d)).stage_MEM.opcode = Opcode.LOAD
      ∧ (run_ticks true g 3 (load_use_state m beyond n r v f d)).stage_DRF.opcode = Opcode.ADD
      ∧ (run_ticks true g 3 (load_use_state m beyond n r v f d)).stage_DRF.stalled = true
      ∧ (run_ticks true g 3 (load_use_state m beyond n r v f d)).stage_EX.opcode = Opcode.NOP := by
    generalize hs : run_ticks true g 3 (load_use_state m beyond n r v f d) = s
    simp only [load_use_state, initial_state, APEX_cpu_init, prog_load_use, LOAD,
      ADD, HALT, zero_stage] at hs
    iterate 3
      rw [run_ticks_succ] at hs
      simp [APEX_cpu_tick, writeback, memory, execute, decode, decode_copy, decode_read, decode_retry, fetch,
        code_of, get_code_index_eq, Create_NOP, hv1, hv2, hv4,
        is_arith, is_reg_reg, arith_ahead, valid_after_memset, zero_of, write_apply] at hs
    simp only [run_ticks] at hs
    subst hs
    simp
  have t4 : (run_ticks true g 4 (load_use_state m beyond n r v f d)).stage_WB.opcode = Opcode.LOAD
      ∧ (run_ticks true g 4 (load_use_state m beyond n r v f d)).stage_WB.buffer = d (r 2)
      ∧ (run_ticks true g 4 (load_use_state m beyond n r v f d)).stage_EX.opcode = Opcode.ADD
      ∧ (run_ticks true g 4 (load_use_state m beyond n r v f d)).stage_EX.rs1_value = d (r 2)
      ∧ (run_ticks true g 4 (load_use_state m beyond n r v f d)).stage_EX.rs2_value = r 4
      ∧ (run_ticks true g 4 (load_use_state m beyond n r v f d)).stage_DRF.stalled = false := by
    generalize hs : run_ticks true g 4 (load_use_state m beyond n r v f d) = s
    simp only [load_use_state, initial_state, APEX_cpu_init, prog_load_use, LOAD,
      ADD, HALT, zero_stage] at hs
    iterate 4
      rw [run_ticks_succ] at hs
      simp [APEX_cpu_tick, writeback, memory, execute, decode, decode_copy, decode_read, decode_retry, fetch,
        code_of, get_code_index_eq, Create_NOP, hv1, hv2, hv4,
        is_arith, is_reg_reg, arith_ahead, valid_after_memset, zero_of, write_apply] at hs
    simp only [run_ticks] at hs
    subst hs
    simp
  have trun : ∃ cpu, APEX_cpu_run true g fuel (load_use_state m beyond n r v f d) = some (0, cpu)
      ∧ cpu.regs 3 = d (r 2) + r 4 ∧ cpu.regs 1 = d (r 2) ∧ cpu.clock = 8 := by
    obtain ⟨k, rfl⟩ := Nat.exists_eq_add_of_le' hfuel
    have h0 : ¬ (0 = n) := by omega
    have h1 : ¬ (1 = n) := by omega
    have h2 : ¬ (2 = n) := by omega
    have h3 : ¬ (3 = n) := by omega
    have h4 : ¬ (4 = n) := by omega
    have h5 : ¬ (5 = n) := by omega
    have h6 : ¬ (6 = n) := by omega
    have h7 : ¬ (7 = n) := by omega
    simp only [APEX_cpu_run, load_use_state, initial_state, APEX_cpu_init, prog_load_use, LOAD,
      ADD, HALT, zero_stage]
    iterate 8
      rw [run_loop_step _ _ _ _ _ (by simp [run_done, *])]
      simp [APEX_cpu_tick, writeback, memory, execute, decode, decode_copy, decode_read, decode_retry, fetch,
        code_of, get_code_index_eq, Create_NOP, hv1, hv2, hv4,
        is_arith, is_reg_reg, arith_ahead, valid_after_memset, zero_of, write_apply]
    rw [run_loop_done _ _ _ _ _ (by simp [run_done])]
    simp [write_apply]
  exact ⟨t2.1, t2.2, t3.1, t3.2.1, t3.2.2.1, t3.2.2.2, t4.1, t4.2.1, t4.2.2.1, t4.2.2.2.1,
    t4.2.2.2.2.1, t4.2.2.2.2.2, trun⟩

/-- C2, at a concrete instance: all registers hold 7, data memory holds 3 in
every cell, every validity flag is 1. -/
theorem C2_load_use_stall_witness :
    ∃ cpu, APEX_cpu_run true zero_locals 8
        (load_use_state zero_cpu (fun _ => empty_instruction) 8 (fun _ => 7) (fun _ => 1)
          (fun _ => 0) (fun _ => 3)) = some (0, cpu)
      ∧ cpu.regs 3 = 3 + 7 ∧ cpu.regs 1 = 3 ∧ cpu.clock = 8 :=
  (C2_load_use_stall zero_cpu (fun _ => empty_instruction) zero_locals 8 (fun _ => 7)
    (fun _ => 1) (fun _ => 0) (fun _ => 3) (by intro i; simp) (by decide) (by decide) 8
    (by decide)).2.2.2.2.2.2.2.2.2.2.2.2

/-! ## Straight-line programs: sequential execution and the stage functions -/

theorem seq_regs_frame (code : Int → APEX_Instruction) (r0 : Int → Int) (r : Int) (c : Nat) :
    ∀ i : Nat, c ≤ i → (∀ j : Nat, c ≤ j → j < i → (code j).rd ≠ r) →
      seq_regs code r0 i r = seq_regs code r0 c r := by
  intro i
  induction i with
  | zero => intro hc _; have : c = 0 := by omega
            subst this; rfl
  | succ i ih =>
    intro hc h
    rcases Nat.eq_or_lt_of_le hc with e | hlt
    · rw [e]
    · have hci : c ≤ i := by omega
      have h1 := ih hci (fun j hj1 hj2 => h j hj1 (by omega))
      have h2 := h i hci (by omega)
      show seq_step (seq_regs code r0 i) (code i) r = _
      simp only [seq_step, write_apply]
      rw [if_neg (fun e => h2 e.symm), h1]

theorem seq_regs_last (code : Int → APEX_Instruction) (r0 : Int → Int) (r : Int) (j : Nat)
    (hr : (code j).rd = r) :
    ∀ i : Nat, j < i → (∀ k : Nat, j < k → k < i → (code k).rd ≠ r) →
      seq_regs code r0 i r = seq_val code r0 j := by
  intro i hji h
  have h1 := seq_regs_frame code r0 r (j + 1) i (by omega)
    (fun k hk1 hk2 => h k (by omega) hk2)
  rw [h1]
  show seq_step (seq_regs code r0 j) (code j) r = _
  simp [seq_step, write_apply, hr, seq_val]

theorem writeback_alu (fwd : Bool) (u : CPU_Stage) (s : APEX_CPU)
    (hb : s.stage_WB.busy = false) (hs : s.stage_WB.stalled = false)
    (ha : is_alu s.stage_WB.opcode = true) :
    writeback fwd u s
      = { s with
          regs := write s.regs s.stage_WB.rd s.stage_WB.buffer
          regs_valid := write s.regs_valid s.stage_WB.rd 1
          zero_flag := if is_arith s.stage_WB.opcode then zero_of s.stage_WB.buffer
                       else s.zero_flag
          regs_forwarding := if fwd then write s.regs_forwarding s.stage_WB.rd s.stage_WB.buffer
                             else s.regs_forwarding
          ins_completed := s.ins_completed + 1 } := by
  obtain ⟨o, ho⟩ : ∃ o, s.stage_WB.opcode = o := ⟨_, rfl⟩
  cases o <;> simp [is_alu, ho] at ha <;> cases fwd <;>
    simp [writeback, ho, hb, hs, is_arith]

theorem writeback_idle (fwd : Bool) (u : CPU_Stage) (s : APEX_CPU)
    (h : lat_idle s.stage_WB) : writeback fwd u s = s := by
  obtain ⟨h1, ⟨h2, -⟩ | h2⟩ := h
  · simp [writeback, h1, h2]
  · cases hb : s.stage_WB.busy <;> simp [writeback, h1, h2, hb, is_arith]

theorem memory_alu (fwd : Bool) (u : CPU_Stage) (s : APEX_CPU)
    (hb : s.stage_MEM.busy = false) (hs : s.stage_MEM.stalled = false)
    (ha : is_alu s.stage_MEM.opcode = true) :
    memory fwd u s
      = { s with
          regs_forwarding := if fwd then write s.regs_forwarding s.stage_MEM.rd s.stage_MEM.buffer
                             else s.regs_forwarding
          stage_WB := s.stage_MEM } := by
  obtain ⟨o, ho⟩ : ∃ o, s.stage_MEM.opcode = o := ⟨_, rfl⟩
  cases o <;> simp [is_alu, ho] at ha <;> cases fwd <;>
    simp [memory, ho, hb, hs]

theorem memory_nop (fwd : Bool) (u : CPU_Stage) (s : APEX_CPU)
    (hb : s.stage_MEM.busy = false) (hs : s.stage_MEM.stalled = false)
    (ho : s.stage_MEM.opcode = Opcode.NOP) :
    memory fwd u s = { s with stage_WB := s.stage_MEM } := by
  simp [memory, ho, hb, hs]

theorem memory_busy (fwd : Bool) (u : CPU_Stage) (s : APEX_CPU)
    (hb : s.stage_MEM.busy = true) : memory fwd u s = s := by
  simp [memory, hb]

theorem execute_alu (fwd : Bool) (u : CPU_Stage) (s : APEX_CPU)
    (hb : s.stage_EX.busy = false) (hs : s.stage_EX.stalled = false)
    (ha : is_alu s.stage_EX.opcode = true) :
    execute fwd u s
      = { s with
          regs_forwarding :=
            if fwd then write s.regs_forwarding s.stage_EX.rd
              (alu_result s.stage_EX.opcode s.stage_EX.imm s.stage_EX.rs1_value
                s.stage_EX.rs2_value)
            else s.regs_forwarding
          zero_flag :=
            if fwd = true ∧ (s.stage_EX.opcode = Opcode.ADD ∨ s.stage_EX.opcode = Opcode.SUB)
            then zero_of (alu_result s.stage_EX.opcode s.stage_EX.imm s.stage_EX.rs1_value
                s.stage_EX.rs2_value)
            else s.zero_flag
          stage_EX := { s.stage_EX with
                        buffer := alu_result s.stage_EX.opcode s.stage_EX.imm
                          s.stage_EX.rs1_value s.stage_EX.rs2_value }
          stage_MEM := { s.stage_EX with
                         buffer := alu_result s.stage_EX.opcode s.stage_EX.imm
                           s.stage_EX.rs1_value s.stage_EX.rs2_value } } := by
  obtain ⟨o, ho⟩ : ∃ o, s.stage_EX.opcode = o := ⟨_, rfl⟩
  cases o <;> simp [is_alu, ho] at ha <;> cases fwd <;>
    simp [execute, ho, hb, hs, alu_result]

theorem execute_nop (fwd : Bool) (u : CPU_Stage) (s : APEX_CPU)
    (hb : s.stage_EX.busy = false) (hs : s.stage_EX.stalled = false)
    (ho : s.stage_EX.opcode = Opcode.NOP) :
    execute fwd u s = { s with stage_MEM := s.stage_EX } := by
  simp [execute, ho, hb, hs]

theorem execute_busy (fwd : Bool) (u : CPU_Stage) (s : APEX_CPU)
    (hb : s.stage_EX.busy = true) (hs : s.stage_EX.stalled = false) :
    execute fwd u s = s := by
  simp [execute, hb, hs]
theorem cnt_none : cnt none = 0 := rfl

theorem cnt_some (j : Nat) : cnt (some j) = 1 := rfl

/-- The call of `writeback` in the phases in which `WB` holds an instruction
`w` of the program or nothing: it commits `w`. -/
theorem arch_writeback {fwd : Bool} {code : Int → APEX_Instruction} {n : Nat}
    {r0 d0 : Int → Int} {s : APEX_CPU} {c i : Nat} {w x : Option Nat} (u : CPU_Stage)
    (hsl : straight_line code n) (h : arch fwd code n r0 d0 s c i x)
    (hw : lat_W code r0 n w s.stage_WB) (hwc : ∀ j, w = some j → j = c) :
    arch fwd code n r0 d0 (writeback fwd u s) (c + cnt w) i x
      ∧ (writeback fwd u s).stage_F = s.stage_F
      ∧ (writeback fwd u s).stage_DRF = s.stage_DRF
      ∧ (writeback fwd u s).stage_EX = s.stage_EX
      ∧ (writeback fwd u s).stage_MEM = s.stage_MEM
      ∧ (writeback fwd u s).stage_WB = s.stage_WB
      ∧ (writeback fwd u s).pc = s.pc := by
  cases w with
  | none =>
    rw [writeback_idle fwd u s hw]
    exact ⟨by simpa [cnt_none] using h, rfl, rfl, rfl, rfl, rfl, rfl⟩
  | some j =>
    obtain rfl := hwc j rfl
    obtain ⟨hjn, hb, hst, hop, hrd, hbuf⟩ := hw
    rw [writeback_alu fwd u s hb hst (by rw [hop]; exact hsl.alu j hjn)]
    refine ⟨?_, rfl, rfl, rfl, rfl, rfl, rfl⟩
    obtain ⟨a1, a2, a3, a4, a5⟩ := h
    refine ⟨a1, a2, ?_, ?_, ?_⟩
    · show write s.regs s.stage_WB.rd s.stage_WB.buffer = seq_regs code r0 (j + 1)
      rw [a3, hrd, hbuf]; rfl
    · intro r hr0 hr1
      show write s.regs_valid s.stage_WB.rd 1 r = 0 ↔ _
      rw [write_apply, hrd]
      by_cases e : r = (code j).rd
      · simp only [e, if_true]
        constructor
        · intro h; exact absurd h one_ne_zero
        · rintro ⟨k, hk1, hk2, hk3, hk4⟩
          have := hsl.distinct k j hk3 hjn hk4
          simp only [cnt_some] at hk1
          omega
      · rw [if_neg e, a4 r hr0 hr1]
        constructor
        · rintro ⟨k, hk1, hk2, hk3, hk4⟩
          refine ⟨k, ?_, hk2, hk3, hk4⟩
          simp only [cnt_some]
          rcases Nat.eq_or_lt_of_le hk1 with e2 | e2
          · subst e2; exact absurd hk4.symm e
          · omega
        · rintro ⟨k, hk1, hk2, hk3, hk4⟩
          exact ⟨k, by simp only [cnt_some] at hk1; omega, hk2, hk3, hk4⟩
    · intro hf k hk1 hk2 hk3 hk4
      simp only [cnt_some] at hk1
      have hne : (code k).rd ≠ (code j).rd := by
        intro e
        have := hsl.distinct k j hk3 hjn e
        omega
      subst hf
      show write s.regs_forwarding s.stage_WB.rd s.stage_WB.buffer (code k).rd = _
      rw [write_apply, hrd, if_neg hne]
      exact a5 rfl k (by omega) hk2 hk3 hk4

/-- The call of `memory` in the phases in which `MEM` holds an instruction `m`
of the program or nothing. -/
theorem arch_memory {fwd : Bool} {code : Int → APEX_Instruction} {n : Nat}
    {r0 d0 : Int → Int} {s : APEX_CPU} {c i : Nat} {m x : Option Nat} (u : CPU_Stage)
    (hsl : straight_line code n) (h : arch fwd code n r0 d0 s c i x)
    (hm : lat_W code r0 n m s.stage_MEM)
    (hmi : ∀ j, m = some j → c ≤ j ∧ j < i ∧ x ≠ some j)
    (hchain : s.stage_MEM.busy = true → lat_idle s.stage_WB) :
    arch fwd code n r0 d0 (memory fwd u s) c i x
      ∧ lat_W code r0 n m (memory fwd u s).stage_WB
      ∧ (memory fwd u s).stage_F = s.stage_F
      ∧ (memory fwd u s).stage_DRF = s.stage_DRF
      ∧ (memory fwd u s).stage_EX = s.stage_EX
      ∧ (memory fwd u s).stage_MEM = s.stage_MEM
      ∧ (memory fwd u s).pc = s.pc := by
  cases m with
  | none =>
    obtain ⟨h1, ⟨h2, -⟩ | h2⟩ := hm
    · rw [memory_busy fwd u s h2]
      exact ⟨h, hchain h2, rfl, rfl, rfl, rfl, rfl⟩
    · rcases Bool.eq_false_or_eq_true s.stage_MEM.busy with hb | hb
      · rw [memory_busy fwd u s hb]
        exact ⟨h, hchain hb, rfl, rfl, rfl, rfl, rfl⟩
      · rw [memory_nop fwd u s hb h1 h2]
        exact ⟨h, ⟨h1, Or.inr h2⟩, rfl, rfl, rfl, rfl, rfl⟩
  | some j =>
    obtain ⟨hjn, hb, hst, hop, hrd, hbuf⟩ := hm
    obtain ⟨hj1, hj2, hj3⟩ := hmi j rfl
    rw [memory_alu fwd u s hb hst (by rw [hop]; exact hsl.alu j hjn)]
    refine ⟨?_, ⟨hjn, hb, hst, hop, hrd, hbuf⟩, rfl, rfl, rfl, rfl, rfl⟩
    obtain ⟨a1, a2, a3, a4, a5⟩ := h
    refine ⟨a1, a2, a3, a4, ?_⟩
    intro hf k hk1 hk2 hk3 hk4
    subst hf
    show write s.regs_forwarding s.stage_MEM.rd s.stage_MEM.buffer (code k).rd = _
    rw [write_apply, hrd, hbuf]
    by_cases e : (code k).rd = (code j).rd
    · rw [if_pos e, hsl.distinct k j hk3 hjn e]
    · rw [if_neg e]; exact a5 rfl k hk1 hk2 hk3 hk4

/-- The call of `execute` in the phase in which `EX` holds an instruction `x`
of the program or nothing: afterwards every instruction in flight has its
result in the forwarding table. -/
theorem arch_execute {fwd : Bool} {code : Int → APEX_Instruction} {n : Nat}
    {r0 d0 : Int → Int} {s : APEX_CPU} {c i : Nat} {x : Option Nat} (u : CPU_Stage)
    (hsl : straight_line code n) (h : arch fwd code n r0 d0 s c i x)
    (hx : lat_X code r0 n x s.stage_EX)
    (hchain : s.stage_EX.busy = true → lat_idle s.stage_MEM) :
    arch fwd code n r0 d0 (execute fwd u s) c i none
      ∧ lat_W code r0 n x (execute fwd u s).stage_MEM
      ∧ (execute fwd u s).stage_F = s.stage_F
      ∧ (execute fwd u s).stage_DRF = s.stage_DRF
      ∧ (execute fwd u s).stage_WB = s.stage_WB
      ∧ (execute fwd u s).pc = s.pc
      ∧ (execute fwd u s).stage_EX.stalled = false
      ∧ (execute fwd u s).stage_EX.busy = s.stage_EX.busy
      ∧ (execute fwd u s).stage_EX.opcode = s.stage_EX.opcode
      ∧ ((execute fwd u s).stage_MEM.busy = true → s.stage_EX.busy = true) := by
  cases x with
  | none =>
    have h' : arch fwd code n r0 d0 s c i none := h
    obtain ⟨h1, ⟨h2, -⟩ | h2⟩ := hx
    · rw [execute_busy fwd u s h2 h1]
      exact ⟨h', hchain h2, rfl, rfl, rfl, rfl, h1, rfl, rfl, fun _ => h2⟩
    · rcases Bool.eq_false_or_eq_true s.stage_EX.busy with hb | hb
      · rw [execute_busy fwd u s hb h1]
        exact ⟨h', hchain hb, rfl, rfl, rfl, rfl, h1, rfl, rfl, fun _ => hb⟩
      · rw [execute_nop fwd u s hb h1 h2]
        refine ⟨h', ⟨h1, Or.inr h2⟩, rfl, rfl, rfl, rfl, h1, rfl, rfl, ?_⟩
        intro h3
        rw [hb] at h3
        exact absurd h3 (by simp)
  | some j =>
    obtain ⟨hjn, hb, hst, hop, hrd, hval⟩ := hx
    rw [execute_alu fwd u s hb hst (by rw [hop]; exact hsl.alu j hjn)]
    refine ⟨?_, ⟨hjn, hb, hst, hop, hrd, hval⟩, rfl, rfl, rfl, rfl, hst, rfl, rfl,
      fun h3 => absurd (hb.symm.trans h3) (by simp)⟩
    obtain ⟨a1, a2, a3, a4, a5⟩ := h
    refine ⟨a1, a2, a3, a4, ?_⟩
    intro hf k hk1 hk2 hk3 _
    subst hf
    show write s.regs_forwarding s.stage_EX.rd _ (code k).rd = _
    rw [write_apply, hrd, hval]
    by_cases e : (code k).rd = (code j).rd
    · rw [if_pos e, hsl.distinct k j hk3 hjn e]
    · rw [if_neg e]
      refine a5 rfl k hk1 hk2 hk3 ?_
      intro e2
      injection e2 with e3
      exact e (by rw [e3])
/-- The operand `decode` reads for a source register `r` in `0..31` is the
value of `r` in the sequential execution before instruction `i`: the register
itself when it is valid, the forwarding table otherwise. -/
theorem operand_ok {fwd : Bool} {code : Int → APEX_Instruction} {n : Nat}
    {r0 d0 : Int → Int} {s : APEX_CPU} {c i : Nat}
    (hsl : straight_line code n) (h : arch fwd code n r0 d0 s c i none)
    (hci : c ≤ i) (hin : i ≤ n) (r : Int) (hr0 : 0 ≤ r) (hr1 : r < 32) :
    (s.regs_valid r ≠ 0 → s.regs r = seq_regs code r0 i r)
      ∧ (fwd = true → s.regs_valid r = 0 → s.regs_forwarding r = seq_regs code r0 i r) := by
  obtain ⟨-, -, a3, a4, a5⟩ := h
  constructor
  · intro hv
    rw [a3]
    symm
    apply seq_regs_frame code r0 r c i hci
    intro j hj1 hj2 e
    exact hv ((a4 r hr0 hr1).2 ⟨j, hj1, hj2, by omega, e⟩)
  · intro hf hv
    obtain ⟨j, hj1, hj2, hj3, hj4⟩ := (a4 r hr0 hr1).1 hv
    have := a5 hf j hj1 hj2 hj3 (by simp)
    rw [hj4] at this
    rw [this]
    symm
    apply seq_regs_last code r0 r j hj4 i hj2
    intro k hk1 hk2 e
    have := hsl.distinct k j (by omega) hj3 (by rw [e, hj4])
    omega

/-- Reserving the destination of instruction `i` when it leaves Decode. -/
theorem arch_reserve {fwd : Bool} {code : Int → APEX_Instruction} {n : Nat}
    {r0 d0 : Int → Int} {s s' : APEX_CPU} {c i : Nat}
    (h : arch fwd code n r0 d0 s c i none) (hci : c ≤ i) (hin : i < n)
    (h1 : s'.code_memory = s.code_memory) (h2 : s'.data_memory = s.data_memory)
    (h3 : s'.regs = s.regs) (h4 : s'.regs_valid = write s.regs_valid (code i).rd 0)
    (h5 : s'.regs_forwarding = s.regs_forwarding) :
    arch fwd code n r0 d0 s' c (i + 1) (some i) := by
  obtain ⟨a1, a2, a3, a4, a5⟩ := h
  refine ⟨h1.trans a1, h2.trans a2, h3.trans a3, ?_, ?_⟩
  · intro r hr0 hr1
    rw [h4, write_apply]
    by_cases e : r = (code i).rd
    · rw [if_pos e]
      exact ⟨fun _ => ⟨i, hci, by omega, hin, e.symm⟩, fun _ => rfl⟩
    · rw [if_neg e, a4 r hr0 hr1]
      constructor
      · rintro ⟨k, hk1, hk2, hk3, hk4⟩
        exact ⟨k, hk1, by omega, hk3, hk4⟩
      · rintro ⟨k, hk1, hk2, hk3, hk4⟩
        refine ⟨k, hk1, ?_, hk3, hk4⟩
        rcases Nat.eq_or_lt_of_le (Nat.le_of_lt_succ hk2) with e2 | e2
        · subst e2; exact absurd hk4.symm e
        · exact e2
  · intro hf k hk1 hk2 hk3 hk4
    rw [h5]
    have : k ≠ i := fun e => hk4 (by rw [e])
    exact a5 hf k hk1 (by omega) hk3 (by simp)

/-- A state that differs from `s` in latches only has the same architectural
invariant. -/
theorem arch_congr {fwd : Bool} {code : Int → APEX_Instruction} {n : Nat}
    {r0 d0 : Int → Int} {s s' : APEX_CPU} {c i : Nat} {x : Option Nat}
    (h : arch fwd code n r0 d0 s c i x)
    (h1 : s'.code_memory = s.code_memory) (h2 : s'.data_memory = s.data_memory)
    (h3 : s'.regs = s.regs) (h4 : s'.regs_valid = s.regs_valid)
    (h5 : s'.regs_forwarding = s.regs_forwarding) :
    arch fwd code n r0 d0 s' c i x := by
  obtain ⟨a1, a2, a3, a4, a5⟩ := h
  refine ⟨h1.trans a1, h2.trans a2, h3.trans a3, ?_, ?_⟩
  · intro r hr0 hr1; rw [h4]; exact a4 r hr0 hr1
  · intro hf k hk1 hk2 hk3 hk4; rw [h5]; exact a5 hf k hk1 hk2 hk3 hk4
/-- The value `decode` puts into an operand field for source register `r`. -/
theorem read_operand {fwd : Bool} {code : Int → APEX_Instruction} {n : Nat}
    {r0 d0 : Int → Int} {s : APEX_CPU} {c i : Nat}
    (hsl : straight_line code n) (h : arch fwd code n r0 d0 s c i none)
    (hci : c ≤ i) (hin : i ≤ n) (r : Int) (hr : 0 ≤ r ∧ r < 32)
    (hgo : fwd = true ∨ s.regs_valid r ≠ 0) :
    (if s.regs_valid r = 0 then s.regs_forwarding r else s.regs r)
      = seq_regs code r0 i r := by
  obtain ⟨o1, o2⟩ := operand_ok hsl h hci hin r hr.1 hr.2
  by_cases hv : s.regs_valid r = 0
  · rw [if_pos hv]
    rcases hgo with hf | hf
    · exact o2 hf hv
    · exact absurd hv hf
  · rw [if_neg hv]; exact o1 hv

/-- The live branch of `decode` on instruction `i` of the program, when the
operands can be read: the instruction moves to `EX` with the operand values
of the sequential execution and its destination is reserved. -/
theorem decode_go {fwd : Bool} {code : Int → APEX_Instruction} {n : Nat}
    {r0 d0 : Int → Int} {s : APEX_CPU} {c i : Nat} (u : CPU_Stage)
    (hsl : straight_line code n) (h : arch fwd code n r0 d0 s c i none)
    (hci : c ≤ i) (hin : i < n)
    (hb : s.stage_DRF.busy = false) (hst : s.stage_DRF.stalled = false)
    (hcode : holds_code code i s.stage_DRF)
    (hxs : s.stage_EX.stalled = false) (hxo : s.stage_EX.opcode ≠ Opcode.LOAD)
    (hgo : fwd = true ∨ (code i).opcode = Opcode.MOVC
      ∨ (s.regs_valid (code i).rs1 ≠ 0 ∧ s.regs_valid (code i).rs2 ≠ 0)) :
    arch fwd code n r0 d0 (decode fwd u s) c (i + 1) (some i)
      ∧ lat_X code r0 n (some i) (decode fwd u s).stage_EX
      ∧ (decode fwd u s).stage_DRF.busy = false
      ∧ (decode fwd u s).stage_DRF.stalled = false
      ∧ holds_code code i (decode fwd u s).stage_DRF
      ∧ (decode fwd u s).stage_F = s.stage_F
      ∧ (decode fwd u s).stage_MEM = s.stage_MEM
      ∧ (decode fwd u s).stage_WB = s.stage_WB
      ∧ (decode fwd u s).pc = s.pc := by
  obtain ⟨hop, hrd, hrs1, hrs2, himm⟩ := hcode
  have halu := hsl.alu i hin
  have hr1 := hsl.rs1_range i hin
  have hr2 := hsl.rs2_range i hin
  have hlive : (!s.stage_DRF.busy && !s.stage_DRF.stalled) = true := by simp [hb, hst]
  by_cases hm : (code i).opcode = Opcode.MOVC
  · -- MOVC
    have e : decode fwd u s
        = { s with regs_valid := write s.regs_valid (code i).rd 0, stage_EX := s.stage_DRF } := by
      simp [decode, decode_read, decode_copy, hb, hst, hop, hm, is_reg_reg, hxs, hrd]
    rw [e]
    refine ⟨arch_reserve h hci hin rfl rfl rfl rfl rfl, ⟨hin, hb, hst, hop, hrd, ?_⟩,
      hb, hst, ⟨hop, hrd, hrs1, hrs2, himm⟩, rfl, rfl, rfl, rfl⟩
    show alu_result s.stage_DRF.opcode s.stage_DRF.imm _ _ = _
    simp [alu_result, seq_val, hop, hm, himm]
  · -- register-register operation
    have hrr : is_reg_reg (code i).opcode = true := by
      revert halu hm
      cases (code i).opcode <;> simp [is_alu, is_reg_reg]
    have hgo' : fwd = true
        ∨ (s.regs_valid (code i).rs1 ≠ 0 ∧ s.regs_valid (code i).rs2 ≠ 0) := by
      rcases hgo with h1 | h1 | h1
      · exact Or.inl h1
      · exact absurd h1 hm
      · exact Or.inr h1
    have e : decode fwd u s
        = { s with
            regs_valid := write s.regs_valid (code i).rd 0
            stage_DRF :=
              { s.stage_DRF with
                rs1_value := if s.regs_valid (code i).rs1 = 0
                  then s.regs_forwarding (code i).rs1 else s.regs (code i).rs1
                rs2_value := if s.regs_valid (code i).rs2 = 0
                  then s.regs_forwarding (code i).rs2 else s.regs (code i).rs2 }
            stage_EX :=
              { s.stage_DRF with
                rs1_value := if s.regs_valid (code i).rs1 = 0
                  then s.regs_forwarding (code i).rs1 else s.regs (code i).rs1
                rs2_value := if s.regs_valid (code i).rs2 = 0
                  then s.regs_forwarding (code i).rs2 else s.regs (code i).rs2 } } := by
      by_cases hv : s.regs_valid (code i).rs1 ≠ 0 ∧ s.regs_valid (code i).rs2 ≠ 0
      · simp [decode, decode_read, decode_copy, hb, hst, hop, hrr, hxs, hrd, hrs1, hrs2, hv,
          hv.1, hv.2]
      · have hf : fwd = true := by
          rcases hgo' with h1 | h1
          · exact h1
          · exact absurd h1 hv
        subst hf
        simp [decode, decode_read, decode_copy, hb, hst, hop, hrr, hxs, hxo, hrd, hrs1, hrs2, hv]
    rw [e]
    refine ⟨arch_reserve h hci hin rfl rfl rfl rfl rfl, ⟨hin, hb, hst, hop, hrd, ?_⟩,
      hb, hst, ⟨hop, hrd, hrs1, hrs2, himm⟩, rfl, rfl, rfl, rfl⟩
    show alu_result s.stage_DRF.opcode s.stage_DRF.imm _ _ = _
    have v1 := read_operand hsl h hci (le_of_lt hin) (code i).rs1 hr1
      (by rcases hgo' with h1 | h1
          · exact Or.inl h1
          · exact Or.inr h1.1)
    have v2 := read_operand hsl h hci (le_of_lt hin) (code i).rs2 hr2
      (by rcases hgo' with h1 | h1
          · exact Or.inl h1
          · exact Or.inr h1.2)
    simp only [v1, v2, hop, himm, seq_val]
/-- An invalid source register means an instruction in flight. -/
theorem pending_of_invalid {fwd : Bool} {code : Int → APEX_Instruction} {n : Nat}
    {r0 d0 : Int → Int} {s : APEX_CPU} {c i : Nat} {x : Option Nat}
    (h : arch fwd code n r0 d0 s c i x) (r1 r2 : Int)
    (hr1 : 0 ≤ r1 ∧ r1 < 32) (hr2 : 0 ≤ r2 ∧ r2 < 32)
    (hnv : ¬ (s.regs_valid r1 ≠ 0 ∧ s.regs_valid r2 ≠ 0)) : c < i := by
  obtain ⟨-, -, -, a4, -⟩ := h
  by_cases h1 : s.regs_valid r1 = 0
  · obtain ⟨j, hj1, hj2, -, -⟩ := (a4 r1 hr1.1 hr1.2).1 h1
    omega
  · have h2 : s.regs_valid r2 = 0 := by
      by_contra h2
      exact hnv ⟨h1, h2⟩
    obtain ⟨j, hj1, hj2, -, -⟩ := (a4 r2 hr2.1 hr2.2).1 h2
    omega

/-- The live branch of `decode` without forwarding, on an instruction with a
source register that is not valid: it stays in Decode, stalled, and a bubble
goes to `EX`. -/
theorem decode_stall {code : Int → APEX_Instruction} {n : Nat}
    {r0 d0 : Int → Int} {s : APEX_CPU} {c i : Nat} (u : CPU_Stage)
    (hsl : straight_line code n) (h : arch false code n r0 d0 s c i none)
    (hin : i < n)
    (hb : s.stage_DRF.busy = false) (hst : s.stage_DRF.stalled = false)
    (hcode : holds_code code i s.stage_DRF)
    (hxs : s.stage_EX.stalled = false)
    (hm : (code i).opcode ≠ Opcode.MOVC)
    (hnv : ¬ (s.regs_valid (code i).rs1 ≠ 0 ∧ s.regs_valid (code i).rs2 ≠ 0)) :
    arch false code n r0 d0 (decode false u s) c i none
      ∧ lat_X code r0 n none (decode false u s).stage_EX
      ∧ (decode false u s).stage_DRF.busy = false
      ∧ (decode false u s).stage_DRF.stalled = true
      ∧ holds_code code i (decode false u s).stage_DRF
      ∧ (decode false u s).stage_F = s.stage_F
      ∧ (decode false u s).stage_MEM = s.stage_MEM
      ∧ (decode false u s).stage_WB = s.stage_WB
      ∧ (decode false u s).pc = s.pc
      ∧ c < i
      ∧ (decode false u s).stage_EX.busy = false := by
  obtain ⟨hop, hrd, hrs1, hrs2, himm⟩ := hcode
  have halu := hsl.alu i hin
  have hrr : is_reg_reg (code i).opcode = true := by
    revert halu hm
    cases (code i).opcode <;> simp [is_alu, is_reg_reg]
  have e : decode false u s
      = { s with stage_DRF := { s.stage_DRF with stalled := true }
                 stage_EX := Create_NOP s u } := by
    simp [decode, decode_read, decode_copy, hb, hst, hop, hrr, hxs, hrs1, hrs2, hnv, Create_NOP]
  rw [e]
  exact ⟨arch_congr h rfl rfl rfl rfl rfl, ⟨rfl, Or.inr rfl⟩, hb, rfl,
    ⟨hop, hrd, hrs1, hrs2, himm⟩, rfl, rfl, rfl, rfl,
    pending_of_invalid h _ _ (hsl.rs1_range i hin) (hsl.rs2_range i hin) hnv, rfl⟩

/-- The stalled branch of `decode` without forwarding, when the operands have
become valid: the instruction moves to `EX`. -/
theorem retry_go {code : Int → APEX_Instruction} {n : Nat}
    {r0 d0 : Int → Int} {s : APEX_CPU} {c i : Nat} (u : CPU_Stage)
    (hsl : straight_line code n) (h : arch false code n r0 d0 s c i none)
    (hci : c ≤ i) (hin : i < n)
    (hb : s.stage_DRF.busy = false) (hst : s.stage_DRF.stalled = true)
    (hcode : holds_code code i s.stage_DRF)
    (hxs : s.stage_EX.stalled = false)
    (hgo : (code i).opcode = Opcode.MOVC
      ∨ (s.regs_valid (code i).rs1 ≠ 0 ∧ s.regs_valid (code i).rs2 ≠ 0)) :
    arch false code n r0 d0 (decode false u s) c (i + 1) (some i)
      ∧ lat_X code r0 n (some i) (decode false u s).stage_EX
      ∧ (decode false u s).stage_DRF.busy = false
      ∧ (decode false u s).stage_DRF.stalled = false
      ∧ holds_code code i (decode false u s).stage_DRF
      ∧ (decode false u s).stage_F = s.stage_F
      ∧ (decode false u s).stage_MEM = s.stage_MEM
      ∧ (decode false u s).stage_WB = s.stage_WB
      ∧ (decode false u s).pc = s.pc := by
  obtain ⟨hop, hrd, hrs1, hrs2, himm⟩ := hcode
  have halu := hsl.alu i hin
  have hr1 := hsl.rs1_range i hin
  have hr2 := hsl.rs2_range i hin
  by_cases hm : (code i).opcode = Opcode.MOVC
  · have e : decode false u s
        = { s with regs_valid := write s.regs_valid (code i).rd 0
                   stage_DRF := { s.stage_DRF with stalled := false }
                   stage_EX := { s.stage_DRF with stalled := false } } := by
      simp [decode, decode_retry, hb, hst, hop, hm, is_reg_reg, hxs, hrd]
    rw [e]
    refine ⟨arch_reserve h hci hin rfl rfl rfl rfl rfl, ⟨hin, hb, rfl, hop, hrd, ?_⟩,
      hb, rfl, ⟨hop, hrd, hrs1, hrs2, himm⟩, rfl, rfl, rfl, rfl⟩
    show alu_result s.stage_DRF.opcode s.stage_DRF.imm _ _ = _
    simp [alu_result, seq_val, hop, hm, himm]
  · have hrr : is_reg_reg (code i).opcode = true := by
      revert halu hm
      cases (code i).opcode <;> simp [is_alu, is_reg_reg]
    have hv : s.regs_valid (code i).rs1 ≠ 0 ∧ s.regs_valid (code i).rs2 ≠ 0 := by
      rcases hgo with h1 | h1
      · exact absurd h1 hm
      · exact h1
    have e : decode false u s
        = { s with
            regs_valid := write s.regs_valid (code i).rd 0
            stage_DRF :=
              { s.stage_DRF with
                stalled := false
                rs1_value := s.regs (code i).rs1
                rs2_value := s.regs (code i).rs2 }
            stage_EX :=
              { s.stage_DRF with
                stalled := false
                rs1_value := s.regs (code i).rs1
                rs2_value := s.regs (code i).rs2 } } := by
      simp [decode, decode_retry, hb, hst, hop, hrr, hxs, hrd, hrs1, hrs2, hv, hv.1, hv.2]
    rw [e]
    refine ⟨arch_reserve h hci hin rfl rfl rfl rfl rfl, ⟨hin, hb, rfl, hop, hrd, ?_⟩,
      hb, rfl, ⟨hop, hrd, hrs1, hrs2, himm⟩, rfl, rfl, rfl, rfl⟩
    show alu_result s.stage_DRF.opcode s.stage_DRF.imm _ _ = _
    have v1 := (operand_ok hsl h hci (le_of_lt hin) (code i).rs1 hr1.1 hr1.2).1 hv.1
    have v2 := (operand_ok hsl h hci (le_of_lt hin) (code i).rs2 hr2.1 hr2.2).1 hv.2
    simp only [v1, v2, hop, himm, seq_val]

/-- The stalled branch of `decode` without forwarding, while a source register
is still not valid: a bubble goes to `EX` and Decode stays stalled. -/
theorem retry_stall {code : Int → APEX_Instruction} {n : Nat}
    {r0 d0 : Int → Int} {s : APEX_CPU} {c i : Nat} (u : CPU_Stage)
    (hsl : straight_line code n) (h : arch false code n r0 d0 s c i none)
    (hin : i < n)
    (hb : s.stage_DRF.busy = false) (hst : s.stage_DRF.stalled = true)
    (hcode : holds_code code i s.stage_DRF)
    (hxs : s.stage_EX.stalled = false)
    (hm : (code i).opcode ≠ Opcode.MOVC)
    (hnv : ¬ (s.regs_valid (code i).rs1 ≠ 0 ∧ s.regs_valid (code i).rs2 ≠ 0)) :
    arch false code n r0 d0 (decode false u s) c i none
      ∧ lat_X code r0 n none (decode false u s).stage_EX
      ∧ (decode false u s).stage_DRF.busy = false
      ∧ (decode false u s).stage_DRF.stalled = true
      ∧ holds_code code i (decode false u s).stage_DRF
      ∧ (decode false u s).stage_F = s.stage_F
      ∧ (decode false u s).stage_MEM = s.stage_MEM
      ∧ (decode false u s).stage_WB = s.stage_WB
      ∧ (decode false u s).pc = s.pc
      ∧ c < i
      ∧ (decode false u s).stage_EX.busy = false := by
  obtain ⟨hop, hrd, hrs1, hrs2, himm⟩ := hcode
  have halu := hsl.alu i hin
  have hrr : is_reg_reg (code i).opcode = true := by
    revert halu hm
    cases (code i).opcode <;> simp [is_alu, is_reg_reg]
  have e : decode false u s = { s with stage_EX := Create_NOP s u } := by
    simp [decode, decode_retry, hb, hst, hop, hrr, hxs, hrs1, hrs2, hnv]
  rw [e]
  exact ⟨arch_congr h rfl rfl rfl rfl rfl, ⟨rfl, Or.inr rfl⟩, hb, hst,
    ⟨hop, hrd, hrs1, hrs2, himm⟩, rfl, rfl, rfl, rfl,
    pending_of_invalid h _ _ (hsl.rs1_range i hin) (hsl.rs2_range i hin) hnv, rfl⟩

/-- The live branch of `decode` on the `HALT`: it moves to `EX`. -/
theorem decode_halt (fwd : Bool) (u : CPU_Stage) (s : APEX_CPU)
    (hb : s.stage_DRF.busy = false) (hst : s.stage_DRF.stalled = false)
    (hop : s.stage_DRF.opcode = Opcode.HALT) (hxs : s.stage_EX.stalled = false) :
    decode fwd u s = { s with stage_EX := s.stage_DRF } := by
  simp [decode, decode_read, decode_copy, hb, hst, hop, is_reg_reg, hxs]

/-- The function `decode` on a Decode latch that was never written. -/
theorem decode_startup (fwd : Bool) (u : CPU_Stage) (s : APEX_CPU)
    (hb : s.stage_DRF.busy = true) (hst : s.stage_DRF.stalled = false) :
    decode fwd u s = s := by
  simp [decode, hb, hst]

/-- The function `decode` on a stalled `NOP` bubble: nothing happens. -/
theorem decode_frozen (fwd : Bool) (u : CPU_Stage) (s : APEX_CPU)
    (h : lat_nop true s.stage_DRF) : decode fwd u s = s := by
  obtain ⟨hb, hst, hop⟩ := h
  cases hx : s.stage_EX.stalled <;> simp [decode, decode_retry, hb, hst, hop, is_reg_reg, hx]

/-- The function `fetch` when neither Fetch nor Decode is stalled. -/
theorem fetch_live (s : APEX_CPU) (hb : s.stage_F.busy = false)
    (hst : s.stage_F.stalled = false) (hd : s.stage_DRF.stalled = false) :
    fetch s
      = { s with
          pc := s.pc + 4
          stage_F := { s.stage_F with
                       pc := s.pc
                       opcode := (s.code_memory (get_code_index s.pc)).opcode
                       rd := (s.code_memory (get_code_index s.pc)).rd
                       rs1 := (s.code_memory (get_code_index s.pc)).rs1
                       rs2 := (s.code_memory (get_code_index s.pc)).rs2
                       imm := (s.code_memory (get_code_index s.pc)).imm }
          stage_DRF := { s.stage_F with
                         pc := s.pc
                         opcode := (s.code_memory (get_code_index s.pc)).opcode
                         rd := (s.code_memory (get_code_index s.pc)).rd
                         rs1 := (s.code_memory (get_code_index s.pc)).rs1
                         rs2 := (s.code_memory (get_code_index s.pc)).rs2
                         imm := (s.code_memory (get_code_index s.pc)).imm } } := by
  simp [fetch, hb, hst, hd]

/-- The function `fetch` when Fetch is not stalled and Decode is: the fetched
instruction is held in Fetch. -/
theorem fetch_hold (s : APEX_CPU) (hb : s.stage_F.busy = false)
    (hst : s.stage_F.stalled = false) (hd : s.stage_DRF.stalled = true) :
    fetch s
      = { s with
          pc := s.pc + 4
          stage_F := { s.stage_F with
                       pc := s.pc
                       opcode := (s.code_memory (get_code_index s.pc)).opcode
                       rd := (s.code_memory (get_code_index s.pc)).rd
                       rs1 := (s.code_memory (get_code_index s.pc)).rs1
                       rs2 := (s.code_memory (get_code_index s.pc)).rs2
                       imm := (s.code_memory (get_code_index s.pc)).imm
                       stalled := true } } := by
  simp [fetch, hb, hst, hd]

/-- The function `fetch` when Fetch is stalled and Decode no longer is: the
held instruction moves to Decode. -/
theorem fetch_release (s : APEX_CPU) (hst : s.stage_F.stalled = true)
    (hd : s.stage_DRF.stalled = false) :
    fetch s
      = { s with stage_F := { s.stage_F with stalled := false }
                 stage_DRF := { s.stage_F with stalled := false } } := by
  simp [fetch, hst, hd]

/-- The function `fetch` when Fetch and Decode are both stalled. -/
theorem fetch_frozen (s : APEX_CPU) (hst : s.stage_F.stalled = true)
    (hd : s.stage_DRF.stalled = true) : fetch s = s := by
  simp [fetch, hst, hd]

theorem get_code_index_cell (k : Nat) : get_code_index (4000 + 4 * (k : Int)) = k := by
  rw [get_code_index_eq _ (by omega)]
  omega
theorem lat_X_not_load {code : Int → APEX_Instruction} {n : Nat} {r0 : Int → Int}
    {x : Option Nat} {l : CPU_Stage} (hsl : straight_line code n)
    (h : lat_X code r0 n x l) : l.opcode ≠ Opcode.LOAD := by
  cases x with
  | none =>
    obtain ⟨-, ⟨-, h2⟩ | h2⟩ := h <;> rw [h2] <;> simp
  | some j =>
    obtain ⟨hjn, -, -, hop, -, -⟩ := h
    have := hsl.alu j hjn
    rw [hop]
    intro e
    rw [e] at this
    simp [is_alu] at this

theorem lat_X_busy {code : Int → APEX_Instruction} {n : Nat} {r0 : Int → Int}
    {x : Option Nat} {l : CPU_Stage} (h : lat_X code r0 n x l) (hb : l.busy = true) :
    x = none := by
  cases x with
  | none => rfl
  | some j =>
    obtain ⟨-, h1, -⟩ := h
    rw [hb] at h1
    exact absurd h1 (by simp)

theorem lat_W_busy {code : Int → APEX_Instruction} {n : Nat} {r0 : Int → Int}
    {x : Option Nat} {l : CPU_Stage} (h : lat_W code r0 n x l) (hb : l.busy = true) :
    x = none := by
  cases x with
  | none => rfl
  | some j =>
    obtain ⟨-, h1, -⟩ := h
    rw [hb] at h1
    exact absurd h1 (by simp)

theorem cnt_le_one (o : Option Nat) : cnt o ≤ 1 := by
  cases o <;> simp [cnt]

theorem cnt_pos_iff (o : Option Nat) : 0 < cnt o ↔ ∃ j, o = some j := by
  cases o <;> simp [cnt]

/-- The first three stage calls of a tick in phase A. -/
theorem back_A {fwd : Bool} {code : Int → APEX_Instruction} {n : Nat}
    {r0 d0 : Int → Int} {s : APEX_CPU} {c i : Nat} {w m x : Option Nat}
    (uw um ux : CPU_Stage) (hsl : straight_line code n)
    (h : inv_A fwd code n r0 d0 s c i w m x) :
    arch fwd code n r0 d0 (execute fwd ux (memory fwd um (writeback fwd uw s))) (c + cnt w) i
        none
      ∧ lat_W code r0 n m (execute fwd ux (memory fwd um (writeback fwd uw s))).stage_WB
      ∧ lat_W code r0 n x (execute fwd ux (memory fwd um (writeback fwd uw s))).stage_MEM
      ∧ (execute fwd ux (memory fwd um (writeback fwd uw s))).stage_F = s.stage_F
      ∧ (execute fwd ux (memory fwd um (writeback fwd uw s))).stage_DRF = s.stage_DRF
      ∧ (execute fwd ux (memory fwd um (writeback fwd uw s))).pc = s.pc
      ∧ (execute fwd ux (memory fwd um (writeback fwd uw s))).stage_EX.stalled = false
      ∧ (execute fwd ux (memory fwd um (writeback fwd uw s))).stage_EX.busy = s.stage_EX.busy
      ∧ (execute fwd ux (memory fwd um (writeback fwd uw s))).stage_EX.opcode
          = s.stage_EX.opcode
      ∧ ((execute fwd ux (memory fwd um (writeback fwd uw s))).stage_MEM.busy = true →
          m = none) := by
  obtain ⟨ha, hw, hm, hx, f1, f2, f3, f4, ch1, ch2, -⟩ := h
  obtain ⟨a1, -, e1D, e1X, e1M, e1W, e1pc⟩ := arch_writeback uw hsl ha hw f1
  have e1F := (arch_writeback uw hsl ha hw f1).2.1
  generalize writeback fwd uw s = s1 at *
  have hm1 : lat_W code r0 n m s1.stage_MEM := by rw [e1M]; exact hm
  have hmi : ∀ j, m = some j → c + cnt w ≤ j ∧ j < i ∧ x ≠ some j := by
    intro j hj
    have := f2 j hj
    subst hj
    refine ⟨by omega, by simp only [cnt_some] at f4; omega, ?_⟩
    intro e
    have := f3 j e
    simp only [cnt_some] at this
    omega
  have hch : s1.stage_MEM.busy = true → lat_idle s1.stage_WB := by
    intro hb
    rw [e1M] at hb
    have := ch1 hb
    subst this
    rw [e1W]; exact hw
  obtain ⟨a2, hWB2, e2F, e2D, e2X, e2M, e2pc⟩ := arch_memory um hsl a1 hm1 hmi hch
  generalize memory fwd um s1 = s2 at *
  have hx2 : lat_X code r0 n x s2.stage_EX := by rw [e2X, e1X]; exact hx
  have hch2 : s2.stage_EX.busy = true → lat_idle s2.stage_MEM := by
    intro hb
    rw [e2X, e1X] at hb
    have := ch2 hb
    subst this
    rw [e2M, e1M]; exact hm
  obtain ⟨a3, hMEM3, e3F, e3D, e3W, e3pc, e3st, e3b, e3o, e3m⟩ :=
    arch_execute ux hsl a2 hx2 hch2
  generalize execute fwd ux s2 = s3 at *
  refine ⟨a3, by rw [e3W]; exact hWB2, hMEM3, by rw [e3F, e2F, e1F], by rw [e3D, e2D, e1D],
    by rw [e3pc, e2pc, e1pc], e3st, by rw [e3b, e2X, e1X], by rw [e3o, e2X, e1X], ?_⟩
  intro hb
  have := e3m hb
  rw [e2X, e1X] at this
  exact ch2 this
/-- One tick in phase A: the next instruction leaves Decode; or nothing leaves
Decode (a stall, or the very first tick) and the pipeline behind drains; or
the `HALT` leaves Decode and phase B begins. -/
theorem tick_A {fwd : Bool} {code : Int → APEX_Instruction} {n : Nat}
    {r0 d0 : Int → Int} {s : APEX_CPU} {c i : Nat} {w m x : Option Nat}
    (g : StageId → CPU_Stage) (hsl : straight_line code n)
    (h : inv_A fwd code n r0 d0 s c i w m x) :
    (i < n ∧ inv_A fwd code n r0 d0 (APEX_cpu_tick fwd g s) (c + cnt w) (i + 1) m x (some i)
        ∧ (APEX_cpu_tick fwd g s).stage_DRF.busy = false)
      ∨ (inv_A fwd code n r0 d0 (APEX_cpu_tick fwd g s) (c + cnt w) i m x none
          ∧ (APEX_cpu_tick fwd g s).stage_DRF.busy = false
          ∧ (0 < cnt w + cnt m + cnt x ∨ s.stage_DRF.busy = true))
      ∨ (i = n ∧ inv_B fwd code n r0 d0 (APEX_cpu_tick fwd g s) (c + cnt w) m x) := by
  obtain ⟨a3, hWB, hMEM, eF, eD, epc, exs, exb, exo, hmb⟩ :=
    back_A (g StageId.WB) (g StageId.MEM) (g StageId.EX) hsl h
  obtain ⟨ha, hw, hm, hx, f1, f2, f3, f4, ch1, ch2, hFb, hfront⟩ := h
  have hxo : s.stage_EX.opcode ≠ Opcode.LOAD := lat_X_not_load hsl hx
  have hci : c + cnt w ≤ i := by omega
  have hcode3 := a3.1
  simp only [APEX_cpu_tick]
  generalize execute fwd (g StageId.EX) (memory fwd (g StageId.MEM)
    (writeback fwd (g StageId.WB) s)) = s3 at *
  have hFb3 : s3.stage_F.busy = false := by rw [eF]; exact hFb
  have hxo3 : s3.stage_EX.opcode ≠ Opcode.LOAD := by rw [exo]; exact hxo
  have hxbusy : s3.stage_EX.busy = true → x = none := by
    intro hb; rw [exb] at hb; exact lat_X_busy hx hb
  rcases hfront with ⟨hi0, hDb, hDs, hXb, hFs, hpc⟩ | ⟨hin, hDb, hDs, hDc, hFs, hpc⟩
      | ⟨hf, hin, hDb, hDs, hDc, hFs, hFc, hpc⟩
  · -- nothing fetched yet
    right; left
    have hDs3 : s3.stage_DRF.stalled = false := by rw [eD]; exact hDs
    have hFs3 : s3.stage_F.stalled = false := by rw [eF]; exact hFs
    rw [decode_startup fwd _ s3 (by rw [eD]; exact hDb) hDs3, fetch_live s3 hFb3 hFs3 hDs3]
    have hxn : x = none := lat_X_busy hx hXb
    have hidx : get_code_index s3.pc = 0 := by
      rw [epc, hpc]; exact get_code_index_cell 0
    refine ⟨⟨arch_congr a3 rfl rfl rfl rfl rfl, hWB, hMEM, ?_, f2, f3, by simp, ?_, hmb,
      fun _ => hxn, hFb3, ?_⟩, hFb3, Or.inr hDb⟩
    · subst hxn
      obtain ⟨-, h2⟩ := hx
      refine ⟨exs, ?_⟩
      rcases h2 with ⟨h3, h4⟩ | h3
      · exact Or.inl ⟨by rw [exb]; exact h3, by rw [exo]; exact h4⟩
      · exact Or.inr (by rw [exo]; exact h3)
    · simp only [cnt_none]; omega
    · right; left
      subst hi0
      refine ⟨Nat.zero_le _, hFb3, hFs3, ?_, hFs3, ?_⟩
      · simp [holds_code, hidx, hcode3]
      · show s3.pc + 4 = _
        rw [epc, hpc]; simp
  · -- instruction i in Decode, not stalled
    have hDb3 : s3.stage_DRF.busy = false := by rw [eD]; exact hDb
    have hDs3 : s3.stage_DRF.stalled = false := by rw [eD]; exact hDs
    have hFs3 : s3.stage_F.stalled = false := by rw [eF]; exact hFs
    have hDc3 : holds_code code i s3.stage_DRF := by rw [eD]; exact hDc
    have hidx : get_code_index s3.pc = ((i + 1 : Nat) : Int) := by
      rw [epc, hpc]
      have := get_code_index_cell (i + 1)
      push_cast at this ⊢
      exact this
    rcases Nat.eq_or_lt_of_le hin with hin' | hin'
    · -- the HALT
      right; right
      subst hin'
      have hop : s3.stage_DRF.opcode = Opcode.HALT := by rw [hDc3.1]; exact hsl.halt
      rw [decode_halt fwd _ s3 hDb3 hDs3 hop exs]
      rw [fetch_live { s3 with stage_EX := s3.stage_DRF } hFb3 hFs3 hDs3]
      refine ⟨rfl, arch_congr a3 rfl rfl rfl rfl rfl, hWB, hMEM, ⟨hDb3, hDs3, hop⟩, f2, f3, f4,
        hmb, hFb3, hFs3, hFb3, hFs3, ?_⟩
      show s3.pc + 4 = _
      rw [epc, hpc]; ring
    · by_cases hgo : fwd = true ∨ (code i).opcode = Opcode.MOVC
          ∨ (s3.regs_valid (code i).rs1 ≠ 0 ∧ s3.regs_valid (code i).rs2 ≠ 0)
      · -- the instruction leaves Decode
        left
        obtain ⟨a4, hX4, d1, d2, d3, d4, d5, d6, d7⟩ :=
          decode_go (g StageId.DRF) hsl a3 hci hin' hDb3 hDs3 hDc3 exs hxo3 hgo
        generalize decode fwd (g StageId.DRF) s3 = s4 at *
        rw [fetch_live s4 (by rw [d4]; exact hFb3) (by rw [d4]; exact hFs3) d2]
        have hidx4 : get_code_index s4.pc = ((i + 1 : Nat) : Int) := by rw [d7]; exact hidx
        refine ⟨hin', ⟨arch_congr a4 rfl rfl rfl rfl rfl, by rw [← d6] at hWB; exact hWB,
          by rw [← d5] at hMEM; exact hMEM, hX4, f2, f3, ?_, ?_, ?_, ?_, ?_, ?_⟩, ?_⟩
        · intro j hj; injection hj with hj; omega
        · simp only [cnt_some]; omega
        · intro hb; apply hmb; rw [← d5]; exact hb
        · intro hb
          have : s4.stage_EX.busy = true := hb
          rw [hX4.2.1] at this
          exact absurd this (by simp)
        · show s4.stage_F.busy = false
          rw [d4]; exact hFb3
        · right; left
          refine ⟨hin', ?_, ?_, ?_, ?_, ?_⟩
          · show s4.stage_F.busy = false
            rw [d4]; exact hFb3
          · show s4.stage_F.stalled = false
            rw [d4]; exact hFs3
          · simp [holds_code, hidx4, a4.1]
          · show s4.stage_F.stalled = false
            rw [d4]; exact hFs3
          · show s4.pc + 4 = _
            rw [d7, epc, hpc]; push_cast; ring
        · show s4.stage_F.busy = false
          rw [d4]; exact hFb3
      · -- a source register is not valid and there is no forwarding: stall
        right; left
        have hf : fwd = false := by
          cases fwd
          · rfl
          · exact absurd (Or.inl rfl) hgo
        subst hf
        have hm' : (code i).opcode ≠ Opcode.MOVC := fun e => hgo (Or.inr (Or.inl e))
        have hnv : ¬ (s3.regs_valid (code i).rs1 ≠ 0 ∧ s3.regs_valid (code i).rs2 ≠ 0) :=
          fun e => hgo (Or.inr (Or.inr e))
        obtain ⟨a4, hX4, d1, d2, d3, d4, d5, d6, d7, d8, d9⟩ :=
          decode_stall (g StageId.DRF) hsl a3 hin' hDb3 hDs3 hDc3 exs hm' hnv
        generalize decode false (g StageId.DRF) s3 = s4 at *
        rw [fetch_hold s4 (by rw [d4]; exact hFb3) (by rw [d4]; exact hFs3) d2]
        have hidx4 : get_code_index s4.pc = ((i + 1 : Nat) : Int) := by rw [d7]; exact hidx
        refine ⟨⟨arch_congr a4 rfl rfl rfl rfl rfl, by rw [← d6] at hWB; exact hWB,
          by rw [← d5] at hMEM; exact hMEM, hX4, f2, f3, by simp, ?_, ?_, ?_, ?_, ?_⟩, d1, ?_⟩
        · simp only [cnt_none]; omega
        · intro hb; apply hmb; rw [← d5]; exact hb
        · intro hb
          have h1 : s4.stage_EX.busy = true := hb
          rw [d9] at h1
          exact absurd h1 (by simp)
        · show s4.stage_F.busy = false
          rw [d4]; exact hFb3
        · right; right
          refine ⟨rfl, hin', d1, d2, d3, rfl, ?_, ?_⟩
          · simp [holds_code, hidx4, a4.1]
          · show s4.pc + 4 = _
            rw [d7, epc, hpc]; ring
        · left; omega
  · -- instruction i stalled in Decode (no forwarding)
    subst hf
    have hDb3 : s3.stage_DRF.busy = false := by rw [eD]; exact hDb
    have hDs3 : s3.stage_DRF.stalled = true := by rw [eD]; exact hDs
    have hFs3 : s3.stage_F.stalled = true := by rw [eF]; exact hFs
    have hDc3 : holds_code code i s3.stage_DRF := by rw [eD]; exact hDc
    have hFc3 : holds_code code (i + 1) s3.stage_F := by rw [eF]; exact hFc
    by_cases hgo : (code i).opcode = Opcode.MOVC
        ∨ (s3.regs_valid (code i).rs1 ≠ 0 ∧ s3.regs_valid (code i).rs2 ≠ 0)
    · left
      obtain ⟨a4, hX4, d1, d2, d3, d4, d5, d6, d7⟩ :=
        retry_go (g StageId.DRF) hsl a3 hci hin hDb3 hDs3 hDc3 exs hgo
      generalize decode false (g StageId.DRF) s3 = s4 at *
      rw [fetch_release s4 (by rw [d4]; exact hFs3) d2]
      refine ⟨hin, ⟨arch_congr a4 rfl rfl rfl rfl rfl, by rw [← d6] at hWB; exact hWB,
        by rw [← d5] at hMEM; exact hMEM, hX4, f2, f3, ?_, ?_, ?_, ?_, ?_, ?_⟩, ?_⟩
      · intro j hj; injection hj with hj; omega
      · simp only [cnt_some]; omega
      · intro hb; apply hmb; rw [← d5]; exact hb
      · intro hb
        have : s4.stage_EX.busy = true := hb
        rw [hX4.2.1] at this
        exact absurd this (by simp)
      · show s4.stage_F.busy = false
        rw [d4]; exact hFb3
      · right; left
        refine ⟨hin, ?_, rfl, ?_, rfl, ?_⟩
        · show s4.stage_F.busy = false
          rw [d4]; exact hFb3
        · rw [← d4] at hFc3
          exact hFc3
        · show s4.pc = _
          rw [d7, epc, hpc]; push_cast; ring
      · show s4.stage_F.busy = false
        rw [d4]; exact hFb3
    · right; left
      have hm' : (code i).opcode ≠ Opcode.MOVC := fun e => hgo (Or.inl e)
      have hnv : ¬ (s3.regs_valid (code i).rs1 ≠ 0 ∧ s3.regs_valid (code i).rs2 ≠ 0) :=
        fun e => hgo (Or.inr e)
      obtain ⟨a4, hX4, d1, d2, d3, d4, d5, d6, d7, d8, d9⟩ :=
        retry_stall (g StageId.DRF) hsl a3 hin hDb3 hDs3 hDc3 exs hm' hnv
      generalize decode false (g StageId.DRF) s3 = s4 at *
      rw [fetch_frozen s4 (by rw [d4]; exact hFs3) d2]
      refine ⟨⟨arch_congr a4 rfl rfl rfl rfl rfl, by rw [← d6] at hWB; exact hWB,
        by rw [← d5] at hMEM; exact hMEM, hX4, f2, f3, by simp, ?_, ?_, ?_, ?_, ?_⟩, d1, ?_⟩
      · simp only [cnt_none]; omega
      · intro hb; apply hmb; rw [← d5]; exact hb
      · intro hb
        have h1 : s4.stage_EX.busy = true := hb
        rw [d9] at h1
        exact absurd h1 (by simp)
      · show s4.stage_F.busy = false
        rw [d4]; exact hFb3
      · right; right
        refine ⟨rfl, hin, d1, d2, d3, ?_, ?_, ?_⟩
        · show s4.stage_F.stalled = true
          rw [d4]; exact hFs3
        · rw [← d4] at hFc3; exact hFc3
        · show s4.pc = _
          rw [d7, epc, hpc]
      · left; omega
theorem execute_halt (fwd : Bool) (u : CPU_Stage) (s : APEX_CPU) (h : lat_halt s.stage_EX) :
    execute fwd u s
      = { s with stage_DRF := { Create_NOP s u with stalled := true }
                 stage_F := { Create_NOP s u with stalled := true }
                 stage_MEM := s.stage_EX } := by
  obtain ⟨hb, hs, ho⟩ := h
  simp [execute, hb, hs, ho, Create_NOP]

theorem memory_halt (fwd : Bool) (u : CPU_Stage) (s : APEX_CPU) (h : lat_halt s.stage_MEM) :
    memory fwd u s
      = { s with stage_EX := { Create_NOP s u with stalled := true }
                 stage_WB := s.stage_MEM } := by
  obtain ⟨hb, hs, ho⟩ := h
  simp [memory, hb, hs, ho, Create_NOP]

theorem memory_stalled (fwd : Bool) (u : CPU_Stage) (s : APEX_CPU)
    (h : s.stage_MEM.stalled = true) : memory fwd u s = s := by
  simp [memory, h]

theorem writeback_halt (fwd : Bool) (u : CPU_Stage) (s : APEX_CPU) (h : lat_halt s.stage_WB) :
    writeback fwd u s
      = { s with pc := s.pc + 12000
                 stage_MEM := { Create_NOP s u with stalled := true }
                 ins_completed := s.ins_completed + 1 } := by
  obtain ⟨hb, hs, ho⟩ := h
  simp [writeback, hb, hs, ho, is_arith, Create_NOP]

theorem execute_stalled (fwd : Bool) (u : CPU_Stage) (s : APEX_CPU)
    (h : s.stage_EX.stalled = true) :
    execute fwd u s
      = { s with
          stage_EX := { s.stage_EX with stalled := false }
          stage_MEM := { s.stage_EX with stalled := false }
          regs_forwarding := if fwd then write s.regs_forwarding s.stage_EX.rd s.stage_EX.buffer
                             else s.regs_forwarding
          zero_flag := if fwd then zero_of s.stage_EX.buffer else s.zero_flag } := by
  cases fwd <;> simp [execute, h]

/-- One tick in phase B: the `HALT` is executed and freezes Fetch and Decode. -/
theorem tick_B {fwd : Bool} {code : Int → APEX_Instruction} {n : Nat}
    {r0 d0 : Int → Int} {s : APEX_CPU} {c : Nat} {w m : Option Nat}
    (g : StageId → CPU_Stage) (hsl : straight_line code n)
    (h : inv_B fwd code n r0 d0 s c w m) :
    inv_C fwd code n r0 d0 (APEX_cpu_tick fwd g s) (c + cnt w) m := by
  obtain ⟨ha, hw, hm, hx, f1, f2, f3, ch1, hFb, hFs, hDb, hDs, hpc⟩ := h
  obtain ⟨a1, e1F, e1D, e1X, e1M, e1W, e1pc⟩ := arch_writeback (g StageId.WB) hsl ha hw f1
  simp only [APEX_cpu_tick]
  generalize writeback fwd (g StageId.WB) s = s1 at *
  have hm1 : lat_W code r0 n m s1.stage_MEM := by rw [e1M]; exact hm
  have hmi : ∀ j, m = some j → c + cnt w ≤ j ∧ j < n ∧ (none : Option Nat) ≠ some j := by
    intro j hj
    have := f2 j hj
    subst hj
    simp only [cnt_some] at f3
    exact ⟨by omega, by omega, by simp⟩
  have hch : s1.stage_MEM.busy = true → lat_idle s1.stage_WB := by
    intro hb
    rw [e1M] at hb
    have := ch1 hb
    subst this
    rw [e1W]; exact hw
  obtain ⟨a2, hWB2, e2F, e2D, e2X, e2M, e2pc⟩ :=
    arch_memory (g StageId.MEM) hsl a1 hm1 hmi hch
  generalize memory fwd (g StageId.MEM) s1 = s2 at *
  have hx2 : lat_halt s2.stage_EX := by rw [e2X, e1X]; exact hx
  rw [execute_halt fwd _ s2 hx2]
  rw [decode_frozen fwd _ _ (by exact ⟨rfl, rfl, rfl⟩)]
  rw [fetch_frozen _ (by rfl) (by rfl)]
  refine ⟨arch_congr a2 rfl rfl rfl rfl rfl, hWB2, hx2, hx2, f2, by omega,
    ⟨rfl, rfl, rfl⟩, ⟨rfl, rfl, rfl⟩, ?_⟩
  show s2.pc = _
  rw [e2pc, e1pc, hpc]

/-- One tick in phase C: the last instruction before the `HALT` is committed,
`memory` freezes `EX`. -/
theorem tick_C {fwd : Bool} {code : Int → APEX_Instruction} {n : Nat}
    {r0 d0 : Int → Int} {s : APEX_CPU} {c : Nat} {w : Option Nat}
    (g : StageId → CPU_Stage) (hsl : straight_line code n)
    (h : inv_C fwd code n r0 d0 s c w) :
    inv_D code n r0 d0 (APEX_cpu_tick fwd g s) := by
  obtain ⟨ha, hw, hm, hx, f1, f2, hF, hD, hpc⟩ := h
  obtain ⟨a1, e1F, e1D, e1X, e1M, e1W, e1pc⟩ := arch_writeback (g StageId.WB) hsl ha hw f1
  simp only [APEX_cpu_tick]
  generalize writeback fwd (g StageId.WB) s = s1 at *
  have hm1 : lat_halt s1.stage_MEM := by rw [e1M]; exact hm
  rw [memory_halt fwd _ s1 hm1]
  rw [execute_stalled fwd _ _ (by rfl)]
  rw [decode_frozen fwd _ _ (by rw [← e1D] at hD; exact hD)]
  rw [fetch_frozen _ (by rw [← e1F] at hF; exact hF.2.1) (by rw [← e1D] at hD; exact hD.2.1)]
  obtain ⟨b1, b2, b3, -, -⟩ := a1
  refine ⟨b1, b2, ?_, hm1, ⟨rfl, rfl, rfl⟩, ⟨rfl, rfl, rfl⟩, by rw [← e1F] at hF; exact hF,
    by rw [← e1D] at hD; exact hD, ?_⟩
  · show s1.regs = _
    rw [b3, f2]
  · show s1.pc = _
    rw [e1pc, hpc]

/-- One tick in phase D: the `HALT` is committed. -/
theorem tick_D {fwd : Bool} {code : Int → APEX_Instruction} {n : Nat}
    {r0 d0 : Int → Int} {s : APEX_CPU}
    (g : StageId → CPU_Stage) (h : inv_D code n r0 d0 s) :
    inv_E code n r0 d0 (APEX_cpu_tick fwd g s) := by
  obtain ⟨h1, h2, h3, hW, hM, hX, hF, hD, hpc⟩ := h
  simp only [APEX_cpu_tick]
  rw [writeback_halt fwd _ s hW]
  rw [memory_stalled fwd _ _ (by rfl)]
  rw [execute_nop fwd _ _ (by exact hX.1) (by exact hX.2.1) (by exact hX.2.2)]
  rw [decode_frozen fwd _ _ (by exact hD)]
  rw [fetch_frozen _ (by exact hF.2.1) (by exact hD.2.1)]
  refine ⟨h1, h2, h3, hW, hX, hX, ?_⟩
  show s.pc + 12000 = _
  rw [hpc]
theorem drain_advance (n i : Nat) (w m x : Option Nat) (b : Bool) (hi : i < n) :
    measure_A n (i + 1) m x (some i) false < measure_A n i w m x b := by
  rcases w with _ | w <;> rcases m with _ | m <;> rcases x with _ | x <;> cases b <;>
    simp [measure_A, drain] <;> omega

theorem drain_wait (n i : Nat) (w m x : Option Nat) (b : Bool)
    (h : 0 < cnt w + cnt m + cnt x ∨ b = true) :
    measure_A n i m x none false < measure_A n i w m x b := by
  rcases w with _ | w <;> rcases m with _ | m <;> rcases x with _ | x <;> cases b <;>
    (simp [measure_A, drain, cnt] at h ⊢; try omega)

/-- From phase B the `HALT` is committed after three more ticks. -/
theorem run_B {fwd : Bool} {code : Int → APEX_Instruction} {n : Nat}
    {r0 d0 : Int → Int} (g : Int → StageId → CPU_Stage) (hsl : straight_line code n)
    {s : APEX_CPU} {c : Nat} {w m : Option Nat} (h : inv_B fwd code n r0 d0 s c w m) :
    inv_E code n r0 d0 (run_ticks fwd g 3 s)
      ∧ ∀ j, j < 3 → inv_run fwd code n r0 d0 (run_ticks fwd g j s) := by
  have hC := tick_B (g s.clock) hsl h
  have hD := tick_C (g (APEX_cpu_tick fwd (g s.clock) s).clock) hsl hC
  have hE := @tick_D fwd _ _ _ _ _
    (g (APEX_cpu_tick fwd (g (APEX_cpu_tick fwd (g s.clock) s).clock)
      (APEX_cpu_tick fwd (g s.clock) s)).clock) hD
  refine ⟨hE, ?_⟩
  intro j hj
  rcases j with _ | _ | _ | j
  · exact Or.inr (Or.inl ⟨_, _, _, h⟩)
  · exact Or.inr (Or.inr (Or.inl ⟨_, _, hC⟩))
  · exact Or.inr (Or.inr (Or.inr hD))
  · omega

/-- From phase A the `HALT` is committed after at most `measure + 4` ticks, and
every state on the way satisfies the invariant of its phase. -/
theorem run_A {fwd : Bool} {code : Int → APEX_Instruction} {n : Nat}
    {r0 d0 : Int → Int} (g : Int → StageId → CPU_Stage) (hsl : straight_line code n) :
    ∀ (μ : Nat) (s : APEX_CPU) (c i : Nat) (w m x : Option Nat),
      inv_A fwd code n r0 d0 s c i w m x → measure_A n i w m x s.stage_DRF.busy ≤ μ →
      ∃ k, k ≤ μ + 4 ∧ inv_E code n r0 d0 (run_ticks fwd g k s)
        ∧ ∀ j, j < k → inv_run fwd code n r0 d0 (run_ticks fwd g j s) := by
  intro μ
  induction μ with
  | zero =>
    intro s c i w m x h hμ
    rcases tick_A (g s.clock) hsl h with ⟨hi, -, -⟩ | ⟨-, -, hp⟩ | ⟨-, hB⟩
    · have := drain_advance n i w m x s.stage_DRF.busy hi
      omega
    · have := drain_wait n i w m x s.stage_DRF.busy hp
      omega
    · obtain ⟨hE, hr⟩ := run_B g hsl hB
      refine ⟨3 + 1, by omega, hE, ?_⟩
      intro j hj
      rcases j with _ | j
      · exact Or.inl ⟨_, _, _, _, _, h⟩
      · exact hr j (by omega)
  | succ μ ih =>
    intro s c i w m x h hμ
    rcases tick_A (g s.clock) hsl h with ⟨hi, hA, hb⟩ | ⟨hA, hb, hp⟩ | ⟨-, hB⟩
    · have hlt := drain_advance n i w m x s.stage_DRF.busy hi
      obtain ⟨k, hk, hE, hr⟩ := ih _ _ _ _ _ _ hA (by rw [hb]; omega)
      refine ⟨k + 1, by omega, hE, ?_⟩
      intro j hj
      rcases j with _ | j
      · exact Or.inl ⟨_, _, _, _, _, h⟩
      · exact hr j (by omega)
    · have hlt := drain_wait n i w m x s.stage_DRF.busy hp
      obtain ⟨k, hk, hE, hr⟩ := ih _ _ _ _ _ _ hA (by rw [hb]; omega)
      refine ⟨k + 1, by omega, hE, ?_⟩
      intro j hj
      rcases j with _ | j
      · exact Or.inl ⟨_, _, _, _, _, h⟩
      · exact hr j (by omega)
    · obtain ⟨hE, hr⟩ := run_B g hsl hB
      refine ⟨3 + 1, by omega, hE, ?_⟩
      intro j hj
      rcases j with _ | j
      · exact Or.inl ⟨_, _, _, _, _, h⟩
      · exact hr j (by omega)

/-- The state `APEX_cpu_init` builds satisfies the invariant of phase A with
nothing in flight. -/
theorem init_inv_A (fwd : Bool) (m : APEX_CPU) (code : Int → APEX_Instruction) (n : Nat)
    (size cycles clk : Int) :
    inv_A fwd code n (APEX_cpu_init m code size cycles).regs
      (APEX_cpu_init m code size cycles).data_memory
      { APEX_cpu_init m code size cycles with clock := clk } 0 0 none none none := by
  refine ⟨⟨rfl, rfl, rfl, ?_, ?_⟩, ?_, ?_, ?_, ?_, ?_, ?_, rfl, ?_, ?_, ?_⟩
  · intro r h0 h32
    simp [APEX_cpu_init, h0, h32, valid_after_memset]
  · intro _ j _ hj
    omega
  · exact ⟨rfl, Or.inl ⟨rfl, rfl⟩⟩
  · exact ⟨rfl, Or.inl ⟨rfl, rfl⟩⟩
  · exact ⟨rfl, Or.inl ⟨rfl, rfl⟩⟩
  · intro j hj; cases hj
  · intro j hj; cases hj
  · intro j hj; cases hj
  · intro _; rfl
  · intro _; rfl
  · exact ⟨rfl, Or.inl ⟨rfl, rfl, rfl, rfl, rfl, rfl⟩⟩

/-- The loop returns the state after `k` iterations when the exit test fails
before and holds then. -/
theorem run_loop_reach (fwd : Bool) (g : Int → StageId → CPU_Stage) (ipc : Int) :
    ∀ (k : Nat) (cpu : APEX_CPU) (fuel : Nat), k ≤ fuel →
      (∀ j, j < k → run_done ipc (run_ticks fwd g j cpu) = false) →
      run_done ipc (run_ticks fwd g k cpu) = true →
      run_loop fwd g ipc fuel cpu = some (0, run_ticks fwd g k cpu) := by
  intro k
  induction k with
  | zero =>
    intro cpu fuel _ _ hd
    exact run_loop_done fwd g ipc fuel cpu hd
  | succ k ih =>
    intro cpu fuel hf hlt hd
    obtain ⟨fuel, rfl⟩ : ∃ f, fuel = f + 1 := ⟨fuel - 1, by omega⟩
    rw [run_loop_step fwd g ipc fuel cpu (hlt 0 (by omega))]
    rw [run_ticks_succ]
    apply ih _ _ (by omega)
    · intro j hj
      have := hlt (j + 1) (by omega)
      rwa [run_ticks_succ] at this
    · rwa [run_ticks_succ] at hd
theorem code_of_lt (prog : List APEX_Instruction) (beyond : Int → APEX_Instruction)
    (tail : List APEX_Instruction) (j : Nat) (h : j < prog.length) :
    code_of (prog ++ tail) beyond j = prog.get ⟨j, h⟩ := by
  have h2 : (j : Int) < ((prog ++ tail).length : Int) := by
    simp only [List.length_append]; omega
  simp only [code_of, h2, and_true, Int.toNat_ofNat]
  rw [if_pos (by omega)]
  rw [List.getD_eq_getElem _ _ (by simp only [List.length_append]; omega)]
  rw [List.getElem_append_left h]
  rfl

theorem code_of_halt (prog : List APEX_Instruction) (beyond : Int → APEX_Instruction) :
    code_of (prog ++ [HALT]) beyond prog.length = HALT := by
  have h2 : (prog.length : Int) < ((prog ++ [HALT]).length : Int) := by
    simp only [List.length_append, List.length_singleton]; omega
  simp only [code_of, h2, and_true, Int.toNat_ofNat]
  rw [if_pos (by omega)]
  rw [List.getD_eq_getElem _ _ (by simp)]
  simp

/-- A list of the class, closed by `HALT`, is a straight-line program in code memory. -/
theorem straight_line_of_list {prog : List APEX_Instruction} (h : straight_line_list prog)
    (beyond : Int → APEX_Instruction) :
    straight_line (code_of (prog ++ [HALT]) beyond) prog.length := by
  refine ⟨?_, ?_, ?_, ?_, ?_⟩
  · intro j hj
    rw [code_of_lt _ _ _ _ hj]
    exact h.alu _ (List.get_mem _ _ _)
  · intro j hj
    rw [code_of_lt _ _ _ _ hj]
    exact h.rs1_range _ (List.get_mem _ _ _)
  · intro j hj
    rw [code_of_lt _ _ _ _ hj]
    exact h.rs2_range _ (List.get_mem _ _ _)
  · intro j k hj hk hjk
    rw [code_of_lt _ _ _ _ hj, code_of_lt _ _ _ _ hk] at hjk
    have hnd := h.distinct
    rw [List.nodup_iff_injective_get] at hnd
    have := @hnd ⟨j, by simpa using hj⟩ ⟨k, by simpa using hk⟩ (by simpa using hjk)
    simpa using this
  · rw [code_of_halt]
    rfl

/-- The sequential execution over code memory is the fold over the list. -/
theorem seq_regs_list (prog tail : List APEX_Instruction) (beyond : Int → APEX_Instruction)
    (r0 : Int → Int) :
    ∀ k, k ≤ prog.length →
      seq_regs (code_of (prog ++ tail) beyond) r0 k = seq_exec (prog.take k) r0 := by
  intro k
  induction k with
  | zero => intro _; simp [seq_regs, seq_exec]
  | succ k ih =>
    intro hk
    have hk2 : k < prog.length := by omega
    rw [seq_regs, ih (by omega), code_of_lt _ _ _ _ hk2]
    simp only [seq_exec, List.take_succ, List.getElem?_eq_getElem hk2, List.foldl_append,
      Option.toList, List.foldl_cons, List.foldl_nil]
    rfl

theorem seq_regs_full (prog : List APEX_Instruction) (beyond : Int → APEX_Instruction)
    (r0 : Int → Int) :
    seq_regs (code_of (prog ++ [HALT]) beyond) r0 prog.length = seq_exec prog r0 := by
  rw [seq_regs_list _ _ _ _ _ (le_refl _), List.take_length]
/-- Before the `HALT` is committed the program counter is at most two cells
beyond the `HALT`. -/
theorem inv_run_pc {fwd : Bool} {code : Int → APEX_Instruction} {n : Nat}
    {r0 d0 : Int → Int} {s : APEX_CPU} (h : inv_run fwd code n r0 d0 s) :
    s.pc ≤ 4000 + 4 * ((n : Int) + 2) := by
  rcases h with ⟨c, i, w, m, x, h⟩ | ⟨c, w, m, h⟩ | ⟨c, w, h⟩ | h
  · obtain ⟨-, -, -, -, -, -, -, -, -, -, -, hf⟩ := h
    rcases hf with ⟨-, -, -, -, -, hpc⟩ | ⟨hi, -, -, -, -, hpc⟩ | ⟨-, hi, -, -, -, -, -, hpc⟩
    · omega
    · omega
    · omega
  · obtain ⟨-, -, -, -, -, -, -, -, -, -, -, -, hpc⟩ := h
    omega
  · obtain ⟨-, -, -, -, -, -, -, -, hpc⟩ := h
    omega
  · obtain ⟨-, -, -, -, -, -, -, -, hpc⟩ := h
    omega

/-- The run of a program of the straight-line class: the `HALT` is committed
after `K ≤ 4 * length + 5` ticks, and every state before satisfies the
pipeline invariant of its phase. -/
theorem straight_inv (fwd : Bool) (g : Int → StageId → CPU_Stage)
    {prog : List APEX_Instruction} (h : straight_line_list prog) (m : APEX_CPU)
    (beyond : Int → APEX_Instruction) (N : Int) :
    ∃ K, K ≤ 4 * prog.length + 5
      ∧ inv_E (code_of (prog ++ [HALT]) beyond) prog.length
          (initial_state m (prog ++ [HALT]) beyond N).regs
          (initial_state m (prog ++ [HALT]) beyond N).data_memory
          (run_ticks fwd g K (initial_state m (prog ++ [HALT]) beyond N))
      ∧ (∀ j, j < K → inv_run fwd (code_of (prog ++ [HALT]) beyond) prog.length
          (initial_state m (prog ++ [HALT]) beyond N).regs
          (initial_state m (prog ++ [HALT]) beyond N).data_memory
          (run_ticks fwd g j (initial_state m (prog ++ [HALT]) beyond N))) := by
  have hsl := straight_line_of_list h beyond
  have h0 : inv_A fwd (code_of (prog ++ [HALT]) beyond) prog.length
      (initial_state m (prog ++ [HALT]) beyond N).regs
      (initial_state m (prog ++ [HALT]) beyond N).data_memory
      (initial_state m (prog ++ [HALT]) beyond N) 0 0 none none none :=
    init_inv_A fwd m _ _ _ _ 0
  obtain ⟨K, hK, hE, hr⟩ := run_A g hsl (4 * prog.length + 1) _ _ _ _ _ _ h0
    (by simp [measure_A, drain, initial_state, APEX_cpu_init])
  exact ⟨K, hK, hE, hr⟩

/-- The exit test holds once the `HALT` of a straight-line program is committed. -/
theorem straight_done (fwd : Bool) (g : Int → StageId → CPU_Stage)
    (prog : List APEX_Instruction) (m : APEX_CPU) (beyond : Int → APEX_Instruction) (N : Int)
    {r0 d0 : Int → Int} (K : Nat)
    (hE : inv_E (code_of (prog ++ [HALT]) beyond) prog.length r0 d0
      (run_ticks fwd g K (initial_state m (prog ++ [HALT]) beyond N))) :
    run_done 4000 (run_ticks fwd g K (initial_state m (prog ++ [HALT]) beyond N)) = true := by
  have hsize : (run_ticks fwd g K (initial_state m (prog ++ [HALT]) beyond N)).code_memory_size
      = (prog.length : Int) + 1 := by
    rw [(run_ticks_static fwd g K _).2.2.2]
    simp [initial_state, APEX_cpu_init]
  have hpc := hE.2.2.2.2.2.2
  simp only [run_done, hsize, Bool.or_eq_true, decide_eq_true_eq]
  left
  omega

/-- The exit test fails before the `HALT` of a straight-line program is
committed, as long as the cycle budget is not used up. -/
theorem straight_not_done (fwd : Bool) (g : Int → StageId → CPU_Stage)
    (prog : List APEX_Instruction) (m : APEX_CPU) (beyond : Int → APEX_Instruction) (N : Int)
    {r0 d0 : Int → Int} (j : Nat) (hj : (j : Int) < N)
    (hr : inv_run fwd (code_of (prog ++ [HALT]) beyond) prog.length r0 d0
      (run_ticks fwd g j (initial_state m (prog ++ [HALT]) beyond N))) :
    run_done 4000 (run_ticks fwd g j (initial_state m (prog ++ [HALT]) beyond N)) = false := by
  have hsize : (run_ticks fwd g j (initial_state m (prog ++ [HALT]) beyond N)).code_memory_size
      = (prog.length : Int) + 1 := by
    rw [(run_ticks_static fwd g j _).2.2.2]
    simp [initial_state, APEX_cpu_init]
  have hclock : (run_ticks fwd g j (initial_state m (prog ++ [HALT]) beyond N)).clock
      = (j : Int) := by
    rw [(run_ticks_static fwd g j _).1]
    simp [initial_state]
  have hcyc : (run_ticks fwd g j (initial_state m (prog ++ [HALT]) beyond N)).function_cycles
      = N := by
    rw [(run_ticks_static fwd g j _).2.1]
    simp [initial_state, APEX_cpu_init]
  have hpc := inv_run_pc hr
  simp only [run_done, hsize, hclock, hcyc, Bool.or_eq_false_iff, decide_eq_false_iff_not]
  constructor
  · omega
  · omega

/-- The driver run of a program of the straight-line class returns, and the
returned state holds the registers of the sequential execution. -/
theorem straight_result (fwd : Bool) (g : Int → StageId → CPU_Stage)
    {prog : List APEX_Instruction} (h : straight_line_list prog) (m : APEX_CPU)
    (beyond : Int → APEX_Instruction) (N : Int) (hN : 4 * (prog.length : Int) + 5 ≤ N)
    (fuel : Nat) (hfuel : 4 * prog.length + 5 ≤ fuel) :
    ∃ cpu, APEX_cpu_run fwd g fuel (initial_state m (prog ++ [HALT]) beyond N) = some (0, cpu)
      ∧ cpu.regs = seq_exec prog (initial_state m (prog ++ [HALT]) beyond N).regs := by
  obtain ⟨K, hK, hE, hr⟩ := straight_inv fwd g h m beyond N
  refine ⟨run_ticks fwd g K (initial_state m (prog ++ [HALT]) beyond N), ?_, ?_⟩
  · show run_loop fwd g 4000 fuel _ = _
    exact run_loop_reach fwd g 4000 K _ fuel (by omega)
      (fun j hj => straight_not_done fwd g prog m beyond N j (by omega) (hr j hj))
      (straight_done fwd g prog m beyond N K hE)
  · rw [hE.2.2.1, seq_regs_full]
/-! ## C3: one writer per register in flight -/

set_option maxRecDepth 100000 in
/-- C3 (the code at the failing input): for `MOVC R1,#5; MOVC R1,#7; HALT` the
driver reaches the state after three ticks (the exit test fails at the head of
the first three iterations), and in that state two instructions with
destination `R1` have left Decode and are not committed: the second `MOVC` is
in the `EX` latch and the first in the `MEM` latch.  Decode did not hold the
second producer back. -/
theorem C3_two_writers_in_flight :
    (∀ j, j < 3 → run_done 4000 (run_ticks true zero_locals j
        (initial_state zero_cpu prog_two_writers (fun _ => empty_instruction) 100)) = false)
      ∧ in_flight_writers (run_ticks true zero_locals 3
          (initial_state zero_cpu prog_two_writers (fun _ => empty_instruction) 100)) 1 = 2
      ∧ (run_ticks true zero_locals 3
          (initial_state zero_cpu prog_two_writers (fun _ => empty_instruction) 100)).stage_EX.imm
          = 7
      ∧ (run_ticks true zero_locals 3
          (initial_state zero_cpu prog_two_writers (fun _ => empty_instruction) 100)).stage_MEM.imm
          = 5 := by
  have e1 : run_ticks true zero_locals 1
      (initial_state zero_cpu prog_two_writers (fun _ => empty_instruction) 100)
      = APEX_cpu_tick true (zero_locals 0)
        (initial_state zero_cpu prog_two_writers (fun _ => empty_instruction) 100) := rfl
  have e2 : run_ticks true zero_locals 2
      (initial_state zero_cpu prog_two_writers (fun _ => empty_instruction) 100)
      = run_ticks true zero_locals 1 (run_ticks true zero_locals 1
        (initial_state zero_cpu prog_two_writers (fun _ => empty_instruction) 100)) := rfl
  have e3 : run_ticks true zero_locals 3
      (initial_state zero_cpu prog_two_writers (fun _ => empty_instruction) 100)
      = run_ticks true zero_locals 1 (run_ticks true zero_locals 2
        (initial_state zero_cpu prog_two_writers (fun _ => empty_instruction) 100)) := rfl
  rw [e3]
  generalize h2 : run_ticks true zero_locals 2
    (initial_state zero_cpu prog_two_writers (fun _ => empty_instruction) 100) = s2
  have hh2 := h2
  rw [e2] at hh2
  generalize h1 : run_ticks true zero_locals 1
    (initial_state zero_cpu prog_two_writers (fun _ => empty_instruction) 100) = s1 at hh2
  have hh1 := h1
  rw [e1] at hh1
  simp [initial_state, APEX_cpu_init, prog_two_writers, zero_cpu, zero_locals, zero_stage,
    empty_instruction, MOVC, HALT,
    APEX_cpu_tick, writeback, memory, execute, decode, decode_copy, decode_read,
    decode_retry, fetch, code_of, get_code_index_eq, Create_NOP,
    is_arith, is_reg_reg, arith_ahead, valid_after_memset, zero_of, write_apply] at hh1
  subst hh1
  rw [run_ticks_succ] at hh2
  simp [run_ticks, zero_locals, zero_stage,
    APEX_cpu_tick, writeback, memory, execute, decode, decode_copy, decode_read,
    decode_retry, fetch, code_of, get_code_index_eq, Create_NOP,
    is_arith, is_reg_reg, arith_ahead, valid_after_memset, zero_of, write_apply] at hh2
  subst hh2
  refine ⟨?_, ?_⟩
  · intro j hj
    obtain rfl | rfl | rfl : j = 0 ∨ j = 1 ∨ j = 2 := by omega
    · simp [run_ticks, run_done, initial_state, APEX_cpu_init, prog_two_writers]
    · rw [h1]; simp [run_done]
    · rw [h2]; simp [run_done]
  · rw [run_ticks_succ]
    simp [run_ticks, zero_locals, zero_stage, in_flight_writers, latch_writes, writes_register,
      APEX_cpu_tick, writeback, memory, execute, decode, decode_copy, decode_read,
      decode_retry, fetch, code_of, get_code_index_eq, Create_NOP,
      is_arith, is_reg_reg, arith_ahead, valid_after_memset, zero_of, write_apply]

set_option maxRecDepth 100000 in
set_option maxHeartbeats 4000000 in
/-- What the second producer in flight leads to, with forwarding: the run of
`MOVC R1,#5; MOVC R1,#7; MOVC R9,#0; ADD R2,R1,R1; HALT` returns after 9 ticks
with `regs[2] = 10`, where the execution of the instructions one at a time
gives 14.  The commit of the first `MOVC` marks `R1` valid while the second is
still in flight, and the `ADD` reads the old value from the register file. -/
theorem second_writer_wrong_result :
    (∃ a, APEX_cpu_run true zero_locals 20
        (initial_state zero_cpu prog_overwrite_spaced (fun _ => empty_instruction) 100)
          = some (0, a)
        ∧ a.clock = 9 ∧ a.regs 1 = 7 ∧ a.regs 2 = 10)
      ∧ seq_exec [MOVC 1 5, MOVC 1 7, MOVC 9 0, ADD 2 1 1] (fun _ => 0) 2 = 14 := by
  constructor
  · simp only [APEX_cpu_run, initial_state, APEX_cpu_init, prog_overwrite_spaced, MOVC, ADD,
      HALT, zero_stage, zero_cpu, empty_instruction]
    iterate 9
      rw [run_loop_step _ _ _ _ _ (by simp [run_done])]
      simp [APEX_cpu_tick, writeback, memory, execute, decode, decode_copy, decode_read,
        decode_retry, fetch, code_of, get_code_index_eq, Create_NOP, zero_locals, zero_stage,
        is_arith, is_reg_reg, arith_ahead, valid_after_memset, zero_of, write_apply]
    rw [run_loop_done _ _ _ _ _ (by simp [run_done])]
    simp [write_apply]
  · simp [seq_exec, seq_step, alu_result, MOVC, ADD, write]
/-! ## C4: a taken branch -/

theorem branch_inv_writeback (fwd : Bool) (u : CPU_Stage) (s : APEX_CPU)
    (h : branch_inv s) : branch_inv (writeback fwd u s) := by
  obtain ⟨o, ho⟩ : ∃ o, s.stage_WB.opcode = o := ⟨_, rfl⟩
  cases o <;> simp only [writeback, ho, is_arith] <;> simp <;> (try split_ifs) <;>
    (unfold branch_inv at *; simp_all [Create_NOP, is_branch])

theorem branch_inv_memory (fwd : Bool) (u : CPU_Stage) (s : APEX_CPU)
    (h : branch_inv s) : branch_inv_mem (memory fwd u s) := by
  obtain ⟨o, ho⟩ : ∃ o, s.stage_MEM.opcode = o := ⟨_, rfl⟩
  cases o <;> simp only [memory, ho] <;> simp <;> (try split_ifs) <;>
    (unfold branch_inv at h; unfold branch_inv_mem; simp_all [Create_NOP, is_branch])

theorem branch_inv_execute (fwd : Bool) (u : CPU_Stage) (s : APEX_CPU)
    (h : branch_inv_mem s) : branch_inv_ex (execute fwd u s) := by
  obtain ⟨o, ho⟩ : ∃ o, s.stage_EX.opcode = o := ⟨_, rfl⟩
  cases o <;> simp only [execute, ho] <;> simp <;> (try split_ifs) <;>
    (unfold branch_inv_mem at h; unfold branch_inv_ex; simp_all [Create_NOP, is_branch])

/-- What `decode_read` leaves alone, and when it can mark Decode stalled. -/
theorem decode_read_frame (fwd : Bool) (s : APEX_CPU) :
    (decode_read fwd s).stage_F = s.stage_F
      ∧ (decode_read fwd s).stage_EX = s.stage_EX
      ∧ (decode_read fwd s).stage_MEM = s.stage_MEM
      ∧ (decode_read fwd s).stage_WB = s.stage_WB
      ∧ (decode_read fwd s).stage_DRF.opcode = s.stage_DRF.opcode
      ∧ (decode_read fwd s).stage_DRF.busy = s.stage_DRF.busy
      ∧ ((decode_read fwd s).stage_DRF.stalled = true →
          s.stage_DRF.stalled = true ∨ fwd = false ∨ s.stage_EX.opcode = Opcode.LOAD) := by
  obtain ⟨o, ho⟩ : ∃ o, s.stage_DRF.opcode = o := ⟨_, rfl⟩
  cases o <;> simp only [decode_read, ho, is_reg_reg] <;> simp <;> (try split_ifs) <;>
    simp_all

theorem branch_inv_decode (u : CPU_Stage) (s : APEX_CPU)
    (h : branch_inv_ex s) : branch_inv_drf (decode true u s) := by
  unfold decode
  split_ifs with h1 h2 h3
  · obtain ⟨f1, f2, f3, f4, f5, f6, f7⟩ := decode_read_frame true s
    generalize decode_read true s = t at *
    unfold decode_copy
    split_ifs <;>
      (unfold branch_inv_ex at h; unfold branch_inv_drf; simp_all [Create_NOP, is_branch])
  · obtain ⟨o, ho⟩ : ∃ o, s.stage_DRF.opcode = o := ⟨_, rfl⟩
    cases o <;> simp only [decode_retry, ho, is_reg_reg] <;> simp <;> (try split_ifs) <;>
      (unfold branch_inv_ex at h; unfold branch_inv_drf; simp_all [Create_NOP, is_branch])
  · unfold branch_inv_ex at h; unfold branch_inv_drf; simp_all [Create_NOP, is_branch]
  · unfold branch_inv_ex at h; unfold branch_inv_drf; simp_all [Create_NOP, is_branch]

theorem branch_inv_fetch (s : APEX_CPU)
    (h : branch_inv_drf s) : branch_inv (fetch s) := by
  simp only [fetch]
  split_ifs <;>
    (unfold branch_inv_drf at h; unfold branch_inv; simp_all [Create_NOP, is_branch])

theorem branch_inv_tick (g : StageId → CPU_Stage) (s : APEX_CPU) (h : branch_inv s) :
    branch_inv (APEX_cpu_tick true g s) := by
  have h5 := branch_inv_fetch _ (branch_inv_decode (g StageId.DRF) _
    (branch_inv_execute true (g StageId.EX) _ (branch_inv_memory true (g StageId.MEM) _
      (branch_inv_writeback true (g StageId.WB) s h))))
  exact h5

theorem branch_inv_init (m : APEX_CPU) (code : Int → APEX_Instruction) (size cycles : Int) :
    branch_inv (APEX_cpu_init m code size cycles) := by
  simp [branch_inv, APEX_cpu_init, zero_stage, is_branch]

theorem branch_inv_run_ticks (g : Int → StageId → CPU_Stage) (k : Nat) (s : APEX_CPU)
    (h : branch_inv s) : branch_inv (run_ticks true g k s) := by
  induction k generalizing s with
  | zero => exact h
  | succ k ih => rw [run_ticks_succ]; exact ih _ (branch_inv_tick _ s h)

/-- What `writeback` leaves alone. -/
theorem writeback_frame (fwd : Bool) (u : CPU_Stage) (s : APEX_CPU) :
    (writeback fwd u s).stage_F = s.stage_F
      ∧ (writeback fwd u s).stage_DRF = s.stage_DRF
      ∧ (writeback fwd u s).stage_EX = s.stage_EX
      ∧ (writeback fwd u s).stage_WB = s.stage_WB
      ∧ (writeback fwd u s).data_memory = s.data_memory
      ∧ (writeback fwd u s).code_memory = s.code_memory := by
  obtain ⟨o, ho⟩ : ∃ o, s.stage_WB.opcode = o := ⟨_, rfl⟩
  cases o <;> simp only [writeback, ho, is_arith] <;> simp <;> (try split_ifs) <;> simp_all

/-- The rest of a tick after `writeback`, when `memory` finds a taken branch in
its latch and the control facts hold. -/
theorem taken_branch_rest (g : StageId → CPU_Stage) (t : APEX_CPU) (h : branch_inv t)
    (hb : t.stage_MEM.busy = false) (hs : t.stage_MEM.stalled = false)
    (htaken : (t.stage_MEM.opcode = Opcode.BZ ∧ t.zero_flag ≠ 0)
      ∨ (t.stage_MEM.opcode = Opcode.BNZ ∧ t.zero_flag = 0)) :
    fetch (decode true (g StageId.DRF) (execute true (g StageId.EX)
        (memory true (g StageId.MEM) t)))
      = { t with
          pc := t.stage_MEM.pc + t.stage_MEM.imm + 4
          regs_valid := write t.regs_valid t.stage_EX.rd 1
          stage_WB := t.stage_MEM
          stage_MEM := Create_NOP t (g StageId.MEM)
          stage_EX := Create_NOP t (g StageId.MEM)
          stage_DRF :=
            { t.stage_F with
              pc := t.stage_MEM.pc + t.stage_MEM.imm
              opcode := (t.code_memory
                (get_code_index (t.stage_MEM.pc + t.stage_MEM.imm))).opcode
              rd := (t.code_memory (get_code_index (t.stage_MEM.pc + t.stage_MEM.imm))).rd
              rs1 := (t.code_memory (get_code_index (t.stage_MEM.pc + t.stage_MEM.imm))).rs1
              rs2 := (t.code_memory (get_code_index (t.stage_MEM.pc + t.stage_MEM.imm))).rs2
              imm := (t.code_memory (get_code_index (t.stage_MEM.pc + t.stage_MEM.imm))).imm }
          stage_F :=
            { t.stage_F with
              pc := t.stage_MEM.pc + t.stage_MEM.imm
              opcode := (t.code_memory
                (get_code_index (t.stage_MEM.pc + t.stage_MEM.imm))).opcode
              rd := (t.code_memory (get_code_index (t.stage_MEM.pc + t.stage_MEM.imm))).rd
              rs1 := (t.code_memory (get_code_index (t.stage_MEM.pc + t.stage_MEM.imm))).rs1
              rs2 := (t.code_memory (get_code_index (t.stage_MEM.pc + t.stage_MEM.imm))).rs2
              imm := (t.code_memory (get_code_index (t.stage_MEM.pc + t.stage_MEM.imm))).imm } } := by
  obtain ⟨i1, i2, -, -, -, -⟩ := h
  have hbr : is_branch t.stage_MEM.opcode = true := by
    rcases htaken with ⟨h1, -⟩ | ⟨h1, -⟩ <;> simp [is_branch, h1]
  have hF := i2 hbr
  have hm : memory true (g StageId.MEM) t
      = { t with
          pc := t.stage_MEM.pc + t.stage_MEM.imm
          regs_valid := write t.regs_valid t.stage_EX.rd 1
          stage_DRF := Create_NOP t (g StageId.MEM)
          stage_EX := Create_NOP t (g StageId.MEM)
          stage_WB := t.stage_MEM } := by
    rcases htaken with ⟨h1, h2⟩ | ⟨h1, h2⟩ <;> simp [memory, h1, h2, hb, hs]
  rw [hm]
  simp [execute, decode, decode_copy, decode_read, fetch, Create_NOP, is_reg_reg, i1, hF]

/-- C4: with forwarding enabled, in every state `s` the driver reaches from the
state `APEX_cpu_init` builds (any program, any garbage), if after `writeback`
(state `t`) the `MEM` latch is neither busy nor stalled and holds a `BZ` with
the zero flag set, or a `BNZ` with it clear, then after this tick: the branch
is in `WB`; the `MEM` and `EX` latches hold `NOP` bubbles, so the instructions
that were in `EX` and `DRF` are in no latch any more and cannot reach
Writeback; registers, forwarding table and data memory are as `writeback` left
them (the flushed instructions wrote nothing; only the validity flag of the
`rd` of the instruction flushed from `EX` is set); and the `DRF` latch (equal to
the `F` latch, not stalled) holds the instruction fetched at the branch's own
`pc + imm`, with `pc` four beyond the target. -/
theorem C4_taken_branch_flush (m : APEX_CPU) (code : Int → APEX_Instruction)
    (size cycles : Int) (g : Int → StageId → CPU_Stage) (k : Nat) (s t : APEX_CPU)
    (hs : s = run_ticks true g k (APEX_cpu_init m code size cycles))
    (ht : t = writeback true (g s.clock StageId.WB) s)
    (hb : t.stage_MEM.busy = false) (hst : t.stage_MEM.stalled = false)
    (htaken : (t.stage_MEM.opcode = Opcode.BZ ∧ t.zero_flag ≠ 0)
      ∨ (t.stage_MEM.opcode = Opcode.BNZ ∧ t.zero_flag = 0)) :
    (run_ticks true g (k + 1) (APEX_cpu_init m code size cycles)).stage_WB = t.stage_MEM
      ∧ (run_ticks true g (k + 1) (APEX_cpu_init m code size cycles)).stage_MEM
          = Create_NOP t (g s.clock StageId.MEM)
      ∧ (run_ticks true g (k + 1) (APEX_cpu_init m code size cycles)).stage_EX
          = Create_NOP t (g s.clock StageId.MEM)
      ∧ (Create_NOP t (g s.clock StageId.MEM)).opcode = Opcode.NOP
      ∧ (run_ticks true g (k + 1) (APEX_cpu_init m code size cycles)).regs = t.regs
      ∧ (run_ticks true g (k + 1) (APEX_cpu_init m code size cycles)).regs_forwarding
          = t.regs_forwarding
      ∧ (run_ticks true g (k + 1) (APEX_cpu_init m code size cycles)).data_memory
          = s.data_memory
      ∧ (run_ticks true g (k + 1) (APEX_cpu_init m code size cycles)).regs_valid
          = write t.regs_valid s.stage_EX.rd 1
      ∧ (run_ticks true g (k + 1) (APEX_cpu_init m code size cycles)).stage_DRF.pc
          = t.stage_MEM.pc + t.stage_MEM.imm
      ∧ (run_ticks true g (k + 1) (APEX_cpu_init m code size cycles)).stage_DRF.opcode
          = (code (get_code_index (t.stage_MEM.pc + t.stage_MEM.imm))).opcode
      ∧ (run_ticks true g (k + 1) (APEX_cpu_init m code size cycles)).stage_DRF.rd
          = (code (get_code_index (t.stage_MEM.pc + t.stage_MEM.imm))).rd
      ∧ (run_ticks true g (k + 1) (APEX_cpu_init m code size cycles)).stage_DRF.rs1
          = (code (get_code_index (t.stage_MEM.pc + t.stage_MEM.imm))).rs1
      ∧ (run_ticks true g (k + 1) (APEX_cpu_init m code size cycles)).stage_DRF.rs2
          = (code (get_code_index (t.stage_MEM.pc + t.stage_MEM.imm))).rs2
      ∧ (run_ticks true g (k + 1) (APEX_cpu_init m code size cycles)).stage_DRF.imm
          = (code (get_code_index (t.stage_MEM.pc + t.stage_MEM.imm))).imm
      ∧ (run_ticks true g (k + 1) (APEX_cpu_init m code size cycles)).stage_DRF.stalled = false
      ∧ (run_ticks true g (k + 1) (APEX_cpu_init m code size cycles)).stage_DRF.busy = false
      ∧ (run_ticks true g (k + 1) (APEX_cpu_init m code size cycles)).stage_F
          = (run_ticks true g (k + 1) (APEX_cpu_init m code size cycles)).stage_DRF
      ∧ (run_ticks true g (k + 1) (APEX_cpu_init m code size cycles)).pc
          = t.stage_MEM.pc + t.stage_MEM.imm + 4 := by
  have hinv : branch_inv s := by
    rw [hs]; exact branch_inv_run_ticks g k _ (branch_inv_init m code size cycles)
  have hinvt : branch_inv t := by rw [ht]; exact branch_inv_writeback true _ s hinv
  have hcode : t.code_memory = code := by
    rw [ht, (writeback_frame true _ s).2.2.2.2.2, hs, (run_ticks_static true g k _).2.2.1]
    rfl
  have hEX : t.stage_EX = s.stage_EX := by rw [ht]; exact (writeback_frame true _ s).2.2.1
  have hdm : t.data_memory = s.data_memory := by
    rw [ht]; exact (writeback_frame true _ s).2.2.2.2.1
  have hstalled : t.stage_F.stalled = false := by
    apply hinvt.2.1
    rcases htaken with ⟨h1, -⟩ | ⟨h1, -⟩ <;> simp [is_branch, h1]
  have hbusy : t.stage_F.busy = false := hinvt.1
  have hnext : run_ticks true g (k + 1) (APEX_cpu_init m code size cycles)
      = APEX_cpu_tick true (g s.clock) s := by
    rw [run_ticks_succ_last, ← hs]
  have hrest := taken_branch_rest (g s.clock) t hinvt hb hst htaken
  rw [hnext]
  simp only [APEX_cpu_tick, ← ht, hrest, hcode, hEX, hdm, hstalled, hbusy, Create_NOP]
  simp

set_option maxRecDepth 100000 in
/-- The state in which `memory` meets the `BZ` of `prog_branch`: after 4 ticks
and the `writeback` of tick 5, which commits the `ADD` and sets the zero flag. -/
theorem branch_state_before_memory :
    (writeback true (zero_locals (run_ticks true zero_locals 4 branch_state).clock StageId.WB)
        (run_ticks true zero_locals 4 branch_state)).stage_MEM
        = { zero_stage with pc := 4004, opcode := Opcode.BZ, imm := 8 }
      ∧ (writeback true (zero_locals (run_ticks true zero_locals 4 branch_state).clock
          StageId.WB) (run_ticks true zero_locals 4 branch_state)).zero_flag = 1 := by
  generalize hs : run_ticks true zero_locals 4 branch_state = s
  simp only [branch_state, APEX_cpu_init, prog_branch, MOVC, ADD, BZ, HALT, zero_stage,
    zero_cpu] at hs
  iterate 4
    rw [run_ticks_succ] at hs
    simp [APEX_cpu_tick, writeback, memory, execute, decode, decode_copy, decode_read,
      decode_retry, fetch, code_of, get_code_index_eq, Create_NOP, zero_locals, zero_stage,
      is_arith, is_reg_reg, arith_ahead, valid_after_memset, zero_of, write_apply] at hs
  simp only [run_ticks] at hs
  subst hs
  simp [writeback, is_arith, zero_of, zero_stage]

/-- C4, at a concrete instance: in `prog_branch` the `BZ` is taken in tick 5;
the two instructions behind it are replaced by bubbles and the instruction at
address 4012 enters Decode. -/
theorem C4_taken_branch_flush_witness :
    (run_ticks true zero_locals (4 + 1) branch_state).stage_EX.opcode = Opcode.NOP
      ∧ (run_ticks true zero_locals (4 + 1) branch_state).stage_MEM.opcode = Opcode.NOP
      ∧ (run_ticks true zero_locals (4 + 1) branch_state).stage_DRF.pc = 4012
      ∧ (run_ticks true zero_locals (4 + 1) branch_state).stage_DRF.opcode = Opcode.MOVC
      ∧ (run_ticks true zero_locals (4 + 1) branch_state).stage_DRF.rd = 5 := by
  have e := branch_state_before_memory
  unfold branch_state at e ⊢
  have h := C4_taken_branch_flush zero_cpu (code_of prog_branch (fun _ => empty_instruction))
    5 100 zero_locals 4 _ _ rfl rfl
    (by simp [e.1, zero_stage]) (by simp [e.1, zero_stage])
    (Or.inl ⟨by simp [e.1], by simp [e.2]⟩)
  refine ⟨?_, ?_, ?_, ?_, ?_⟩
  · rw [h.2.2.1]; simp [Create_NOP]
  · rw [h.2.1]; simp [Create_NOP]
  · rw [h.2.2.2.2.2.2.2.2.1, e.1]; simp
  · rw [h.2.2.2.2.2.2.2.2.2.1, e.1]
    simp [code_of, prog_branch, get_code_index_eq, MOVC, ADD, BZ, HALT]
  · rw [h.2.2.2.2.2.2.2.2.2.2.1, e.1]
    simp [code_of, prog_branch, get_code_index_eq, MOVC, ADD, BZ, HALT]
/-! ## C5: JUMP -/

/-- C5: let the `EX` latch of `cpu` hold a `JUMP` (neither busy nor stalled)
whose operand value read in Decode is `rs1_value`, and let `cpu'` be a state
whose `MEM` latch is the one `execute` produced.  Then `execute` sets `buffer`
to `rs1_value + imm`; `memory` on that latch sets `pc` to `rs1_value + imm`,
replaces the `F`, `DRF` and `EX` latches by `NOP` bubbles that are not stalled,
sets the validity flags of the `rd` of the instructions that were in `DRF` and
`EX`, copies the `JUMP` into `WB` and leaves registers and data memory alone;
and after the rest of that tick (`execute`, `decode`, `fetch`) the `MEM` and
`EX` latches hold bubbles and `F` and `DRF` hold the instruction fetched at the
target, so none of the three younger instructions is left in any latch to be
committed, and registers and data memory are still unchanged. -/
theorem C5_jump_redirect (fwd : Bool) (u u' ux ud : CPU_Stage) (cpu cpu' : APEX_CPU)
    (hop : cpu.stage_EX.opcode = Opcode.JUMP) (hbusy : cpu.stage_EX.busy = false)
    (hst : cpu.stage_EX.stalled = false)
    (hlatch : cpu'.stage_MEM = (execute fwd u cpu).stage_MEM) :
    (execute fwd u cpu).stage_EX
        = { cpu.stage_EX with buffer := cpu.stage_EX.rs1_value + cpu.stage_EX.imm }
      ∧ (execute fwd u cpu).stage_MEM
        = { cpu.stage_EX with buffer := cpu.stage_EX.rs1_value + cpu.stage_EX.imm }
      ∧ (memory fwd u' cpu').pc = cpu.stage_EX.rs1_value + cpu.stage_EX.imm
      ∧ (memory fwd u' cpu').stage_F = Create_NOP cpu' u'
      ∧ (memory fwd u' cpu').stage_DRF = Create_NOP cpu' u'
      ∧ (memory fwd u' cpu').stage_EX = Create_NOP cpu' u'
      ∧ (Create_NOP cpu' u').opcode = Opcode.NOP
      ∧ (Create_NOP cpu' u').stalled = false
      ∧ (Create_NOP cpu' u').busy = false
      ∧ (memory fwd u' cpu').regs_valid cpu'.stage_DRF.rd = 1
      ∧ (memory fwd u' cpu').regs_valid cpu'.stage_EX.rd = 1
      ∧ (memory fwd u' cpu').stage_WB = cpu'.stage_MEM
      ∧ (memory fwd u' cpu').regs = cpu'.regs
      ∧ (memory fwd u' cpu').data_memory = cpu'.data_memory
      ∧ (fetch (decode fwd ud (execute fwd ux (memory fwd u' cpu')))).stage_MEM
          = Create_NOP cpu' u'
      ∧ (fetch (decode fwd ud (execute fwd ux (memory fwd u' cpu')))).stage_EX
          = Create_NOP cpu' u'
      ∧ (fetch (decode fwd ud (execute fwd ux (memory fwd u' cpu')))).stage_DRF.opcode
          = (cpu'.code_memory
              (get_code_index (cpu.stage_EX.rs1_value + cpu.stage_EX.imm))).opcode
      ∧ (fetch (decode fwd ud (execute fwd ux (memory fwd u' cpu')))).stage_DRF.pc
          = cpu.stage_EX.rs1_value + cpu.stage_EX.imm
      ∧ (fetch (decode fwd ud (execute fwd ux (memory fwd u' cpu')))).stage_F
          = (fetch (decode fwd ud (execute fwd ux (memory fwd u' cpu')))).stage_DRF
      ∧ (fetch (decode fwd ud (execute fwd ux (memory fwd u' cpu')))).pc
          = cpu.stage_EX.rs1_value + cpu.stage_EX.imm + 4
      ∧ (fetch (decode fwd ud (execute fwd ux (memory fwd u' cpu')))).regs = cpu'.regs
      ∧ (fetch (decode fwd ud (execute fwd ux (memory fwd u' cpu')))).data_memory
          = cpu'.data_memory := by
  have hx : execute fwd u cpu
      = { cpu with
          stage_EX := { cpu.stage_EX with
                        buffer := cpu.stage_EX.rs1_value + cpu.stage_EX.imm }
          stage_MEM := { cpu.stage_EX with
                         buffer := cpu.stage_EX.rs1_value + cpu.stage_EX.imm } } := by
    simp [execute, hop, hbusy, hst]
  rw [hx] at hlatch
  simp only at hlatch
  have hmop : cpu'.stage_MEM.opcode = Opcode.JUMP := by rw [hlatch]; exact hop
  have hmb : cpu'.stage_MEM.busy = false := by rw [hlatch]; exact hbusy
  have hms : cpu'.stage_MEM.stalled = false := by rw [hlatch]; exact hst
  have hmbuf : cpu'.stage_MEM.buffer = cpu.stage_EX.rs1_value + cpu.stage_EX.imm := by
    rw [hlatch]
  have hm : memory fwd u' cpu'
      = { cpu' with
          pc := cpu.stage_EX.rs1_value + cpu.stage_EX.imm
          regs_valid := write (write cpu'.regs_valid cpu'.stage_DRF.rd 1) cpu'.stage_EX.rd 1
          stage_DRF := Create_NOP cpu' u'
          stage_F := Create_NOP cpu' u'
          stage_EX := Create_NOP cpu' u'
          stage_WB := cpu'.stage_MEM } := by
    simp [memory, hmop, hmb, hms, hmbuf]
  rw [hx, hm]
  simp [execute, decode, decode_copy, decode_read, fetch, Create_NOP, is_reg_reg, write_apply]

/-- C5, at a concrete instance: a `JUMP` with operand value 4000 and immediate 8
in the `EX` latch of an otherwise zero state. -/
theorem C5_jump_redirect_witness :
    (execute true zero_stage
        { zero_cpu with stage_EX := { zero_stage with opcode := Opcode.JUMP,
                                                      rs1_value := 4000, imm := 8 } }).stage_EX
      = { zero_stage with opcode := Opcode.JUMP, rs1_value := 4000, imm := 8, buffer := 4008 }
    ∧ (memory true zero_stage
        { zero_cpu with stage_MEM := { zero_stage with opcode := Opcode.JUMP, rs1_value := 4000,
                                                       imm := 8, buffer := 4008 } }).pc = 4008 :=
  have h := C5_jump_redirect true zero_stage zero_stage zero_stage zero_stage
    { zero_cpu with stage_EX := { zero_stage with opcode := Opcode.JUMP,
                                                  rs1_value := 4000, imm := 8 } }
    { zero_cpu with stage_MEM := { zero_stage with opcode := Opcode.JUMP, rs1_value := 4000,
                                                   imm := 8, buffer := 4008 } }
    rfl rfl rfl (by decide)
  ⟨h.1, h.2.2.1⟩

/-! ## C6 and C9: `HALT` with many instructions behind it -/

set_option maxRecDepth 100000 in
/-- C9 (the code at the failing input): for the 2999-instruction program of
`early_halt_state`, the `WB` latch holds the `HALT` after 4 ticks, `writeback`
commits it in tick 5, and the program counter after that tick is 16008, below
the bound `4000 + 4 * 2999 + 16 = 16012` of the exit test: the test does not
hold and the loop goes on. -/
theorem C9_halt_pc_below_exit_bound :
    (run_ticks true zero_locals 4 early_halt_state).stage_WB.opcode = Opcode.HALT
      ∧ (run_ticks true zero_locals 4 early_halt_state).stage_WB.busy = false
      ∧ (run_ticks true zero_locals 4 early_halt_state).stage_WB.stalled = false
      ∧ (run_ticks true zero_locals 5 early_halt_state).pc = 16008
      ∧ (run_ticks true zero_locals 5 early_halt_state).code_memory_size = 2999
      ∧ early_halt_state.pc = 4000
      ∧ ¬ pc_test 4000 (run_ticks true zero_locals 5 early_halt_state)
      ∧ run_done 4000 (run_ticks true zero_locals 5 early_halt_state) = false := by
  rw [run_ticks_succ_last]
  generalize hs : run_ticks true zero_locals 4 early_halt_state = s
  simp only [early_halt_state, APEX_cpu_init, zero_stage, zero_cpu] at hs
  iterate 4
    rw [run_ticks_succ] at hs
    simp [APEX_cpu_tick, writeback, memory, execute, decode, decode_copy, decode_read, decode_retry, fetch,
      code_early_halt, MOVC, HALT, get_code_index_eq, Create_NOP, zero_locals, zero_stage,
      is_arith, is_reg_reg, arith_ahead, valid_after_memset, zero_of, write_apply] at hs
  subst hs
  simp [run_ticks, APEX_cpu_tick, writeback, memory, execute, decode, decode_copy, decode_read, decode_retry,
    fetch, code_early_halt, MOVC, HALT, get_code_index_eq, Create_NOP, zero_locals, zero_stage,
    is_arith, is_reg_reg, arith_ahead, valid_after_memset, zero_of, write_apply, pc_test,
    run_done, early_halt_state, APEX_cpu_init]

set_option maxRecDepth 100000 in
/-- C6 (the code at the failing input): for the program of `early_halt_state`
with budget 100, `writeback` commits the `HALT` in tick 5, after which the
counter is 1; the loop goes on, the `WB` latch still holds the `HALT`, and
after tick 6 the counter is 2. -/
theorem C6_counter_grows_after_halt :
    (run_ticks true zero_locals 4 early_halt_state).stage_WB.opcode = Opcode.HALT
      ∧ (run_ticks true zero_locals 4 early_halt_state).ins_completed = 0
      ∧ (run_ticks true zero_locals 5 early_halt_state).ins_completed = 1
      ∧ run_done early_halt_state.pc (run_ticks true zero_locals 5 early_halt_state) = false
      ∧ (run_ticks true zero_locals 5 early_halt_state).stage_WB.opcode = Opcode.HALT
      ∧ (run_ticks true zero_locals 6 early_halt_state).ins_completed = 2 := by
  have e6 : run_ticks true zero_locals 6 early_halt_state
      = run_ticks true zero_locals 2 (run_ticks true zero_locals 4 early_halt_state) := by
    simp only [run_ticks]
  have e5 : run_ticks true zero_locals 5 early_halt_state
      = run_ticks true zero_locals 1 (run_ticks true zero_locals 4 early_halt_state) := by
    simp only [run_ticks]
  rw [e6, e5]
  generalize hs : run_ticks true zero_locals 4 early_halt_state = s
  simp only [early_halt_state, APEX_cpu_init, zero_stage, zero_cpu] at hs
  iterate 4
    rw [run_ticks_succ] at hs
    simp [APEX_cpu_tick, writeback, memory, execute, decode, decode_copy, decode_read, decode_retry, fetch,
      code_early_halt, MOVC, HALT, get_code_index_eq, Create_NOP, zero_locals, zero_stage,
      is_arith, is_reg_reg, arith_ahead, valid_after_memset, zero_of, write_apply] at hs
  subst hs
  refine ⟨rfl, rfl, ?_⟩
  rw [run_ticks_succ, run_ticks_succ]
  simp [APEX_cpu_tick, writeback, memory, execute, decode, decode_copy, decode_read, decode_retry, fetch,
    code_early_halt, MOVC, HALT, get_code_index_eq, Create_NOP, zero_locals, zero_stage,
    is_arith, is_reg_reg, arith_ahead, valid_after_memset, zero_of, write_apply]
  simp [run_ticks, APEX_cpu_tick, writeback, memory, execute, decode, decode_copy, decode_read, decode_retry,
    fetch, code_early_halt, MOVC, HALT, get_code_index_eq, Create_NOP, zero_locals, zero_stage,
    is_arith, is_reg_reg, arith_ahead, valid_after_memset, zero_of, write_apply,
    run_done, early_halt_state, APEX_cpu_init]

/-! ## C7: forwarding on and off -/

set_option maxRecDepth 100000 in
set_option maxHeartbeats 4000000 in
/-- C7 (the code at the failing input): `MOVC R1,#5; MOVC R1,#7; ADD R2,R1,R1;
HALT` ends in `HALT` and contains no `LOAD`; with budget 100 both runs return,
with forwarding after 8 ticks and `regs[2] = 14`, without forwarding after 9
ticks and `regs[2] = 10` (the commit of the first `MOVC` marks `R1` valid
while the second is still in flight, and the `ADD` reads the old value from
the register file).  The final register files differ. -/
theorem C7_overwrite_differs :
    (∀ ins ∈ prog_overwrite, ins.opcode ≠ Opcode.LOAD)
      ∧ prog_overwrite.getLast? = some HALT
      ∧ ∃ a b,
        APEX_cpu_run true zero_locals 20
            (initial_state zero_cpu prog_overwrite (fun _ => empty_instruction) 100) = some (0, a)
          ∧ APEX_cpu_run false zero_locals 20
            (initial_state zero_cpu prog_overwrite (fun _ => empty_instruction) 100) = some (0, b)
          ∧ a.clock = 8 ∧ b.clock = 9 ∧ a.regs 2 = 14 ∧ b.regs 2 = 10 ∧ a.regs ≠ b.regs := by
  refine ⟨by simp [prog_overwrite, MOVC, ADD, HALT], by simp [prog_overwrite], ?_⟩
  have ha : ∃ a, APEX_cpu_run true zero_locals 20
      (initial_state zero_cpu prog_overwrite (fun _ => empty_instruction) 100) = some (0, a)
      ∧ a.clock = 8 ∧ a.regs 2 = 14 := by
    simp only [APEX_cpu_run, initial_state, APEX_cpu_init, prog_overwrite, MOVC, ADD, HALT,
      zero_stage, zero_cpu, empty_instruction]
    iterate 8
      rw [run_loop_step _ _ _ _ _ (by simp [run_done])]
      simp [APEX_cpu_tick, writeback, memory, execute, decode, decode_copy, decode_read,
        decode_retry, fetch, code_of, get_code_index_eq, Create_NOP, zero_locals, zero_stage,
        is_arith, is_reg_reg, arith_ahead, valid_after_memset, zero_of, write_apply]
    rw [run_loop_done _ _ _ _ _ (by simp [run_done])]
    simp [write_apply]
  have hb : ∃ b, APEX_cpu_run false zero_locals 20
      (initial_state zero_cpu prog_overwrite (fun _ => empty_instruction) 100) = some (0, b)
      ∧ b.clock = 9 ∧ b.regs 2 = 10 := by
    simp only [APEX_cpu_run, initial_state, APEX_cpu_init, prog_overwrite, MOVC, ADD, HALT,
      zero_stage, zero_cpu, empty_instruction]
    iterate 9
      rw [run_loop_step _ _ _ _ _ (by simp [run_done])]
      simp [APEX_cpu_tick, writeback, memory, execute, decode, decode_copy, decode_read,
        decode_retry, fetch, code_of, get_code_index_eq, Create_NOP, zero_locals, zero_stage,
        is_arith, is_reg_reg, arith_ahead, valid_after_memset, zero_of, write_apply]
    rw [run_loop_done _ _ _ _ _ (by simp [run_done])]
    simp [write_apply]
  obtain ⟨a, ha1, ha2, ha3⟩ := ha
  obtain ⟨b, hb1, hb2, hb3⟩ := hb
  refine ⟨a, b, ha1, hb1, ha2, hb2, ha3, hb3, ?_⟩
  intro hab
  rw [hab, hb3] at ha3
  omega
/-! ## C8: the cycle budget -/

/-- C8: for every program, garbage and forwarding mode, and every cycle budget
`n ≥ 0`, `APEX_cpu_run` started with `clock = 0` returns (fuel `n` is enough)
after some `k ≤ n` iterations with final `clock = k ≤ n`; `k` is the first
iteration count at which the exit test holds, so `k = n` when the PC test does
not hold before; and the value returned is 0 whichever disjunct of the test
ended the loop. -/
theorem C8_cycle_budget (fwd : Bool) (g : Int → StageId → CPU_Stage) (cpu : APEX_CPU)
    (n : Nat) (hclock : cpu.clock = 0) (hn : cpu.function_cycles = n)
    (fuel : Nat) (hfuel : n ≤ fuel) :
    ∃ k : Nat, k ≤ n
      ∧ APEX_cpu_run fwd g fuel cpu = some (0, run_ticks fwd g k cpu)
      ∧ (run_ticks fwd g k cpu).clock = k
      ∧ (∀ j : Nat, j < k → run_done cpu.pc (run_ticks fwd g j cpu) = false)
      ∧ ((∀ j : Nat, j < n → ¬ pc_test cpu.pc (run_ticks fwd g j cpu)) → k = n)
      ∧ (∀ (fuel' : Nat) (r : Int) (c : APEX_CPU),
          APEX_cpu_run fwd g fuel' cpu = some (r, c) → r = 0 ∧ c = run_ticks fwd g k cpu) := by
  obtain ⟨k, hk, hrun, hbefore, hat⟩ :=
    run_loop_budget fwd g cpu.pc n cpu fuel (by rw [hclock, hn]; simp) hfuel
  have hck : (run_ticks fwd g k cpu).clock = k := by
    rw [(run_ticks_static fwd g k cpu).1, hclock]; simp
  refine ⟨k, hk, hrun, hck, hbefore, ?_, ?_⟩
  · intro hpc
    by_contra hne
    have hlt : k < n := lt_of_le_of_ne hk hne
    have h1 := hpc k hlt
    simp only [run_done, Bool.or_eq_true, decide_eq_true_eq] at hat
    rcases hat with h | h
    · exact h1 h
    · rw [hck, (run_ticks_static fwd g k cpu).2.1, hn] at h
      have : k = n := by exact_mod_cast h
      omega
  · intro fuel' r c hr
    -- a run with any other fuel that returns, returns at the same iteration
    have key : ∀ (j : Nat) (f : Nat), j ≤ k →
        run_loop fwd g cpu.pc f (run_ticks fwd g (k - j) cpu) = some (r, c) →
        r = 0 ∧ c = run_ticks fwd g k cpu := by
      intro j
      induction j with
      | zero =>
        intro f _ h
        rw [Nat.sub_zero, run_loop_done fwd g cpu.pc f _ hat] at h
        simp only [Option.some.injEq, Prod.mk.injEq] at h
        exact ⟨h.1.symm, h.2.symm⟩
      | succ j ih =>
        intro f hj h
        have hnd := hbefore (k - (j + 1)) (by omega)
        cases f with
        | zero => simp [run_loop, hnd] at h
        | succ f =>
          rw [run_loop_step fwd g cpu.pc f _ hnd, ← run_ticks_succ_last] at h
          have e : k - (j + 1) + 1 = k - j := by omega
          rw [e] at h
          exact ih f (by omega) h
    have := key k fuel' (le_refl _)
    rw [Nat.sub_self] at this
    exact this hr

/-- C8, at a concrete instance: the example program with budget 3 stops on the
budget. -/
theorem C8_cycle_budget_witness :
    ∃ k : Nat, k ≤ 3
      ∧ APEX_cpu_run true zero_locals 3
          (initial_state zero_cpu prog_example (fun _ => empty_instruction) 3)
          = some (0, run_ticks true zero_locals k
              (initial_state zero_cpu prog_example (fun _ => empty_instruction) 3))
      ∧ (run_ticks true zero_locals k
          (initial_state zero_cpu prog_example (fun _ => empty_instruction) 3)).clock = k
      ∧ (∀ j : Nat, j < k →
          run_done (initial_state zero_cpu prog_example (fun _ => empty_instruction) 3).pc
            (run_ticks true zero_locals j
              (initial_state zero_cpu prog_example (fun _ => empty_instruction) 3)) = false)
      ∧ ((∀ j : Nat, j < 3 →
            ¬ pc_test (initial_state zero_cpu prog_example (fun _ => empty_instruction) 3).pc
              (run_ticks true zero_locals j
                (initial_state zero_cpu prog_example (fun _ => empty_instruction) 3))) → k = 3)
      ∧ (∀ (fuel' : Nat) (r : Int) (c : APEX_CPU),
          APEX_cpu_run true zero_locals fuel'
            (initial_state zero_cpu prog_example (fun _ => empty_instruction) 3) = some (r, c) →
          r = 0 ∧ c = run_ticks true zero_locals k
              (initial_state zero_cpu prog_example (fun _ => empty_instruction) 3)) :=
  C8_cycle_budget true zero_locals
    (initial_state zero_cpu prog_example (fun _ => empty_instruction) 3) 3 rfl rfl 3 (le_refl 3)

/-! ## C10: the completed-instruction counter -/

/-- C10: in every state, `writeback` adds exactly 1 to `ins_completed` when the
`WB` latch is neither busy nor stalled and its opcode is not `NOP`, and leaves
the counter as it is in every other case; a `NOP` bubble is never counted. -/
theorem C10_writeback_counter (fwd : Bool) (u : CPU_Stage) (cpu : APEX_CPU) :
    (writeback fwd u cpu).ins_completed =
      if cpu.stage_WB.busy = false ∧ cpu.stage_WB.stalled = false
          ∧ cpu.stage_WB.opcode ≠ Opcode.NOP
      then cpu.ins_completed + 1 else cpu.ins_completed := by
  obtain ⟨o, ho⟩ : ∃ o, cpu.stage_WB.opcode = o := ⟨_, rfl⟩
  cases o <;> simp only [writeback, ho, is_arith] <;> simp <;> split_ifs <;> simp_all

/-! ## C11: register indices are not validated -/

/-- C11 (the claim as written fails): the Decode latch of
`state_source_outside` holds `ADD R1,R40,R2`, whose first source register
number is outside `0..31`.  `decode` (forwarding enabled) returns 0, not an
error value; it does not stall the instruction and hands it to `EX` with the
register numbers as they are and with the first operand read at the index 40
of `regs`, which in this state holds 1 while every register `R0..R31` holds
0. -/
theorem C11_index_not_validated :
    state_source_outside.stage_DRF.rs1 = 40
      ∧ ¬ (0 ≤ state_source_outside.stage_DRF.rs1 ∧ state_source_outside.stage_DRF.rs1 < 32)
      ∧ (∀ r, 0 ≤ r → r < 32 → state_source_outside.regs r = 0)
      ∧ stage_return StageId.DRF state_source_outside = 0
      ∧ (decode true zero_stage state_source_outside).stage_DRF.stalled = false
      ∧ (decode true zero_stage state_source_outside).stage_EX.opcode = Opcode.ADD
      ∧ (decode true zero_stage state_source_outside).stage_EX.rs1 = 40
      ∧ (decode true zero_stage state_source_outside).stage_EX.rs1_value
          = state_source_outside.regs 40
      ∧ (decode true zero_stage state_source_outside).stage_EX.rs1_value = 1 := by
  refine ⟨rfl, by decide, ?_, rfl, ?_, ?_, ?_, ?_, ?_⟩
  · intro r h0 h1
    simp [state_source_outside, h0, h1]
  all_goals
    simp [decode, decode_read, decode_copy, state_source_outside, zero_cpu, zero_stage,
      is_reg_reg, write]

/-- C11 (amended): no stage validates a register index and no stage function
has an error result: each of the five returns 0 in every state.  With
forwarding (as compiled), for every value of `rs1` and `rs2`, inside `0..31`
or not, `decode` on a latch that is neither busy nor stalled and holds an
`ADD`, `SUB`, `MUL`, `AND`, `OR` or `EX-OR` with `rd` in `0..31`, with `EX`
not stalled and no `LOAD` of a source in `EX`, does not stall the instruction
and hands it to `EX` with the register numbers as they are; the operand for a
source `rs` is what lies at `regs[rs]` when what lies at `regs_valid[rs]` is
non-zero, and what lies at `regs_forwarding[rs]` otherwise. -/
theorem C11_unchecked_access (u : CPU_Stage) (s : APEX_CPU)
    (hb : s.stage_DRF.busy = false) (hs : s.stage_DRF.stalled = false)
    (hop : is_reg_reg s.stage_DRF.opcode = true) (hx : s.stage_EX.stalled = false)
    (hl : ¬ (s.stage_EX.opcode = Opcode.LOAD
      ∧ (s.stage_EX.rd = s.stage_DRF.rs1 ∨ s.stage_EX.rd = s.stage_DRF.rs2)))
    (_hrd : 0 ≤ s.stage_DRF.rd ∧ s.stage_DRF.rd < 32) :
    (∀ st, stage_return st s = 0)
      ∧ (decode true u s).stage_DRF.stalled = false
      ∧ (decode true u s).stage_EX
        = { s.stage_DRF with
            rs1_value := if s.regs_valid s.stage_DRF.rs1 ≠ 0 then s.regs s.stage_DRF.rs1
                         else s.regs_forwarding s.stage_DRF.rs1
            rs2_value := if s.regs_valid s.stage_DRF.rs2 ≠ 0 then s.regs s.stage_DRF.rs2
                         else s.regs_forwarding s.stage_DRF.rs2 } := by
  refine ⟨?_, ?_, ?_⟩
  · intro st
    cases st <;> rfl
  · by_cases h1 : s.regs_valid s.stage_DRF.rs1 = 0 <;>
      by_cases h2 : s.regs_valid s.stage_DRF.rs2 = 0 <;>
      simp [decode, decode_read, decode_copy, hb, hs, hop, hx, hl, h1, h2]
  · by_cases h1 : s.regs_valid s.stage_DRF.rs1 = 0 <;>
      by_cases h2 : s.regs_valid s.stage_DRF.rs2 = 0 <;>
      simp [decode, decode_read, decode_copy, hb, hs, hop, hx, hl, h1, h2]

/-- C11 (amended), at a concrete instance: `ADD R1,R40,R2` in the Decode latch
of `state_source_outside`. -/
theorem C11_unchecked_access_witness :
    state_source_outside.stage_DRF.rs1 = 40
      ∧ (0 ≤ state_source_outside.stage_DRF.rd ∧ state_source_outside.stage_DRF.rd < 32)
      ∧ stage_return StageId.DRF state_source_outside = 0
      ∧ (decode true zero_stage state_source_outside).stage_DRF.stalled = false
      ∧ (decode true zero_stage state_source_outside).stage_EX.opcode = Opcode.ADD
      ∧ (decode true zero_stage state_source_outside).stage_EX.rs1_value = 1
      ∧ (decode true zero_stage state_source_outside).stage_EX.rs2_value = 0 := by
  have h := C11_unchecked_access zero_stage state_source_outside rfl rfl rfl rfl
    (by simp [state_source_outside, zero_cpu, zero_stage]) (by decide)
  refine ⟨rfl, by decide, h.1 StageId.DRF, h.2.1, ?_, ?_, ?_⟩
  · rw [h.2.2]; rfl
  · rw [h.2.2]; simp [state_source_outside]
  · rw [h.2.2]; simp [state_source_outside]
/-! ## C12: branches in `memory` -/

/-- C12: let the `MEM` latch be neither busy nor stalled and hold a `BZ` or a
`BNZ`.  A `BZ` is taken exactly when `zero_flag` is non-zero and a `BNZ`
exactly when it is zero.  When the branch is taken, `memory` sets `pc` to the
latch's `pc + imm`, replaces the Decode and Execute latches by `NOP` bubbles
(not busy, not stalled), sets `regs_valid` of the `rd` of the flushed `EX`
latch to 1 and changes nothing else but `WB`; when it is not taken, nothing
but `WB` changes.  In both cases `WB` becomes a copy of the branch latch. -/
theorem C12_memory_branch (fwd : Bool) (u : CPU_Stage) (s : APEX_CPU)
    (hb : s.stage_MEM.busy = false) (hs : s.stage_MEM.stalled = false)
    (hop : s.stage_MEM.opcode = Opcode.BZ ∨ s.stage_MEM.opcode = Opcode.BNZ) :
    (((s.stage_MEM.opcode = Opcode.BZ ∧ s.zero_flag ≠ 0)
          ∨ (s.stage_MEM.opcode = Opcode.BNZ ∧ s.zero_flag = 0)) →
        memory fwd u s
          = { s with pc := s.stage_MEM.pc + s.stage_MEM.imm
                     stage_DRF := Create_NOP s u
                     stage_EX := Create_NOP s u
                     regs_valid := write s.regs_valid s.stage_EX.rd 1
                     stage_WB := s.stage_MEM })
      ∧ (((s.stage_MEM.opcode = Opcode.BZ ∧ s.zero_flag = 0)
          ∨ (s.stage_MEM.opcode = Opcode.BNZ ∧ s.zero_flag ≠ 0)) →
        memory fwd u s = { s with stage_WB := s.stage_MEM })
      ∧ (Create_NOP s u).opcode = Opcode.NOP
      ∧ (Create_NOP s u).busy = false
      ∧ (Create_NOP s u).stalled = false
      ∧ (memory fwd u s).stage_WB = s.stage_MEM := by
  rcases hop with hop | hop
  · by_cases hz : s.zero_flag = 0 <;> simp [memory, hb, hs, hop, hz, Create_NOP]
  · by_cases hz : s.zero_flag = 0 <;> simp [memory, hb, hs, hop, hz, Create_NOP]

/-- C12, at a concrete instance: a `BZ #8` fetched at 4004 with the zero flag
set is taken, `pc` becomes 4012 and `regs_valid[3]` becomes 1. -/
theorem C12_memory_branch_witness :
    state_bz_taken.stage_MEM.busy = false ∧ state_bz_taken.stage_MEM.stalled = false
      ∧ state_bz_taken.stage_MEM.opcode = Opcode.BZ
      ∧ (memory true zero_stage state_bz_taken).pc = 4012
      ∧ (memory true zero_stage state_bz_taken).regs_valid 3 = 1
      ∧ (memory true zero_stage state_bz_taken).stage_EX.opcode = Opcode.NOP
      ∧ (memory true zero_stage state_bz_taken).stage_WB = state_bz_taken.stage_MEM := by
  have h := C12_memory_branch true zero_stage state_bz_taken rfl rfl (Or.inl rfl)
  have h1 := h.1 (Or.inl ⟨rfl, by decide⟩)
  refine ⟨rfl, rfl, rfl, ?_, ?_, ?_, h.2.2.2.2.2⟩
  · rw [h1]; rfl
  · rw [h1]; simp [write, state_bz_taken]
  · rw [h1]; rfl
/-! ## C13: operand read in `decode` with forwarding -/

/-- C13: with forwarding, let the Decode latch be neither busy nor stalled and
hold an `ADD`, `SUB`, `MUL`, `AND`, `OR` or `EX-OR`, let `EX` not be stalled
and not hold a `LOAD` whose `rd` is `rs1` or `rs2`.  Then `decode` copies the
instruction into the `EX` latch with, for each source, the value `regs[rs]`
when `regs_valid[rs]` is non-zero and `regs_forwarding[rs]` otherwise (the
flags are read before `regs_valid[rd]` is cleared), sets `regs_valid[rd]` to
0, leaves Decode not stalled and changes nothing else. -/
theorem C13_decode_operands (u : CPU_Stage) (s : APEX_CPU)
    (hb : s.stage_DRF.busy = false) (hs : s.stage_DRF.stalled = false)
    (hop : is_reg_reg s.stage_DRF.opcode = true) (hx : s.stage_EX.stalled = false)
    (hl : ¬ (s.stage_EX.opcode = Opcode.LOAD
      ∧ (s.stage_EX.rd = s.stage_DRF.rs1 ∨ s.stage_EX.rd = s.stage_DRF.rs2))) :
    decode true u s
        = { s with
            stage_DRF :=
              { s.stage_DRF with
                rs1_value := if s.regs_valid s.stage_DRF.rs1 ≠ 0 then s.regs s.stage_DRF.rs1
                             else s.regs_forwarding s.stage_DRF.rs1
                rs2_value := if s.regs_valid s.stage_DRF.rs2 ≠ 0 then s.regs s.stage_DRF.rs2
                             else s.regs_forwarding s.stage_DRF.rs2 }
            stage_EX :=
              { s.stage_DRF with
                rs1_value := if s.regs_valid s.stage_DRF.rs1 ≠ 0 then s.regs s.stage_DRF.rs1
                             else s.regs_forwarding s.stage_DRF.rs1
                rs2_value := if s.regs_valid s.stage_DRF.rs2 ≠ 0 then s.regs s.stage_DRF.rs2
                             else s.regs_forwarding s.stage_DRF.rs2 }
            regs_valid := write s.regs_valid s.stage_DRF.rd 0 }
      ∧ (decode true u s).stage_DRF.stalled = false
      ∧ (decode true u s).regs_valid s.stage_DRF.rd = 0 := by
  have key : decode true u s
        = { s with
            stage_DRF :=
              { s.stage_DRF with
                rs1_value := if s.regs_valid s.stage_DRF.rs1 ≠ 0 then s.regs s.stage_DRF.rs1
                             else s.regs_forwarding s.stage_DRF.rs1
                rs2_value := if s.regs_valid s.stage_DRF.rs2 ≠ 0 then s.regs s.stage_DRF.rs2
                             else s.regs_forwarding s.stage_DRF.rs2 }
            stage_EX :=
              { s.stage_DRF with
                rs1_value := if s.regs_valid s.stage_DRF.rs1 ≠ 0 then s.regs s.stage_DRF.rs1
                             else s.regs_forwarding s.stage_DRF.rs1
                rs2_value := if s.regs_valid s.stage_DRF.rs2 ≠ 0 then s.regs s.stage_DRF.rs2
                             else s.regs_forwarding s.stage_DRF.rs2 }
            regs_valid := write s.regs_valid s.stage_DRF.rd 0 } := by
    by_cases h1 : s.regs_valid s.stage_DRF.rs1 = 0 <;>
      by_cases h2 : s.regs_valid s.stage_DRF.rs2 = 0 <;>
      simp [decode, decode_read, decode_copy, hb, hs, hop, hx, hl, h1, h2]
  refine ⟨key, ?_, ?_⟩
  · rw [key]; exact hs
  · rw [key]; simp [write]

/-- C13, at a concrete instance: `ADD R1,R2,R3` with `R2` valid (5) and `R3`
pending with forwarded value 9 enters `EX` with the operand values 5 and 9. -/
theorem C13_decode_operands_witness :
    state_add_decode.stage_DRF.busy = false ∧ state_add_decode.stage_DRF.stalled = false
      ∧ is_reg_reg state_add_decode.stage_DRF.opcode = true
      ∧ (decode true zero_stage state_add_decode).stage_EX.rs1_value = 5
      ∧ (decode true zero_stage state_add_decode).stage_EX.rs2_value = 9
      ∧ (decode true zero_stage state_add_decode).stage_DRF.stalled = false
      ∧ (decode true zero_stage state_add_decode).regs_valid 1 = 0 := by
  have h := C13_decode_operands zero_stage state_add_decode rfl rfl rfl rfl
    (by simp [state_add_decode, zero_cpu, zero_stage])
  refine ⟨rfl, rfl, rfl, ?_, ?_, h.2.1, h.2.2⟩
  · rw [h.1]; simp [state_add_decode]
  · rw [h.1]; simp [state_add_decode]
/-! ## C14: a branch in `decode` with forwarding -/

set_option maxRecDepth 100000 in
/-- C14 (the claim as written fails): in the third tick of the program
`ADD R1,R2,R3; BZ #8; ...` the function `decode` is called with the `BZ` in a
Decode latch that is neither busy nor stalled while the `EX` and `MEM` latches
both hold the `ADD`; the `BZ` is copied into `EX` in that same call and Decode
is not stalled. -/
theorem C14_branch_not_held :
    branch_decode_state.stage_DRF.opcode = Opcode.BZ
      ∧ branch_decode_state.stage_DRF.busy = false
      ∧ branch_decode_state.stage_DRF.stalled = false
      ∧ branch_decode_state.stage_EX.opcode = Opcode.ADD
      ∧ branch_decode_state.stage_MEM.opcode = Opcode.ADD
      ∧ arith_ahead branch_decode_state = true
      ∧ (decode true zero_stage branch_decode_state).stage_EX.opcode = Opcode.BZ
      ∧ (decode true zero_stage branch_decode_state).stage_DRF.stalled = false := by
  unfold branch_decode_state
  generalize hs : run_ticks true zero_locals 2 branch_state = s
  simp only [branch_state, APEX_cpu_init, prog_branch, MOVC, ADD, BZ, HALT, zero_stage,
    zero_cpu] at hs
  iterate 2
    rw [run_ticks_succ] at hs
    simp [APEX_cpu_tick, writeback, memory, execute, decode, decode_copy, decode_read,
      decode_retry, fetch, code_of, get_code_index_eq, Create_NOP, zero_locals, zero_stage,
      is_arith, is_reg_reg, arith_ahead, valid_after_memset, zero_of, write_apply] at hs
  simp only [run_ticks] at hs
  subst hs
  simp [writeback, memory, execute, decode, decode_copy, decode_read,
    Create_NOP, zero_stage, is_arith, is_reg_reg, arith_ahead, zero_of, write_apply]

/-- C14 (amended): with forwarding, let the Decode latch hold a `BZ` or a `BNZ`.
If the latch is neither busy nor stalled, `decode` does not look at the
opcodes ahead: when `EX` is not stalled the branch is copied into `EX` in that
call and nothing else changes, and when `EX` is stalled the branch becomes
stalled and `EX` is left alone.  Only for a branch that is already stalled in
Decode, with `EX` not stalled, does `decode` inspect the `EX`, `MEM` and `WB`
latches: if one of them holds an `ADD`, `SUB` or `MUL` the branch stays
stalled and a `NOP` bubble is put into `EX`, otherwise the stall is cleared
and the branch is copied into `EX`. -/
theorem C14_branch_decode (u : CPU_Stage) (s : APEX_CPU)
    (hop : s.stage_DRF.opcode = Opcode.BZ ∨ s.stage_DRF.opcode = Opcode.BNZ) :
    (s.stage_DRF.busy = false → s.stage_DRF.stalled = false → s.stage_EX.stalled = false →
        decode true u s = { s with stage_EX := s.stage_DRF })
      ∧ (s.stage_DRF.busy = false → s.stage_DRF.stalled = false →
          s.stage_EX.stalled = true →
        decode true u s = { s with stage_DRF := { s.stage_DRF with stalled := true } })
      ∧ (s.stage_DRF.stalled = true → s.stage_EX.stalled = false → arith_ahead s = true →
        decode true u s = { s with stage_DRF := { s.stage_DRF with stalled := true }
                                   stage_EX := Create_NOP s u })
      ∧ (s.stage_DRF.stalled = true → s.stage_EX.stalled = false → arith_ahead s = false →
        decode true u s = { s with stage_DRF := { s.stage_DRF with stalled := false }
                                   stage_EX := { s.stage_DRF with stalled := false } })
      ∧ (Create_NOP s u).opcode = Opcode.NOP := by
  refine ⟨?_, ?_, ?_, ?_, rfl⟩
  · intro hb hs hx
    rcases hop with hop | hop <;>
      simp [decode, decode_read, decode_copy, hb, hs, hx, hop, is_reg_reg]
  · intro hb hs hx
    rcases hop with hop | hop <;>
      simp [decode, decode_read, decode_copy, hb, hs, hx, hop, is_reg_reg]
  · intro hs hx ha
    rcases hop with hop | hop <;>
      simp [decode, decode_retry, hs, hx, hop, is_reg_reg, ha]
  · intro hs hx ha
    rcases hop with hop | hop <;>
      simp [decode, decode_retry, hs, hx, hop, is_reg_reg, ha]

/-- C14 (amended), at a concrete instance: a `BZ` stalled in Decode with an
`ADD` in the `MEM` latch stays stalled, and `EX` receives a bubble. -/
theorem C14_branch_decode_witness :
    state_bz_stalled.stage_DRF.opcode = Opcode.BZ
      ∧ arith_ahead state_bz_stalled = true
      ∧ (decode true zero_stage state_bz_stalled).stage_DRF.stalled = true
      ∧ (decode true zero_stage state_bz_stalled).stage_EX.opcode = Opcode.NOP := by
  have h := C14_branch_decode zero_stage state_bz_stalled (Or.inl rfl)
  have h3 := h.2.2.1 rfl rfl (by decide)
  refine ⟨rfl, by decide, ?_, ?_⟩
  · rw [h3]
  · rw [h3]; rfl
/-! ## C15: `MUL` takes two `execute` calls -/

/-- C15: with forwarding (as compiled), let the `EX` latch be neither busy nor
stalled and hold a `MUL` with operand values `rs1_value` and `rs2_value` whose
product lies within the range of an `int`, and let the register numbers the
stage calls store at be within `0..31`: the `rd` of the `MUL`, and the `rd` of
the Decode latch and of the `WB` latch when they hold an instruction with a
destination.  The first `execute` call sets `buffer` to the product, marks the
latch stalled, puts a `NOP` bubble (not busy, not stalled) into `MEM` and
leaves the forwarding table and the zero flag unchanged.  Up to the next
`execute` call (`decode`, `fetch`, `clock++`, `writeback`, `memory`) the `EX`
latch is not touched: Decode is not read again.  The next `execute` call
clears the stall, sets `regs_forwarding[rd]` to the product and the zero flag
to 1 if the product is 0 and to 0 otherwise, and copies the latch (not
stalled, `buffer` the product) into `MEM`; this second step is what `execute`
does on every state whose `EX` latch is the stalled one. -/
theorem C15_mul_two_cycles (u ud uw um ux : CPU_Stage) (s : APEX_CPU)
    (hb : s.stage_EX.busy = false) (hs : s.stage_EX.stalled = false)
    (hop : s.stage_EX.opcode = Opcode.MUL)
    (_hprod : int_min ≤ s.stage_EX.rs1_value * s.stage_EX.rs2_value
      ∧ s.stage_EX.rs1_value * s.stage_EX.rs2_value ≤ int_max)
    (_hrd : 0 ≤ s.stage_EX.rd ∧ s.stage_EX.rd < 32)
    (_hdrd : writes_register s.stage_DRF.opcode = true →
      0 ≤ s.stage_DRF.rd ∧ s.stage_DRF.rd < 32)
    (_hwrd : writes_register s.stage_WB.opcode = true →
      0 ≤ s.stage_WB.rd ∧ s.stage_WB.rd < 32) :
    (execute true u s).stage_EX
        = { s.stage_EX with buffer := s.stage_EX.rs1_value * s.stage_EX.rs2_value
                            stalled := true }
      ∧ (execute true u s).stage_MEM.opcode = Opcode.NOP
      ∧ (execute true u s).stage_MEM.busy = false
      ∧ (execute true u s).stage_MEM.stalled = false
      ∧ (execute true u s).regs_forwarding = s.regs_forwarding
      ∧ (execute true u s).zero_flag = s.zero_flag
      ∧ (memory true um (writeback true uw
            { fetch (decode true ud (execute true u s)) with
              clock := (fetch (decode true ud (execute true u s))).clock + 1 })).stage_EX
          = (execute true u s).stage_EX
      ∧ (until_next_execute true ud uw um ux (execute true u s)).stage_EX
          = { s.stage_EX with buffer := s.stage_EX.rs1_value * s.stage_EX.rs2_value
                              stalled := false }
      ∧ (until_next_execute true ud uw um ux (execute true u s)).stage_MEM
          = { s.stage_EX with buffer := s.stage_EX.rs1_value * s.stage_EX.rs2_value
                              stalled := false }
      ∧ (until_next_execute true ud uw um ux (execute true u s)).regs_forwarding
            s.stage_EX.rd
          = s.stage_EX.rs1_value * s.stage_EX.rs2_value
      ∧ (until_next_execute true ud uw um ux (execute true u s)).zero_flag
          = (if s.stage_EX.rs1_value * s.stage_EX.rs2_value = 0 then 1 else 0)
      ∧ (∀ t : APEX_CPU, t.stage_EX = (execute true u s).stage_EX →
          execute true ux t
            = { t with
                stage_EX :=
                  { s.stage_EX with buffer := s.stage_EX.rs1_value * s.stage_EX.rs2_value
                                    stalled := false }
                stage_MEM :=
                  { s.stage_EX with buffer := s.stage_EX.rs1_value * s.stage_EX.rs2_value
                                    stalled := false }
                regs_forwarding := write t.regs_forwarding s.stage_EX.rd
                  (s.stage_EX.rs1_value * s.stage_EX.rs2_value)
                zero_flag :=
                  if s.stage_EX.rs1_value * s.stage_EX.rs2_value = 0 then 1 else 0 }) := by
  have h1 : execute true u s
      = { s with
          stage_EX := { s.stage_EX with
                        buffer := s.stage_EX.rs1_value * s.stage_EX.rs2_value
                        stalled := true }
          stage_MEM := Create_NOP
            { s with stage_EX := { s.stage_EX with
                                   buffer := s.stage_EX.rs1_value * s.stage_EX.rs2_value
                                   stalled := true } } u } := by
    simp [execute, hb, hs, hop]
  have hsecond : ∀ t : APEX_CPU, t.stage_EX = (execute true u s).stage_EX →
      execute true ux t
        = { t with
            stage_EX :=
              { s.stage_EX with buffer := s.stage_EX.rs1_value * s.stage_EX.rs2_value
                                stalled := false }
            stage_MEM :=
              { s.stage_EX with buffer := s.stage_EX.rs1_value * s.stage_EX.rs2_value
                                stalled := false }
            regs_forwarding := write t.regs_forwarding s.stage_EX.rd
              (s.stage_EX.rs1_value * s.stage_EX.rs2_value)
            zero_flag :=
              if s.stage_EX.rs1_value * s.stage_EX.rs2_value = 0 then 1 else 0 } := by
    intro t ht
    rw [h1] at ht
    simp only at ht
    rw [execute_stalled true ux t (by rw [ht])]
    simp [ht, zero_of]
  have hkeep : (memory true um (writeback true uw
        { fetch (decode true ud (execute true u s)) with
          clock := (fetch (decode true ud (execute true u s))).clock + 1 })).stage_EX
      = (execute true u s).stage_EX := by
    have hst : (execute true u s).stage_EX.stalled = true := by rw [h1]
    have hmo : (execute true u s).stage_MEM.opcode = Opcode.NOP := by rw [h1]; rfl
    have d := decode_frame true ud (execute true u s)
    have f := fetch_frame (decode true ud (execute true u s))
    have w := writeback_frame true uw
      { fetch (decode true ud (execute true u s)) with
        clock := (fetch (decode true ud (execute true u s))).clock + 1 }
    have hwm : (writeback true uw
        { fetch (decode true ud (execute true u s)) with
          clock := (fetch (decode true ud (execute true u s))).clock + 1 }).stage_MEM.opcode
        = Opcode.NOP := by
      have hm0 : (fetch (decode true ud (execute true u s))).stage_MEM.opcode = Opcode.NOP := by
        rw [f.2.1, d.1, hmo]
      generalize fetch (decode true ud (execute true u s)) = x at hm0 ⊢
      obtain ⟨o, ho⟩ : ∃ o, x.stage_WB.opcode = o := ⟨_, rfl⟩
      cases o <;> simp only [writeback, ho, is_arith] <;> simp <;> (try split_ifs) <;>
        simp_all [Create_NOP]
    rw [(memory_frame true um _).2.2.2 hwm, w.2.2.1]
    show (fetch (decode true ud (execute true u s))).stage_EX = _
    rw [f.1, d.2.2.2.2.2.2.2.2 hst]
  have hnext := hsecond _ hkeep
  have hu : until_next_execute true ud uw um ux (execute true u s)
      = execute true ux (memory true um (writeback true uw
        { fetch (decode true ud (execute true u s)) with
          clock := (fetch (decode true ud (execute true u s))).clock + 1 })) := rfl
  refine ⟨by rw [h1], by rw [h1]; rfl, by rw [h1]; rfl, by rw [h1]; rfl, by rw [h1],
    by rw [h1], hkeep, ?_, ?_, ?_, ?_, hsecond⟩
  · rw [hu, hnext]
  · rw [hu, hnext]
  · rw [hu, hnext]; simp [write]
  · rw [hu, hnext]

/-- C15, at a concrete instance: `MUL R1` with operand values 3 and 4. -/
theorem C15_mul_two_cycles_witness :
    state_mul.stage_EX.busy = false ∧ state_mul.stage_EX.stalled = false
      ∧ state_mul.stage_EX.opcode = Opcode.MUL
      ∧ (int_min ≤ state_mul.stage_EX.rs1_value * state_mul.stage_EX.rs2_value
        ∧ state_mul.stage_EX.rs1_value * state_mul.stage_EX.rs2_value ≤ int_max)
      ∧ (0 ≤ state_mul.stage_EX.rd ∧ state_mul.stage_EX.rd < 32)
      ∧ (execute true zero_stage state_mul).stage_EX.buffer = 12
      ∧ (execute true zero_stage state_mul).stage_EX.stalled = true
      ∧ (execute true zero_stage state_mul).stage_MEM.opcode = Opcode.NOP
      ∧ (until_next_execute true zero_stage zero_stage zero_stage zero_stage
          (execute true zero_stage state_mul)).stage_MEM.buffer = 12
      ∧ (until_next_execute true zero_stage zero_stage zero_stage zero_stage
          (execute true zero_stage state_mul)).regs_forwarding 1 = 12
      ∧ (until_next_execute true zero_stage zero_stage zero_stage zero_stage
          (execute true zero_stage state_mul)).zero_flag = 0 := by
  have h := C15_mul_two_cycles zero_stage zero_stage zero_stage zero_stage zero_stage
    state_mul rfl rfl rfl (by decide) (by decide) (by decide) (by decide)
  refine ⟨rfl, rfl, rfl, by decide, by decide, ?_, ?_, h.2.1, ?_, h.2.2.2.2.2.2.2.2.2.1, ?_⟩
  · rw [h.1]; rfl
  · rw [h.1]
  · rw [h.2.2.2.2.2.2.2.2.1]; rfl
  · rw [h.2.2.2.2.2.2.2.2.2.2.1]; rfl
/-! ## C16 and C17: `fetch` -/

/-- C16: let the Fetch latch be neither busy nor stalled and `pc = 4000 + 4k`
with `k` an index into code memory.  Then `fetch` copies `opcode`, `rd`, `rs1`,
`rs2` and `imm` of instruction `k` into the Fetch latch, sets the latch's `pc`
to the old `pc` and `pc` to the old `pc + 4`; when Decode is not stalled the
Decode latch becomes a copy of the Fetch latch, and when Decode is stalled the
Decode latch is unchanged and the Fetch latch, holding that instruction,
becomes stalled.  Nothing else changes. -/
theorem C16_fetch_instruction (s : APEX_CPU) (k : Int)
    (hb : s.stage_F.busy = false) (hs : s.stage_F.stalled = false)
    (hpc : s.pc = 4000 + 4 * k) (hk0 : 0 ≤ k) (_hk : k < s.code_memory_size) :
    (s.stage_DRF.stalled = false →
        fetch s
          = { s with
              pc := s.pc + 4
              stage_F := { s.stage_F with
                           pc := s.pc, opcode := (s.code_memory k).opcode,
                           rd := (s.code_memory k).rd, rs1 := (s.code_memory k).rs1,
                           rs2 := (s.code_memory k).rs2, imm := (s.code_memory k).imm }
              stage_DRF := { s.stage_F with
                             pc := s.pc, opcode := (s.code_memory k).opcode,
                             rd := (s.code_memory k).rd, rs1 := (s.code_memory k).rs1,
                             rs2 := (s.code_memory k).rs2, imm := (s.code_memory k).imm } })
      ∧ (s.stage_DRF.stalled = true →
        fetch s
          = { s with
              pc := s.pc + 4
              stage_F := { s.stage_F with
                           pc := s.pc, opcode := (s.code_memory k).opcode,
                           rd := (s.code_memory k).rd, rs1 := (s.code_memory k).rs1,
                           rs2 := (s.code_memory k).rs2, imm := (s.code_memory k).imm,
                           stalled := true } }) := by
  have hidx : get_code_index s.pc = k := by
    rw [get_code_index_eq _ (by omega), hpc]
    omega
  constructor
  · intro hd
    simp [fetch, hb, hs, hd, hidx]
  · intro hd
    simp [fetch, hb, hs, hd, hidx]

/-- C16, at a concrete instance: the first fetch of the one-instruction program
`MOVC R1,#5`. -/
theorem C16_fetch_instruction_witness :
    state_fetch.stage_F.busy = false ∧ state_fetch.stage_F.stalled = false
      ∧ state_fetch.pc = 4000 + 4 * 0 ∧ (0 : Int) < state_fetch.code_memory_size
      ∧ (fetch state_fetch).pc = 4004
      ∧ (fetch state_fetch).stage_F.opcode = Opcode.MOVC
      ∧ (fetch state_fetch).stage_F.pc = 4000
      ∧ (fetch state_fetch).stage_DRF = (fetch state_fetch).stage_F := by
  have h := (C16_fetch_instruction state_fetch 0 rfl rfl rfl (le_refl 0) (by decide)).1 rfl
  refine ⟨rfl, rfl, rfl, by decide, ?_, ?_, ?_, ?_⟩
  · rw [h]; rfl
  · rw [h]; rfl
  · rw [h]; rfl
  · rw [h]

/-- C17: let the Fetch latch be stalled.  Then `fetch` leaves `pc` and the
instruction in the Fetch latch unchanged; when Decode is stalled it changes
nothing at all, and when Decode is not stalled it clears the stall of the
Fetch latch and makes the Decode latch a copy of it (not stalled), changing
nothing else. -/
theorem C17_fetch_stalled (s : APEX_CPU) (hs : s.stage_F.stalled = true) :
    (fetch s).pc = s.pc
      ∧ (fetch s).code_memory = s.code_memory
      ∧ (fetch s).stage_F.opcode = s.stage_F.opcode
      ∧ (fetch s).stage_F.rd = s.stage_F.rd
      ∧ (fetch s).stage_F.rs1 = s.stage_F.rs1
      ∧ (fetch s).stage_F.rs2 = s.stage_F.rs2
      ∧ (fetch s).stage_F.imm = s.stage_F.imm
      ∧ (fetch s).stage_F.pc = s.stage_F.pc
      ∧ (s.stage_DRF.stalled = true → fetch s = s)
      ∧ (s.stage_DRF.stalled = false →
          fetch s = { s with stage_F := { s.stage_F with stalled := false }
                             stage_DRF := { s.stage_F with stalled := false } }) := by
  rcases Bool.eq_false_or_eq_true s.stage_DRF.stalled with hd | hd <;>
    simp [fetch, hs, hd]

/-- C17, at a concrete instance: a stalled Fetch latch holding `MOVC R1,#5` is
released into a Decode latch that is not stalled. -/
theorem C17_fetch_stalled_witness :
    state_fetch_stalled.stage_F.stalled = true
      ∧ (fetch state_fetch_stalled).pc = 4008
      ∧ (fetch state_fetch_stalled).stage_F.stalled = false
      ∧ (fetch state_fetch_stalled).stage_DRF.opcode = Opcode.MOVC
      ∧ (fetch state_fetch_stalled).stage_DRF.pc = 4004
      ∧ (fetch state_fetch_stalled).stage_DRF.stalled = false := by
  have h := C17_fetch_stalled state_fetch_stalled rfl
  have h2 := h.2.2.2.2.2.2.2.2.2 rfl
  refine ⟨rfl, h.1, ?_, ?_, ?_, ?_⟩ <;> rw [h2] <;> rfl
/-! ## C18: the pipeline behind an executed `HALT` -/

theorem halted_front_writeback (fwd : Bool) (u : CPU_Stage) (s : APEX_CPU)
    (h : halted_front s) : halted_front (writeback fwd u s) := by
  obtain ⟨o, ho⟩ : ∃ o, s.stage_WB.opcode = o := ⟨_, rfl⟩
  cases o <;> simp only [writeback, ho, is_arith] <;> simp <;> (try split_ifs) <;>
    (unfold halted_front lat_nop at *; simp_all [Create_NOP])

theorem halted_front_memory (fwd : Bool) (u : CPU_Stage) (s : APEX_CPU)
    (h : halted_front s) : halted_front (memory fwd u s) := by
  obtain ⟨hF, hD, hX, hM | hM⟩ := h
  · by_cases hl : (!s.stage_MEM.busy && !s.stage_MEM.stalled) = true
    · simp only [memory, hl, hM]
      simp
      exact ⟨hF, hD, Or.inr rfl, Or.inl hM⟩
    · simp only [memory, hl]
      simp
      exact ⟨hF, hD, hX, Or.inl hM⟩
  · by_cases hl : (!s.stage_MEM.busy && !s.stage_MEM.stalled) = true
    · simp only [memory, hl, hM]
      simp
      exact ⟨hF, hD, hX, Or.inr hM⟩
    · simp only [memory, hl]
      simp
      exact ⟨hF, hD, hX, Or.inr hM⟩

theorem halted_front_execute (fwd : Bool) (u : CPU_Stage) (s : APEX_CPU)
    (h : halted_front s) : halted_front (execute fwd u s) := by
  obtain ⟨hF, hD, hX, hM⟩ := h
  rcases hX with hX | hX <;>
    rcases Bool.eq_false_or_eq_true s.stage_EX.busy with hb | hb <;>
    rcases Bool.eq_false_or_eq_true s.stage_EX.stalled with hs | hs <;>
    cases fwd <;>
    simp [execute, hX, hb, hs, halted_front, lat_nop, Create_NOP] <;>
    (unfold lat_nop at hF hD; simp_all)

/-- Behind an executed `HALT` a tick keeps Fetch and Decode frozen, and its
`fetch` call changes nothing. -/
theorem halted_front_tick (fwd : Bool) (g : StageId → CPU_Stage) (s : APEX_CPU)
    (h : halted_front s) :
    halted_front (APEX_cpu_tick fwd g s)
      ∧ halted_front (before_fetch fwd g s)
      ∧ fetch (before_fetch fwd g s) = before_fetch fwd g s := by
  have h3 := halted_front_execute fwd (g StageId.EX) _
    (halted_front_memory fwd (g StageId.MEM) _ (halted_front_writeback fwd (g StageId.WB) s h))
  have hd := decode_frozen fwd (g StageId.DRF) _ h3.2.1
  have hbf : before_fetch fwd g s
      = execute fwd (g StageId.EX) (memory fwd (g StageId.MEM)
          (writeback fwd (g StageId.WB) s)) := by
    unfold before_fetch
    rw [hd]
  have hf := fetch_frozen _ h3.1.2.1 h3.2.1.2.1
  refine ⟨?_, ?_, ?_⟩
  · have : APEX_cpu_tick fwd g s
        = { fetch (before_fetch fwd g s) with
            clock := (fetch (before_fetch fwd g s)).clock + 1 } := rfl
    rw [this, hbf, hf]
    exact h3
  · rw [hbf]; exact h3
  · rw [hbf]; exact hf

theorem halted_front_run_ticks (fwd : Bool) (g : Int → StageId → CPU_Stage) (k : Nat) :
    ∀ s, halted_front s → halted_front (run_ticks fwd g k s) := by
  induction k with
  | zero => intro s h; exact h
  | succ k ih => intro s h; exact ih _ (halted_front_tick fwd (g s.clock) s h).1

/-- C18: take any state at the head of a tick in which `execute` finds a `HALT`
in a latch that is neither busy nor stalled.  After that `execute` call the
Fetch and Decode latches are stalled `NOP` bubbles, and the `decode` and
`fetch` calls of the same tick change nothing.  In the state after that tick
and after every number `k` of further ticks the Fetch and Decode latches are
stalled `NOP` bubbles, and in the tick that follows the `fetch` call is
applied to a state with stalled bubbles in Fetch and Decode and returns it
unchanged: it reads no instruction from code memory, loads nothing into a
latch and does not add 4 to `pc`. -/
theorem C18_halt_freezes_front (fwd : Bool) (g : Int → StageId → CPU_Stage) (s : APEX_CPU)
    (hx : lat_halt (memory fwd (g s.clock StageId.MEM)
      (writeback fwd (g s.clock StageId.WB) s)).stage_EX) :
    lat_nop true (execute fwd (g s.clock StageId.EX) (memory fwd (g s.clock StageId.MEM)
        (writeback fwd (g s.clock StageId.WB) s))).stage_F
      ∧ lat_nop true (execute fwd (g s.clock StageId.EX) (memory fwd (g s.clock StageId.MEM)
        (writeback fwd (g s.clock StageId.WB) s))).stage_DRF
      ∧ before_fetch fwd (g s.clock) s
          = execute fwd (g s.clock StageId.EX) (memory fwd (g s.clock StageId.MEM)
              (writeback fwd (g s.clock StageId.WB) s))
      ∧ fetch (before_fetch fwd (g s.clock) s) = before_fetch fwd (g s.clock) s
      ∧ ∀ k : Nat,
          lat_nop true (run_ticks fwd g k (APEX_cpu_tick fwd (g s.clock) s)).stage_F
            ∧ lat_nop true (run_ticks fwd g k (APEX_cpu_tick fwd (g s.clock) s)).stage_DRF
            ∧ lat_nop true (before_fetch fwd
                (g (run_ticks fwd g k (APEX_cpu_tick fwd (g s.clock) s)).clock)
                (run_ticks fwd g k (APEX_cpu_tick fwd (g s.clock) s))).stage_F
            ∧ lat_nop true (before_fetch fwd
                (g (run_ticks fwd g k (APEX_cpu_tick fwd (g s.clock) s)).clock)
                (run_ticks fwd g k (APEX_cpu_tick fwd (g s.clock) s))).stage_DRF
            ∧ fetch (before_fetch fwd
                (g (run_ticks fwd g k (APEX_cpu_tick fwd (g s.clock) s)).clock)
                (run_ticks fwd g k (APEX_cpu_tick fwd (g s.clock) s)))
              = before_fetch fwd
                (g (run_ticks fwd g k (APEX_cpu_tick fwd (g s.clock) s)).clock)
                (run_ticks fwd g k (APEX_cpu_tick fwd (g s.clock) s)) := by
  have he := execute_halt fwd (g s.clock StageId.EX) _ hx
  have h3 : halted_front (execute fwd (g s.clock StageId.EX)
      (memory fwd (g s.clock StageId.MEM) (writeback fwd (g s.clock StageId.WB) s))) := by
    rw [he]
    exact ⟨⟨rfl, rfl, rfl⟩, ⟨rfl, rfl, rfl⟩, Or.inl hx.2.2, Or.inl hx.2.2⟩
  have hd := decode_frozen fwd (g s.clock StageId.DRF) _ h3.2.1
  have hbf : before_fetch fwd (g s.clock) s
      = execute fwd (g s.clock StageId.EX) (memory fwd (g s.clock StageId.MEM)
          (writeback fwd (g s.clock StageId.WB) s)) := by
    unfold before_fetch
    rw [hd]
  have hf := fetch_frozen _ h3.1.2.1 h3.2.1.2.1
  have ht : halted_front (APEX_cpu_tick fwd (g s.clock) s) := by
    have : APEX_cpu_tick fwd (g s.clock) s
        = { fetch (before_fetch fwd (g s.clock) s) with
            clock := (fetch (before_fetch fwd (g s.clock) s)).clock + 1 } := rfl
    rw [this, hbf, hf]
    exact h3
  refine ⟨h3.1, h3.2.1, hbf, by rw [hbf]; exact hf, ?_⟩
  intro k
  have hk := halted_front_run_ticks fwd g k _ ht
  have hn := halted_front_tick fwd
    (g (run_ticks fwd g k (APEX_cpu_tick fwd (g s.clock) s)).clock) _ hk
  exact ⟨hk.1, hk.2.1, hn.2.1.1, hn.2.1.2.1, hn.2.2⟩

/-- C18, at a concrete instance: a `HALT` in the `EX` latch of an otherwise zero
state; three ticks later Fetch and Decode still hold stalled bubbles. -/
theorem C18_halt_freezes_front_witness :
    lat_halt (memory true (zero_locals state_halt_ex.clock StageId.MEM)
        (writeback true (zero_locals state_halt_ex.clock StageId.WB) state_halt_ex)).stage_EX
      ∧ lat_nop true (run_ticks true zero_locals 3
          (APEX_cpu_tick true (zero_locals state_halt_ex.clock) state_halt_ex)).stage_F
      ∧ lat_nop true (run_ticks true zero_locals 3
          (APEX_cpu_tick true (zero_locals state_halt_ex.clock) state_halt_ex)).stage_DRF := by
  have hx : lat_halt (memory true (zero_locals state_halt_ex.clock StageId.MEM)
      (writeback true (zero_locals state_halt_ex.clock StageId.WB) state_halt_ex)).stage_EX := by
    simp [lat_halt, memory, writeback, state_halt_ex, zero_cpu, zero_stage, zero_locals,
      is_arith]
  have h := (C18_halt_freezes_front true zero_locals state_halt_ex hx).2.2.2.2 3
  exact ⟨hx, h.1, h.2.1⟩
/-! ## C19: the register effects of `writeback` -/

/-- C19: let the `WB` latch be neither busy nor stalled.  For `ADD`, `SUB` and
`MUL` with `rd` in `0..31`, `writeback` sets `regs[rd]` to `buffer`,
`regs_valid[rd]` to 1, the zero flag to 1 if `buffer` is 0 and to 0 otherwise,
and (with forwarding, as compiled) `regs_forwarding[rd]` to `buffer`.  For
`AND`, `OR`, `EX-OR`, `MOVC` and `LOAD` with `rd` in `0..31` it makes the same
three stores and leaves the zero flag unchanged.  For `STORE`, `NOP`, `JUMP`,
`BZ` and `BNZ` it changes no register `R0..R31`, none of their validity flags
and forwarding entries, and not the zero flag.  Whatever the opcode, when the
`rd` of an instruction that stores is in `0..31`, every register of `R0..R31`
other than `rd` keeps its value, and so do its validity flag and its
forwarding entry. -/
theorem C19_writeback_registers (fwd : Bool) (u : CPU_Stage) (s : APEX_CPU)
    (hb : s.stage_WB.busy = false) (hs : s.stage_WB.stalled = false) :
    ((s.stage_WB.opcode = Opcode.ADD ∨ s.stage_WB.opcode = Opcode.SUB
          ∨ s.stage_WB.opcode = Opcode.MUL) →
        0 ≤ s.stage_WB.rd → s.stage_WB.rd < 32 →
        (writeback fwd u s).regs s.stage_WB.rd = s.stage_WB.buffer
          ∧ (writeback fwd u s).regs_valid s.stage_WB.rd = 1
          ∧ (fwd = true → (writeback fwd u s).regs_forwarding s.stage_WB.rd = s.stage_WB.buffer)
          ∧ (fwd = false →
              (writeback fwd u s).regs_forwarding s.stage_WB.rd
                = s.regs_forwarding s.stage_WB.rd)
          ∧ (writeback fwd u s).zero_flag = (if s.stage_WB.buffer = 0 then 1 else 0))
      ∧ ((s.stage_WB.opcode = Opcode.AND ∨ s.stage_WB.opcode = Opcode.OR
          ∨ s.stage_WB.opcode = Opcode.EXOR ∨ s.stage_WB.opcode = Opcode.MOVC
          ∨ s.stage_WB.opcode = Opcode.LOAD) →
        0 ≤ s.stage_WB.rd → s.stage_WB.rd < 32 →
        (writeback fwd u s).regs s.stage_WB.rd = s.stage_WB.buffer
          ∧ (writeback fwd u s).regs_valid s.stage_WB.rd = 1
          ∧ (fwd = true → (writeback fwd u s).regs_forwarding s.stage_WB.rd = s.stage_WB.buffer)
          ∧ (fwd = false →
              (writeback fwd u s).regs_forwarding s.stage_WB.rd
                = s.regs_forwarding s.stage_WB.rd)
          ∧ (writeback fwd u s).zero_flag = s.zero_flag)
      ∧ ((s.stage_WB.opcode = Opcode.STORE ∨ s.stage_WB.opcode = Opcode.NOP
          ∨ s.stage_WB.opcode = Opcode.JUMP ∨ s.stage_WB.opcode = Opcode.BZ
          ∨ s.stage_WB.opcode = Opcode.BNZ) →
        (∀ r, 0 ≤ r → r < 32 →
            (writeback fwd u s).regs r = s.regs r
              ∧ (writeback fwd u s).regs_valid r = s.regs_valid r
              ∧ (writeback fwd u s).regs_forwarding r = s.regs_forwarding r)
          ∧ (writeback fwd u s).zero_flag = s.zero_flag)
      ∧ ((writes_register s.stage_WB.opcode = true →
            0 ≤ s.stage_WB.rd ∧ s.stage_WB.rd < 32) →
          ∀ r, 0 ≤ r → r < 32 → r ≠ s.stage_WB.rd →
            (writeback fwd u s).regs r = s.regs r
              ∧ (writeback fwd u s).regs_valid r = s.regs_valid r
              ∧ (writeback fwd u s).regs_forwarding r = s.regs_forwarding r) := by
  obtain ⟨o, ho⟩ : ∃ o, s.stage_WB.opcode = o := ⟨_, rfl⟩
  refine ⟨?_, ?_, ?_, ?_⟩
  · intro h _ _
    cases o <;> cases fwd <;>
      simp_all [writeback, is_arith, zero_of, write_apply]
  · intro h _ _
    cases o <;> cases fwd <;>
      simp_all [writeback, is_arith, zero_of, write_apply]
  · intro h
    cases o <;> cases fwd <;>
      simp_all [writeback, is_arith, zero_of, write_apply]
  · intro _ r _ _ hr
    cases o <;> cases fwd <;>
      simp [writeback, ho, hb, hs, is_arith, zero_of, write_apply, hr]

/-- C19, at a concrete instance: an `ADD R1` with result 0 in the `WB` latch
sets `regs[1] = 0`, `regs_valid[1] = 1`, the zero flag, and leaves `regs[2]`. -/
theorem C19_writeback_registers_witness :
    state_add_wb.stage_WB.busy = false ∧ state_add_wb.stage_WB.stalled = false
      ∧ (writeback true zero_stage state_add_wb).regs 1 = 0
      ∧ (writeback true zero_stage state_add_wb).regs_valid 1 = 1
      ∧ (writeback true zero_stage state_add_wb).regs_forwarding 1 = 0
      ∧ (writeback true zero_stage state_add_wb).zero_flag = 1
      ∧ (writeback true zero_stage state_add_wb).regs 2 = state_add_wb.regs 2 := by
  have h := C19_writeback_registers true zero_stage state_add_wb rfl rfl
  have h1 := h.1 (Or.inl rfl) (by decide) (by decide)
  exact ⟨rfl, rfl, h1.1, h1.2.1, h1.2.2.1 rfl, h1.2.2.2.2,
    (h.2.2.2 (fun _ => by decide) 2 (by decide) (by decide) (by decide)).1⟩
/-! ## C20: data memory -/

/-- The part of `memory` that writes data memory: on a latch that is neither
busy nor stalled and holds a `STORE` whose `mem_address` is a data-memory
address, the cell at `mem_address` is set to `rs1_value` and every other cell
of `0..3999` is unchanged; on any other latch every cell is unchanged.  The
address is the one `execute` computes: `execute` on a `STORE` hands the latch
to `MEM` with `mem_address = rs2_value + imm`. -/
theorem memory_store_cell (fwd : Bool) (u : CPU_Stage) (s : APEX_CPU) :
    (¬ (s.stage_MEM.busy = false ∧ s.stage_MEM.stalled = false
          ∧ s.stage_MEM.opcode = Opcode.STORE) →
        ∀ a, 0 ≤ a → a < 4000 → (memory fwd u s).data_memory a = s.data_memory a)
      ∧ (s.stage_MEM.busy = false ∧ s.stage_MEM.stalled = false
            ∧ s.stage_MEM.opcode = Opcode.STORE →
          0 ≤ s.stage_MEM.mem_address → s.stage_MEM.mem_address < 4000 →
          (memory fwd u s).data_memory s.stage_MEM.mem_address = s.stage_MEM.rs1_value
            ∧ ∀ a, 0 ≤ a → a < 4000 → a ≠ s.stage_MEM.mem_address →
                (memory fwd u s).data_memory a = s.data_memory a)
      ∧ (s.stage_EX.busy = false ∧ s.stage_EX.stalled = false
            ∧ s.stage_EX.opcode = Opcode.STORE →
          (execute fwd u s).stage_MEM.opcode = Opcode.STORE
            ∧ (execute fwd u s).stage_MEM.mem_address
                = s.stage_EX.rs2_value + s.stage_EX.imm) := by
  refine ⟨?_, ?_, ?_⟩
  · intro hn a _ _
    obtain ⟨o, ho⟩ : ∃ o, s.stage_MEM.opcode = o := ⟨_, rfl⟩
    cases o <;> simp only [memory, ho] <;> simp <;> (try split_ifs) <;> simp_all
  · rintro ⟨hb, hs, ho⟩ _ _
    simp [memory, hb, hs, ho, write_apply]
    intro a _ _ ha
    simp [ha]
  · rintro ⟨hb, hs, ho⟩
    by_cases hm : s.stage_MEM.opcode = Opcode.LOAD ∧ s.stage_MEM.rd = s.stage_EX.rs1 <;>
      cases fwd <;> simp [execute, hb, hs, ho, hm]

/-- Where a `NOP` bubble has no side effect: in `decode`, `memory` and
`writeback` whatever its flags, and in `execute` when it is not stalled. -/
theorem bubble_no_effect (fwd : Bool) (u : CPU_Stage) (s : APEX_CPU) :
    (s.stage_DRF.opcode = Opcode.NOP →
        (decode fwd u s).regs = s.regs ∧ (decode fwd u s).regs_valid = s.regs_valid
          ∧ (decode fwd u s).regs_forwarding = s.regs_forwarding
          ∧ (decode fwd u s).zero_flag = s.zero_flag
          ∧ (decode fwd u s).data_memory = s.data_memory ∧ (decode fwd u s).pc = s.pc
          ∧ (decode fwd u s).ins_completed = s.ins_completed)
      ∧ (s.stage_MEM.opcode = Opcode.NOP →
        (memory fwd u s).regs = s.regs ∧ (memory fwd u s).regs_valid = s.regs_valid
          ∧ (memory fwd u s).regs_forwarding = s.regs_forwarding
          ∧ (memory fwd u s).zero_flag = s.zero_flag
          ∧ (memory fwd u s).data_memory = s.data_memory ∧ (memory fwd u s).pc = s.pc
          ∧ (memory fwd u s).ins_completed = s.ins_completed)
      ∧ (s.stage_WB.opcode = Opcode.NOP →
        (writeback fwd u s).regs = s.regs ∧ (writeback fwd u s).regs_valid = s.regs_valid
          ∧ (writeback fwd u s).regs_forwarding = s.regs_forwarding
          ∧ (writeback fwd u s).zero_flag = s.zero_flag
          ∧ (writeback fwd u s).data_memory = s.data_memory ∧ (writeback fwd u s).pc = s.pc
          ∧ (writeback fwd u s).ins_completed = s.ins_completed)
      ∧ (s.stage_EX.opcode = Opcode.NOP → s.stage_EX.stalled = false →
        (execute fwd u s).regs = s.regs ∧ (execute fwd u s).regs_valid = s.regs_valid
          ∧ (execute fwd u s).regs_forwarding = s.regs_forwarding
          ∧ (execute fwd u s).zero_flag = s.zero_flag
          ∧ (execute fwd u s).data_memory = s.data_memory ∧ (execute fwd u s).pc = s.pc
          ∧ (execute fwd u s).ins_completed = s.ins_completed) := by
  refine ⟨?_, ?_, ?_, ?_⟩
  · intro ho
    simp only [decode, decode_read, decode_retry, decode_copy, ho, is_reg_reg]
    simp
    split_ifs <;> simp
  · intro ho
    simp only [memory, ho]
    simp
    split_ifs <;> simp
  · intro ho
    simp only [writeback, ho, is_arith]
    simp
  · intro ho hs
    simp only [execute, ho, hs]
    simp
    split_ifs <;> simp

set_option maxRecDepth 100000 in
/-- C22 (the code at the failing input): in tick 4 of the one-instruction
program `HALT`, `memory` processes the `HALT` and puts a stalled `NOP` bubble
built by `Create_NOP` into the `EX` latch; the `execute` call of the same tick
takes its branch for a stalled latch and stores the bubble's `buffer` into
`regs_forwarding[rd]` and `buffer == 0 ? 1 : 0` into the zero flag.  With
locals that hold zeros the zero flag goes from 0 to 1; with locals that hold
`rd = 5`, `buffer = 9` the entry `regs_forwarding[5]` goes from 0 to 9. -/
theorem C22_stalled_bubble_publishes :
    (before_execute true (zero_locals 3) (run_ticks true zero_locals 3 halt_only_state)).stage_EX
        = { Create_NOP (run_ticks true zero_locals 3 halt_only_state) (zero_locals 3 StageId.MEM)
            with stalled := true }
      ∧ (before_execute true (zero_locals 3)
          (run_ticks true zero_locals 3 halt_only_state)).zero_flag = 0
      ∧ (execute true (zero_locals 3 StageId.EX) (before_execute true (zero_locals 3)
          (run_ticks true zero_locals 3 halt_only_state))).zero_flag = 1
      ∧ (before_execute true (garbage_locals 3)
          (run_ticks true garbage_locals 3 halt_only_state)).stage_EX.opcode = Opcode.NOP
      ∧ (before_execute true (garbage_locals 3)
          (run_ticks true garbage_locals 3 halt_only_state)).stage_EX.stalled = true
      ∧ (before_execute true (garbage_locals 3)
          (run_ticks true garbage_locals 3 halt_only_state)).stage_EX.rd = 5
      ∧ (before_execute true (garbage_locals 3)
          (run_ticks true garbage_locals 3 halt_only_state)).regs_forwarding 5 = 0
      ∧ (execute true (garbage_locals 3 StageId.EX) (before_execute true (garbage_locals 3)
          (run_ticks true garbage_locals 3 halt_only_state))).regs_forwarding 5 = 9 := by
  have hz : ∀ g : Int → StageId → CPU_Stage, ∃ s, run_ticks true g 3 halt_only_state = s
      ∧ s.stage_MEM = { zero_stage with pc := 4000, opcode := Opcode.HALT }
      ∧ s.stage_WB.busy = true ∧ s.zero_flag = 0 ∧ s.regs_forwarding = (fun _ => 0)
      ∧ s.stage_EX.pc = 4000 := by
    intro g
    refine ⟨_, rfl, ?_⟩
    generalize hs : run_ticks true g 3 halt_only_state = s
    simp only [halt_only_state, initial_state, APEX_cpu_init, HALT, zero_stage, zero_cpu,
      empty_instruction] at hs
    iterate 3
      rw [run_ticks_succ] at hs
      simp [APEX_cpu_tick, writeback, memory, execute, decode, decode_copy, decode_read,
        decode_retry, fetch, code_of, get_code_index_eq, Create_NOP,
        is_arith, is_reg_reg, arith_ahead, valid_after_memset, zero_of, write_apply] at hs
    simp only [run_ticks] at hs
    subst hs
    simp [zero_stage]
  obtain ⟨s, hs, hM, hW, hzf, hrf, hpc⟩ := hz zero_locals
  obtain ⟨t, ht, tM, tW, tzf, trf, tpc⟩ := hz garbage_locals
  rw [hs, ht]
  have e1 : before_execute true (zero_locals 3) s
      = { s with stage_EX := { Create_NOP s (zero_locals 3 StageId.MEM) with stalled := true }
                 stage_WB := s.stage_MEM } := by
    simp [before_execute, writeback, memory, hW, hM, zero_stage]
  have e2 : before_execute true (garbage_locals 3) t
      = { t with stage_EX := { Create_NOP t (garbage_locals 3 StageId.MEM) with stalled := true }
                 stage_WB := t.stage_MEM } := by
    simp [before_execute, writeback, memory, tW, tM, zero_stage]
  rw [e1, e2]
  simp [execute, Create_NOP, zero_locals, garbage_locals, zero_stage, hzf, trf, zero_of,
    write_apply]
/-! ## C23: the drain margin -/

set_option maxRecDepth 100000 in
set_option maxHeartbeats 4000000 in
/-- One tick of a `MOVC`-only program before the exit test holds. -/
theorem movc_tick {code : Int → APEX_Instruction} {n : Nat} {r0 : Int → Int} {c0 : Int}
    (fwd : Bool) (g : StageId → CPU_Stage) (hc : movc_code code n) (k : Nat) (s : APEX_CPU)
    (h : movc_inv code r0 c0 k s) (hk : k < n + 4) :
    movc_inv code r0 c0 (k + 1) (APEX_cpu_tick fwd g s) := by
  obtain ⟨h1, h2, h3, h4, h5⟩ := h
  have opc : ∀ j : Nat, (code j).opcode = Opcode.MOVC ∨ (code j).opcode = Opcode.EMPTY := by
    intro j
    by_cases hj : j < n
    · exact Or.inl (hc.1 j hj)
    · exact Or.inr (hc.2 j (by omega))
  obtain ⟨p, hp⟩ : ∃ p, s.pc = p := ⟨_, rfl⟩
  rw [hp] at h2
  have hidx : get_code_index p = (k : Int) := by rw [h2]; exact get_code_index_cell k
  rcases k with _ | _ | _ | _ | k
  · simp only [movc_latches, Prod.mk.injEq] at h3
    obtain ⟨hF, hD, hX, hM, hW⟩ := h3
    simp [movc_inv, movc_latches, APEX_cpu_tick, writeback, memory, execute, decode, fetch,
      fetched, zero_stage, hF, hD, hX, hM, hW, h1, hp, hidx, h4, h5]
    omega
  · simp only [movc_latches, Prod.mk.injEq] at h3
    obtain ⟨hF, hD, hX, hM, hW⟩ := h3
    have o0 := opc 0
    push_cast at o0 hidx h2
    cases fwd <;> rcases o0 with o0 | o0 <;>
      simp [movc_inv, movc_latches, APEX_cpu_tick, writeback, memory, execute, decode,
        decode_read, decode_copy, fetch, is_reg_reg, is_arith, executed,
        fetched, zero_stage, hF, hD, hX, hM, hW, h1, hp, hidx, h4, h5, o0] <;>
      omega
  · simp only [movc_latches, Prod.mk.injEq] at h3
    obtain ⟨hF, hD, hX, hM, hW⟩ := h3
    have o0 := opc 0
    have o1 := opc 1
    push_cast at o0 o1 hidx h2
    cases fwd <;> rcases o0 with o0 | o0 <;> rcases o1 with o1 | o1 <;>
      simp [movc_inv, movc_latches, APEX_cpu_tick, writeback, memory, execute, decode,
        decode_read, decode_copy, fetch, is_reg_reg, is_arith, executed,
        fetched, zero_stage, hF, hD, hX, hM, hW, h1, hp, hidx, h4, h5, o0, o1] <;>
      omega
  · simp only [movc_latches, Prod.mk.injEq] at h3
    obtain ⟨hF, hD, hX, hM, hW⟩ := h3
    have o0 := opc 0
    have o1 := opc 1
    have o2 := opc 2
    push_cast at o0 o1 o2 hidx h2
    cases fwd <;> rcases o0 with o0 | o0 <;> rcases o1 with o1 | o1 <;> rcases o2 with o2 | o2 <;>
      simp [movc_inv, movc_latches, APEX_cpu_tick, writeback, memory, execute, decode,
        decode_read, decode_copy, fetch, is_reg_reg, is_arith, executed,
        fetched, zero_stage, hF, hD, hX, hM, hW, h1, hp, hidx, h4, h5, o0, o1, o2] <;>
      omega
  · simp only [movc_latches, Prod.mk.injEq] at h3
    obtain ⟨hF, hD, hX, hM, hW⟩ := h3
    have o0 := hc.1 k (by omega)
    have o1 := opc (k + 1)
    have o2 := opc (k + 2)
    have o3 := opc (k + 3)
    have e0 : k + 4 - 4 = k := by omega
    have e1 : k + 1 + 4 - 4 = k + 1 := by omega
    rw [e0] at h4 h5
    show movc_inv code r0 c0 (k + 1 + 4) _
    push_cast at o1 o2 o3 hidx h2
    cases fwd <;> rcases o1 with o1 | o1 <;> rcases o2 with o2 | o2 <;>
      rcases o3 with o3 | o3 <;>
      simp [movc_inv, movc_latches, APEX_cpu_tick, writeback, memory, execute, decode,
        decode_read, decode_copy, fetch, is_reg_reg, is_arith, executed,
        fetched, zero_stage, hF, hD, hX, hM, hW, h1, hp, hidx, h4, h5, o0, o1, o2, o3, e1, seq_regs, seq_step, alu_result, add_assoc] <;>
      omega

theorem movc_run_ticks {code : Int → APEX_Instruction} {n : Nat} {r0 : Int → Int} {c0 : Int}
    (fwd : Bool) (g : Int → StageId → CPU_Stage) (hc : movc_code code n) (s : APEX_CPU)
    (h0 : movc_inv code r0 c0 0 s) :
    ∀ k, k ≤ n + 4 → movc_inv code r0 c0 k (run_ticks fwd g k s) := by
  intro k
  induction k with
  | zero => intro _; exact h0
  | succ k ih =>
    intro hk
    rw [run_ticks_succ_last]
    exact movc_tick fwd _ hc k _ (ih (by omega)) (by omega)

theorem code_of_get (prog : List APEX_Instruction) (beyond : Int → APEX_Instruction)
    (j : Nat) (h : j < prog.length) : code_of prog beyond j = prog.get ⟨j, h⟩ := by
  have := code_of_lt prog beyond [] j h
  simpa using this

theorem code_of_beyond (prog : List APEX_Instruction) (beyond : Int → APEX_Instruction)
    (j : Nat) (h : prog.length ≤ j) : code_of prog beyond j = beyond j := by
  simp only [code_of]
  rw [if_neg (by omega)]

theorem movc_code_of_list {prog : List APEX_Instruction} (h : movc_list prog)
    (beyond : Int → APEX_Instruction) (hb : ∀ i, (beyond i).opcode = Opcode.EMPTY) :
    movc_code (code_of prog beyond) prog.length := by
  constructor
  · intro j hj
    rw [code_of_get _ _ _ hj]
    exact h.movc _ (List.get_mem _ _ _)
  · intro j hj
    rw [code_of_beyond _ _ _ hj]
    exact hb _

/-- C23: for a program of `n` `MOVC` instructions with destination registers in
`0..31` and no `HALT`, with the empty opcode in every cell beyond the program,
the driver run from the initial state with a cycle budget above `n + 4` (and
fuel `n + 4`) returns the state after exactly `n + 4` ticks: the exit test
fails at the head of each of the first `n + 4` iterations and then holds by
its `pc` disjunct, the cycle counter being below the budget.  The
completed-instruction counter has been incremented `n` times (it is `n` when
it started at 0; `APEX_cpu_init` does not assign it), the register file is the
one obtained by executing the `MOVC`s one at a time, every register that is
the destination of some `MOVC` holds the immediate of the last `MOVC` that
targets it, and every other register is unchanged.  This holds with and
without forwarding and for `n = 0` as well. -/
theorem C23_drain_margin (fwd : Bool) (g : Int → StageId → CPU_Stage)
    (prog : List APEX_Instruction) (h : movc_list prog) (m : APEX_CPU)
    (beyond : Int → APEX_Instruction) (hb : ∀ i, (beyond i).opcode = Opcode.EMPTY)
    (N : Int) (hN : (prog.length : Int) + 4 < N) (fuel : Nat) (hfuel : prog.length + 4 ≤ fuel) :
    ∃ cpu, APEX_cpu_run fwd g fuel (initial_state m prog beyond N) = some (0, cpu)
      ∧ cpu = run_ticks fwd g (prog.length + 4) (initial_state m prog beyond N)
      ∧ (∀ k, k < prog.length + 4 →
          run_done 4000 (run_ticks fwd g k (initial_state m prog beyond N)) = false)
      ∧ cpu.clock = (prog.length : Int) + 4
      ∧ pc_test 4000 cpu
      ∧ cpu.clock ≠ cpu.function_cycles
      ∧ cpu.ins_completed = m.ins_completed + prog.length
      ∧ (m.ins_completed = 0 → cpu.ins_completed = prog.length)
      ∧ cpu.regs = seq_exec prog (initial_state m prog beyond N).regs
      ∧ (∀ j : Fin prog.length,
          (∀ j' : Fin prog.length, j < j' → (prog.get j').rd ≠ (prog.get j).rd) →
          cpu.regs (prog.get j).rd = (prog.get j).imm)
      ∧ (∀ r, (∀ ins ∈ prog, ins.rd ≠ r) →
          cpu.regs r = (initial_state m prog beyond N).regs r) := by
  have hc := movc_code_of_list h beyond hb
  have h0 : movc_inv (code_of prog beyond) (initial_state m prog beyond N).regs m.ins_completed 0
      (initial_state m prog beyond N) := by
    refine ⟨rfl, by simp [initial_state, APEX_cpu_init], rfl, rfl, ?_⟩
    simp [initial_state, APEX_cpu_init]
  have hinv := movc_run_ticks fwd g hc _ h0
  have hstat := fun k => run_ticks_static fwd g k (initial_state m prog beyond N)
  have hsize : ∀ k, (run_ticks fwd g k (initial_state m prog beyond N)).code_memory_size
      = (prog.length : Int) := by
    intro k; rw [(hstat k).2.2.2]; rfl
  have hclock : ∀ k, (run_ticks fwd g k (initial_state m prog beyond N)).clock = (k : Int) := by
    intro k; rw [(hstat k).1]; simp [initial_state]
  have hcyc : ∀ k, (run_ticks fwd g k (initial_state m prog beyond N)).function_cycles = N := by
    intro k; rw [(hstat k).2.1]; rfl
  have hbefore : ∀ k, k < prog.length + 4 →
      run_done 4000 (run_ticks fwd g k (initial_state m prog beyond N)) = false := by
    intro k hk
    have hpc := (hinv k (by omega)).2.1
    simp only [run_done, hsize, hclock, hcyc, hpc, Bool.or_eq_false_iff,
      decide_eq_false_iff_not]
    constructor
    · omega
    · omega
  obtain ⟨-, hpc, -, hregs, hcnt⟩ := hinv (prog.length + 4) (le_refl _)
  have hdone : run_done 4000
      (run_ticks fwd g (prog.length + 4) (initial_state m prog beyond N)) = true := by
    simp only [run_done, hsize, hclock, hcyc, hpc, Bool.or_eq_true, decide_eq_true_eq]
    left
    push_cast
    omega
  have e4 : prog.length + 4 - 4 = prog.length := by omega
  rw [e4] at hregs hcnt
  have hseq : seq_regs (code_of prog beyond) (initial_state m prog beyond N).regs prog.length
      = seq_exec prog (initial_state m prog beyond N).regs := by
    have := seq_regs_list prog [] beyond (initial_state m prog beyond N).regs prog.length
      (le_refl _)
    rw [List.append_nil, List.take_length] at this
    exact this
  refine ⟨_, ?_, rfl, hbefore, ?_, ?_, ?_, hcnt, ?_, ?_, ?_, ?_⟩
  · show run_loop fwd g 4000 fuel _ = _
    exact run_loop_reach fwd g 4000 _ _ fuel hfuel hbefore hdone
  · rw [hclock]; push_cast; rfl
  · simp only [pc_test, hsize, hpc]
    push_cast
    omega
  · rw [hclock, hcyc]; push_cast; omega
  · intro hm; rw [hcnt, hm]; simp
  · rw [hregs, hseq]
  · intro j hlast
    rw [hregs]
    have hj := j.2
    rw [seq_regs_last (code_of prog beyond) _ (prog.get j).rd j
      (by rw [code_of_get _ _ _ hj]) prog.length hj]
    · simp only [seq_val]
      rw [code_of_get _ _ _ hj]
      have ho := h.movc _ (List.get_mem prog j.1 hj)
      simp only [List.get_eq_getElem] at ho
      simp [alu_result, ho]
    · intro k hk1 hk2
      rw [code_of_get _ _ _ hk2]
      exact hlast ⟨k, hk2⟩ hk1
  · intro r hr
    rw [hregs, seq_regs_frame (code_of prog beyond) _ r 0 prog.length (Nat.zero_le _)]
    · rfl
    · intro k _ hk2
      rw [code_of_get _ _ _ hk2]
      exact hr _ (List.get_mem _ _ _)

/-- C23, at a concrete instance: `MOVC R1,#5; MOVC R2,#10; MOVC R1,#7` with
budget 8 returns after 7 ticks with 3 instructions counted, `R1 = 7` and
`R2 = 10`. -/
theorem C23_drain_margin_witness :
    movc_list prog_movc
      ∧ ∃ cpu, APEX_cpu_run true zero_locals 7
          (initial_state zero_cpu prog_movc (fun _ => empty_instruction) 8) = some (0, cpu)
        ∧ cpu.clock = 7 ∧ cpu.ins_completed = 3 ∧ cpu.regs 1 = 7 ∧ cpu.regs 2 = 10 := by
  have hc : movc_list prog_movc := by
    constructor <;> simp [prog_movc, MOVC]
  obtain ⟨cpu, h1, -, -, h2, -, -, -, h3, h4, -, -⟩ :=
    C23_drain_margin true zero_locals prog_movc hc zero_cpu (fun _ => empty_instruction)
      (fun _ => rfl) 8 (by simp [prog_movc]) 7 (by simp [prog_movc])
  refine ⟨hc, cpu, h1, ?_, ?_, ?_, ?_⟩
  · rw [h2]; simp [prog_movc]
  · rw [h3 rfl]; simp [prog_movc]
  · rw [h4]; simp [seq_exec, seq_step, prog_movc, MOVC, alu_result, write]
  · rw [h4]; simp [seq_exec, seq_step, prog_movc, MOVC, alu_result, write]
/-! ## C24: which forwarding table `decode` reads -/

/-- What `decode` hands to `EX`, with forwarding, for a register-to-register
instruction that leaves Decode, from the live branch or from the branch for a
stalled latch. -/
theorem decode_leaves (u : CPU_Stage) (s : APEX_CPU) (h : leaves_decode s) :
    (decode true u s).stage_EX
        = { s.stage_DRF with
            stalled := false
            rs1_value := if s.regs_valid s.stage_DRF.rs1 ≠ 0 then s.regs s.stage_DRF.rs1
                         else s.regs_forwarding s.stage_DRF.rs1
            rs2_value := if s.regs_valid s.stage_DRF.rs2 ≠ 0 then s.regs s.stage_DRF.rs2
                         else s.regs_forwarding s.stage_DRF.rs2 } := by
  obtain ⟨hop, hx, hst | ⟨hb, hs, hv⟩⟩ := h
  · by_cases h1 : s.regs_valid s.stage_DRF.rs1 = 0 <;>
      by_cases h2 : s.regs_valid s.stage_DRF.rs2 = 0 <;>
      simp [decode, decode_retry, hst, hop, hx, h1, h2]
  · rcases hv with ⟨v1, v2⟩ | hl
    · simp [decode, decode_read, decode_copy, hb, hs, hop, hx, v1, v2]
    · by_cases h1 : s.regs_valid s.stage_DRF.rs1 = 0 <;>
        by_cases h2 : s.regs_valid s.stage_DRF.rs2 = 0 <;>
        simp [decode, decode_read, decode_copy, hb, hs, hop, hx, hl, h1, h2]

set_option maxRecDepth 100000 in
/-- C24 (the claim as written fails): in the run of `MOVC R1,#5; MOVC R2,#10;
ADD R3,R1,R2; HALT` the entry `regs_forwarding[2]` is 0 at the end of tick 3
and `R2` is reserved; in tick 4 `execute` processes the second `MOVC` and
writes 10 into that entry, and the `decode` call of the same tick reads 10 as
second operand of the `ADD`. -/
theorem C24_reads_value_of_same_tick :
    (run_ticks true zero_locals 3
        (initial_state zero_cpu prog_example (fun _ => empty_instruction) 100)).regs_forwarding 2
        = 0
      ∧ (run_ticks true zero_locals 3
        (initial_state zero_cpu prog_example (fun _ => empty_instruction) 100)).regs_valid 2 = 0
      ∧ (run_ticks true zero_locals 3
        (initial_state zero_cpu prog_example (fun _ => empty_instruction) 100)).stage_DRF.opcode
        = Opcode.ADD
      ∧ (run_ticks true zero_locals 3
        (initial_state zero_cpu prog_example (fun _ => empty_instruction) 100)).stage_DRF.rs2 = 2
      ∧ (before_execute true (zero_locals 3) (run_ticks true zero_locals 3
        (initial_state zero_cpu prog_example (fun _ => empty_instruction) 100))).regs_forwarding 2
        = 0
      ∧ (execute true (zero_locals 3 StageId.EX) (before_execute true (zero_locals 3)
          (run_ticks true zero_locals 3
            (initial_state zero_cpu prog_example (fun _ => empty_instruction) 100)))).regs_forwarding
          2 = 10
      ∧ (run_ticks true zero_locals 4
        (initial_state zero_cpu prog_example (fun _ => empty_instruction) 100)).stage_EX.opcode
        = Opcode.ADD
      ∧ (run_ticks true zero_locals 4
        (initial_state zero_cpu prog_example (fun _ => empty_instruction) 100)).stage_EX.rs2_value
        = 10 := by
  have e4 : run_ticks true zero_locals 4
      (initial_state zero_cpu prog_example (fun _ => empty_instruction) 100)
      = run_ticks true zero_locals 1 (run_ticks true zero_locals 3
        (initial_state zero_cpu prog_example (fun _ => empty_instruction) 100)) := rfl
  rw [e4]
  generalize hs : run_ticks true zero_locals 3
    (initial_state zero_cpu prog_example (fun _ => empty_instruction) 100) = s
  simp only [initial_state, APEX_cpu_init, prog_example, MOVC, ADD, HALT, zero_stage,
    zero_cpu, empty_instruction] at hs
  iterate 3
    rw [run_ticks_succ] at hs
    simp [APEX_cpu_tick, writeback, memory, execute, decode, decode_copy, decode_read,
      decode_retry, fetch, code_of, get_code_index_eq, Create_NOP, zero_locals, zero_stage,
      is_arith, is_reg_reg, arith_ahead, valid_after_memset, zero_of, write_apply] at hs
  simp only [run_ticks] at hs
  subst hs
  simp [run_ticks, before_execute, APEX_cpu_tick, writeback, memory, execute, decode,
    decode_copy, decode_read, decode_retry, fetch, code_of, get_code_index_eq, Create_NOP,
    zero_locals, zero_stage, is_arith, is_reg_reg, arith_ahead, valid_after_memset, zero_of,
    write_apply]

/-- C24 (amended): with forwarding, the stage calls of a tick run in the order
`writeback`, `memory`, `execute`, `decode`, `fetch`, and `decode` reads the
register arrays as the first three calls of the same tick have left them.
Let `x` be the state after the `execute` call of the tick (`before_decode`),
and let an `ADD`, `SUB`, `MUL`, `AND`, `OR` or `EX-OR` leave Decode in this
tick (`leaves_decode`), from a live latch or released from a stalled one.
Then the tick hands the instruction to `EX` with its register numbers and,
for a source `rs`, with the operand `x.regs[rs]` when `x.regs_valid[rs]` is
non-zero and `x.regs_forwarding[rs]` otherwise.  When the `execute` call of
that tick has processed a `MOVC`, `ADD`, `SUB`, `AND`, `OR` or `EX-OR` with
destination `r` in `0..31`, the entry `x.regs_forwarding[r]` is the `buffer`
computed in that call, which the same call has handed to `MEM`; it is the
result of the operation when that lies within the range of an `int`. -/
theorem C24_decode_reads_same_tick (g : StageId → CPU_Stage) (s : APEX_CPU)
    (h : leaves_decode (before_decode true g s)) :
    (APEX_cpu_tick true g s).stage_EX.opcode = (before_decode true g s).stage_DRF.opcode
      ∧ (APEX_cpu_tick true g s).stage_EX.rd = (before_decode true g s).stage_DRF.rd
      ∧ (APEX_cpu_tick true g s).stage_EX.rs1 = (before_decode true g s).stage_DRF.rs1
      ∧ (APEX_cpu_tick true g s).stage_EX.rs2 = (before_decode true g s).stage_DRF.rs2
      ∧ (APEX_cpu_tick true g s).stage_EX.stalled = false
      ∧ (APEX_cpu_tick true g s).stage_EX.rs1_value
        = (if (before_decode true g s).regs_valid (before_decode true g s).stage_DRF.rs1 ≠ 0
           then (before_decode true g s).regs (before_decode true g s).stage_DRF.rs1
           else (before_decode true g s).regs_forwarding
              (before_decode true g s).stage_DRF.rs1)
      ∧ (APEX_cpu_tick true g s).stage_EX.rs2_value
        = (if (before_decode true g s).regs_valid (before_decode true g s).stage_DRF.rs2 ≠ 0
           then (before_decode true g s).regs (before_decode true g s).stage_DRF.rs2
           else (before_decode true g s).regs_forwarding
              (before_decode true g s).stage_DRF.rs2)
      ∧ ((before_execute true g s).stage_EX.busy = false →
          (before_execute true g s).stage_EX.stalled = false →
          is_alu (before_execute true g s).stage_EX.opcode = true →
          0 ≤ (before_execute true g s).stage_EX.rd →
          (before_execute true g s).stage_EX.rd < 32 →
          (before_decode true g s).regs_forwarding (before_execute true g s).stage_EX.rd
              = (before_decode true g s).stage_MEM.buffer
            ∧ (before_decode true g s).stage_MEM
              = { (before_execute true g s).stage_EX with
                  buffer := (before_decode true g s).stage_MEM.buffer }
            ∧ (int_min ≤ alu_result (before_execute true g s).stage_EX.opcode
                  (before_execute true g s).stage_EX.imm
                  (before_execute true g s).stage_EX.rs1_value
                  (before_execute true g s).stage_EX.rs2_value
                ∧ alu_result (before_execute true g s).stage_EX.opcode
                  (before_execute true g s).stage_EX.imm
                  (before_execute true g s).stage_EX.rs1_value
                  (before_execute true g s).stage_EX.rs2_value ≤ int_max →
              (before_decode true g s).regs_forwarding (before_execute true g s).stage_EX.rd
                = alu_result (before_execute true g s).stage_EX.opcode
                    (before_execute true g s).stage_EX.imm
                    (before_execute true g s).stage_EX.rs1_value
                    (before_execute true g s).stage_EX.rs2_value)) := by
  have ht : (APEX_cpu_tick true g s).stage_EX
      = (decode true (g StageId.DRF) (before_decode true g s)).stage_EX := by
    show (fetch _).stage_EX = _
    rw [(fetch_frame _).1]
    rfl
  rw [ht, decode_leaves _ _ h]
  refine ⟨rfl, rfl, rfl, rfl, rfl, rfl, rfl, ?_⟩
  intro eb es ea _ _
  have hx : before_decode true g s
      = execute true (g StageId.EX) (before_execute true g s) := rfl
  rw [hx, execute_alu true _ _ eb es ea]
  simp [write]

set_option maxRecDepth 100000 in
/-- C24 (amended), at a concrete instance: tick 4 of `LOAD R1,R2,#0;
ADD R3,R1,R4; HALT` with `R2 = 20`, `R4 = 3` and `data_memory[20] = 1020`.
The `ADD` is stalled in Decode at the end of tick 3 and the entry
`regs_forwarding[1]` holds 0; in tick 4 `memory` publishes the loaded value
and `decode` releases the `ADD` with that value as first operand. -/
theorem C24_decode_reads_same_tick_witness :
    leaves_decode (before_decode true (zero_locals 3) (run_ticks true zero_locals 3 load_use_start))
      ∧ (run_ticks true zero_locals 3 load_use_start).stage_DRF.stalled = true
      ∧ (run_ticks true zero_locals 3 load_use_start).regs_forwarding 1 = 0
      ∧ (APEX_cpu_tick true (zero_locals 3)
          (run_ticks true zero_locals 3 load_use_start)).stage_EX.opcode = Opcode.ADD
      ∧ (APEX_cpu_tick true (zero_locals 3)
          (run_ticks true zero_locals 3 load_use_start)).stage_EX.rs1_value = 1020
      ∧ (APEX_cpu_tick true (zero_locals 3)
          (run_ticks true zero_locals 3 load_use_start)).stage_EX.rs2_value = 3 := by
  have hs : ∃ s, run_ticks true zero_locals 3 load_use_start = s
      ∧ s.stage_DRF.stalled = true ∧ s.regs_forwarding 1 = 0
      ∧ leaves_decode (before_decode true (zero_locals 3) s)
      ∧ (before_decode true (zero_locals 3) s).stage_DRF.opcode = Opcode.ADD
      ∧ (before_decode true (zero_locals 3) s).stage_DRF.rs1 = 1
      ∧ (before_decode true (zero_locals 3) s).stage_DRF.rs2 = 4
      ∧ (before_decode true (zero_locals 3) s).regs_valid 1 = 0
      ∧ (before_decode true (zero_locals 3) s).regs_valid 4 = 1
      ∧ (before_decode true (zero_locals 3) s).regs_forwarding 1 = 1020
      ∧ (before_decode true (zero_locals 3) s).regs 4 = 3 := by
    refine ⟨_, rfl, ?_⟩
    generalize hs : run_ticks true zero_locals 3 load_use_start = s
    simp only [load_use_start, load_use_state, initial_state, APEX_cpu_init, prog_load_use,
      LOAD, ADD, HALT, zero_stage, zero_cpu, empty_instruction] at hs
    iterate 3
      rw [run_ticks_succ] at hs
      simp [APEX_cpu_tick, writeback, memory, execute, decode, decode_copy, decode_read,
        decode_retry, fetch, code_of, get_code_index_eq, Create_NOP, zero_locals, zero_stage,
        is_arith, is_reg_reg, arith_ahead, valid_after_memset, zero_of, write_apply] at hs
    simp only [run_ticks] at hs
    subst hs
    simp [leaves_decode, before_decode, before_execute, writeback, memory, execute,
      Create_NOP, zero_locals, zero_stage, is_arith, is_reg_reg, zero_of, write_apply]
  obtain ⟨s, e, h1, h2, h3, h4, h5, h6, h7, h8, h9, h10⟩ := hs
  rw [e]
  have h := C24_decode_reads_same_tick (zero_locals 3) s h3
  refine ⟨h3, h1, h2, ?_, ?_, ?_⟩
  · rw [h.1, h4]
  · rw [h.2.2.2.2.2.1, h5, h7, h9]; simp
  · rw [h.2.2.2.2.2.2.1, h6, h8, h10]; simp
/-! ## C25: the pipeline and the execution one instruction at a time -/

/-- The sequential execution reads the start registers only at the source
registers of the program. -/
theorem seq_exec_agree (prog : List APEX_Instruction) :
    ∀ (r0 r1 : Int → Int),
      (∀ ins ∈ prog, 0 ≤ ins.rs1 ∧ ins.rs1 < 32) → (∀ ins ∈ prog, 0 ≤ ins.rs2 ∧ ins.rs2 < 32) →
      (∀ x, 0 ≤ x → x < 32 → r0 x = r1 x) →
      ∀ x, 0 ≤ x → x < 32 → seq_exec prog r0 x = seq_exec prog r1 x := by
  induction prog with
  | nil => intro r0 r1 _ _ h x hx0 hx; exact h x hx0 hx
  | cons ins rest ih =>
    intro r0 r1 h1 h2 h x hx0 hx
    have e : ∀ r : Int → Int, seq_exec (ins :: rest) r = seq_exec rest (seq_step r ins) :=
      fun _ => rfl
    rw [e, e]
    apply ih _ _ (fun i hi => h1 i (List.mem_cons_of_mem _ hi))
      (fun i hi => h2 i (List.mem_cons_of_mem _ hi)) _ x hx0 hx
    intro y hy0 hy
    have a1 := h1 ins (List.mem_cons_self _ _)
    have a2 := h2 ins (List.mem_cons_self _ _)
    simp only [seq_step, write]
    rw [h ins.rs1 a1.1 a1.2, h ins.rs2 a2.1 a2.2, h y hy0 hy]

/-- C25: for a program of `MOVC`, `ADD`, `SUB`, `AND`, `OR` and `EX-OR`
instructions with register numbers in `0..31` and pairwise distinct
destination registers, closed by a `HALT`, the driver run from the initial
state with forwarding, a cycle budget of at least `4 * length + 5` and enough
fuel returns, and every register `0..31` of the returned state holds the value
obtained by executing the instructions one at a time, in program order, on an
all-zero register file. -/
theorem C25_sequential_refinement (g : Int → StageId → CPU_Stage)
    (prog : List APEX_Instruction) (h : straight_line_list prog) (m : APEX_CPU)
    (beyond : Int → APEX_Instruction) (N : Int) (hN : 4 * (prog.length : Int) + 5 ≤ N)
    (fuel : Nat) (hfuel : 4 * prog.length + 5 ≤ fuel) :
    ∃ cpu,
      APEX_cpu_run true g fuel (initial_state m (prog ++ [HALT]) beyond N) = some (0, cpu)
        ∧ ∀ r, 0 ≤ r → r < 32 → cpu.regs r = seq_exec prog (fun _ => 0) r := by
  obtain ⟨cpu, hrun, hregs⟩ := straight_result true g h m beyond N hN fuel hfuel
  refine ⟨cpu, hrun, ?_⟩
  intro r hr0 hr
  rw [hregs]
  apply seq_exec_agree prog _ _ h.rs1_range h.rs2_range _ r hr0 hr
  intro x hx0 hx
  simp [initial_state, APEX_cpu_init, hx0, hx]

/-- C25, at a concrete instance: `MOVC R1,#5; MOVC R2,#10; ADD R3,R1,R2; HALT`
returns with `R3` holding the sequential result 15. -/
theorem C25_sequential_refinement_witness :
    straight_line_list prog_straight
      ∧ ∃ cpu,
        APEX_cpu_run true zero_locals 17
            (initial_state zero_cpu (prog_straight ++ [HALT]) (fun _ => empty_instruction) 17)
            = some (0, cpu)
          ∧ cpu.regs 3 = seq_exec prog_straight (fun _ => 0) 3
          ∧ seq_exec prog_straight (fun _ => 0) 3 = 15 := by
  have hc : straight_line_list prog_straight := by
    refine ⟨?_, ?_, ?_, ?_, ?_⟩ <;> simp [prog_straight, MOVC, ADD, is_alu]
  obtain ⟨cpu, h1, h2⟩ := C25_sequential_refinement zero_locals prog_straight hc zero_cpu
    (fun _ => empty_instruction) 17 (by simp [prog_straight]) 17 (by simp [prog_straight])
  exact ⟨hc, cpu, h1, h2 3 (by decide) (by decide),
    by simp [seq_exec, seq_step, prog_straight, MOVC, ADD, alu_result, write]⟩
/-! ## C26: the indices at which `fetch` reads code memory -/

theorem plain_writeback (fwd : Bool) (u : CPU_Stage) (s : APEX_CPU)
    (h : is_plain s.stage_WB.opcode = true) :
    (writeback fwd u s).pc = s.pc ∧ (writeback fwd u s).stage_MEM = s.stage_MEM := by
  obtain ⟨o, ho⟩ : ∃ o, s.stage_WB.opcode = o := ⟨_, rfl⟩
  cases o <;> simp only [writeback, ho, is_arith] <;> simp <;> (try split_ifs) <;>
    simp_all [is_plain]

theorem plain_memory (fwd : Bool) (u : CPU_Stage) (s : APEX_CPU)
    (h : is_plain s.stage_MEM.opcode = true) :
    (memory fwd u s).pc = s.pc ∧ (memory fwd u s).stage_F = s.stage_F
      ∧ (memory fwd u s).stage_DRF = s.stage_DRF ∧ (memory fwd u s).stage_EX = s.stage_EX
      ∧ is_plain (memory fwd u s).stage_MEM.opcode = true
      ∧ (is_plain s.stage_WB.opcode = true →
          is_plain (memory fwd u s).stage_WB.opcode = true) := by
  obtain ⟨o, ho⟩ : ∃ o, s.stage_MEM.opcode = o := ⟨_, rfl⟩
  cases o <;> simp only [memory, ho] <;> simp <;> (try split_ifs) <;>
    simp_all [is_plain]

theorem plain_execute (fwd : Bool) (u : CPU_Stage) (s : APEX_CPU)
    (h : is_plain s.stage_EX.opcode = true) :
    (execute fwd u s).pc = s.pc ∧ (execute fwd u s).stage_F = s.stage_F
      ∧ (execute fwd u s).stage_DRF = s.stage_DRF ∧ (execute fwd u s).stage_WB = s.stage_WB
      ∧ is_plain (execute fwd u s).stage_EX.opcode = true
      ∧ (is_plain s.stage_MEM.opcode = true →
          is_plain (execute fwd u s).stage_MEM.opcode = true) := by
  obtain ⟨o, ho⟩ : ∃ o, s.stage_EX.opcode = o := ⟨_, rfl⟩
  cases o <;> simp only [execute, ho] <;> simp <;> (try split_ifs) <;>
    simp_all [is_plain, Create_NOP]

theorem plain_decode (fwd : Bool) (u : CPU_Stage) (s : APEX_CPU)
    (h : is_plain s.stage_DRF.opcode = true) :
    (decode fwd u s).stage_DRF.opcode = s.stage_DRF.opcode
      ∧ (is_plain s.stage_EX.opcode = true →
          is_plain (decode fwd u s).stage_EX.opcode = true) := by
  unfold decode
  split_ifs with h1 h2 h3
  · obtain ⟨f1, f2, f3, f4, f5, f6, f7⟩ := decode_read_frame fwd s
    generalize decode_read fwd s = t at *
    unfold decode_copy
    split_ifs <;> simp_all [Create_NOP, is_plain]
  · obtain ⟨o, ho⟩ : ∃ o, s.stage_DRF.opcode = o := ⟨_, rfl⟩
    cases o <;> simp only [decode_retry, ho, is_reg_reg] <;> simp <;> (try split_ifs) <;>
      simp_all [Create_NOP, is_plain]
  · simp
  · simp

/-- The live branch of `decode` on the `HALT` when `EX` is stalled: the `HALT`
is held in Decode. -/
theorem decode_halt_hold (fwd : Bool) (u : CPU_Stage) (s : APEX_CPU)
    (hb : s.stage_DRF.busy = false) (hst : s.stage_DRF.stalled = false)
    (hop : s.stage_DRF.opcode = Opcode.HALT) (hxs : s.stage_EX.stalled = true) :
    decode fwd u s = { s with stage_DRF := { s.stage_DRF with stalled := true } } := by
  simp [decode, decode_read, decode_copy, hb, hst, hop, is_reg_reg, hxs]

/-- The stalled branch of `decode` on the `HALT` when `EX` is no longer
stalled: the `HALT` moves to `EX`. -/
theorem decode_halt_retry (fwd : Bool) (u : CPU_Stage) (s : APEX_CPU)
    (hst : s.stage_DRF.stalled = true)
    (hop : s.stage_DRF.opcode = Opcode.HALT) (hxs : s.stage_EX.stalled = false) :
    decode fwd u s
      = { s with stage_DRF := { s.stage_DRF with stalled := false }
                 stage_EX := { s.stage_DRF with stalled := false } } := by
  simp [decode, decode_retry, hst, hop, is_reg_reg, hxs]

/-- The calls `writeback`, `memory`, `execute` of a tick when the `EX`, `MEM`
and `WB` latches hold neither a `HALT`, a branch nor a `JUMP`. -/
theorem plain_back (fwd : Bool) (g : StageId → CPU_Stage) (s : APEX_CPU)
    (hX : is_plain s.stage_EX.opcode = true) (hM : is_plain s.stage_MEM.opcode = true)
    (hW : is_plain s.stage_WB.opcode = true) :
    (before_execute fwd g s).pc = s.pc ∧ (before_execute fwd g s).stage_F = s.stage_F
      ∧ (before_execute fwd g s).stage_DRF = s.stage_DRF
      ∧ (before_execute fwd g s).stage_EX = s.stage_EX
      ∧ (execute fwd (g StageId.EX) (before_execute fwd g s)).pc = s.pc
      ∧ (execute fwd (g StageId.EX) (before_execute fwd g s)).stage_F = s.stage_F
      ∧ (execute fwd (g StageId.EX) (before_execute fwd g s)).stage_DRF = s.stage_DRF
      ∧ is_plain (execute fwd (g StageId.EX) (before_execute fwd g s)).stage_EX.opcode = true
      ∧ is_plain (execute fwd (g StageId.EX) (before_execute fwd g s)).stage_MEM.opcode = true
      ∧ is_plain (execute fwd (g StageId.EX) (before_execute fwd g s)).stage_WB.opcode = true
      ∧ is_plain (before_execute fwd g s).stage_MEM.opcode = true
      ∧ is_plain (before_execute fwd g s).stage_WB.opcode = true := by
  obtain ⟨w1, w2⟩ := plain_writeback fwd (g StageId.WB) s hW
  obtain ⟨w3, w4, w5, w6, -, -⟩ := writeback_frame fwd (g StageId.WB) s
  unfold before_execute
  generalize writeback fwd (g StageId.WB) s = s1 at *
  obtain ⟨m1, m2, m3, m4, m5, m6⟩ := plain_memory fwd (g StageId.MEM) s1 (by rw [w2]; exact hM)
  have m7 := m6 (by rw [w6]; exact hW)
  generalize memory fwd (g StageId.MEM) s1 = s2 at *
  obtain ⟨x1, x2, x3, x4, x5, x6⟩ := plain_execute fwd (g StageId.EX) s2
    (by rw [m4, w5]; exact hX)
  refine ⟨by rw [m1, w1], by rw [m2, w3], by rw [m3, w4], by rw [m4, w5],
    by rw [x1, m1, w1], by rw [x2, m2, w3], by rw [x3, m3, w4], x5, x6 m5, ?_, m5, m7⟩
  rw [x4]; exact m7

theorem fetch_read_some (s : APEX_CPU) (idx : Int) (h : fetch_read s = some idx) :
    s.stage_F.busy = false ∧ s.stage_F.stalled = false ∧ idx = get_code_index s.pc := by
  unfold fetch_read at h
  split_ifs at h with hc
  simp only [Bool.and_eq_true, Bool.not_eq_true'] at hc
  exact ⟨hc.1, hc.2, by simpa using h.symm⟩

theorem fetch_read_stalled (s : APEX_CPU) (h : s.stage_F.stalled = true) :
    fetch_read s = none := by
  simp [fetch_read, h]

theorem tick_eq_fetch (fwd : Bool) (g : StageId → CPU_Stage) (s : APEX_CPU) :
    APEX_cpu_tick fwd g s
      = { fetch (before_fetch fwd g s) with clock := (fetch (before_fetch fwd g s)).clock + 1 } :=
  rfl

theorem before_fetch_eq (fwd : Bool) (g : StageId → CPU_Stage) (s : APEX_CPU) :
    before_fetch fwd g s
      = decode fwd (g StageId.DRF) (execute fwd (g StageId.EX) (before_execute fwd g s)) :=
  rfl

theorem fetch_inv_clock (h : Nat) (s : APEX_CPU) (c : Int) (hi : fetch_inv h s) :
    fetch_inv h { s with clock := c } := hi

/-- A tick while the `HALT` is not fetched yet. -/
theorem tick_front_open {code : Int → APEX_Instruction} {h : Nat} (fwd : Bool)
    (g : StageId → CPU_Stage) (hh : halt_at code h) (s : APEX_CPU)
    (hcm : s.code_memory = code) (hi : front_open h s) :
    fetch_inv h (APEX_cpu_tick fwd g s)
      ∧ ∀ idx, fetch_read (before_fetch fwd g s) = some idx → 0 ≤ idx ∧ idx ≤ (h : Int) + 1 := by
  obtain ⟨⟨i, hih, hpc⟩, hFb, hFp, hDp, hXp, hMp, hWp⟩ := hi
  obtain ⟨-, -, -, -, x1, x2, x3, x4, x5, x6, -, -⟩ := plain_back fwd g s hXp hMp hWp
  have xs := (execute_static fwd (g StageId.EX) (before_execute fwd g s)).2.2.1
  have hcm3 : (execute fwd (g StageId.EX) (before_execute fwd g s)).code_memory = code := by
    rw [xs]
    unfold before_execute
    rw [(memory_static fwd _ _).2.2.1, (writeback_static fwd _ _).2.2.1, hcm]
  rw [tick_eq_fetch, before_fetch_eq]
  generalize execute fwd (g StageId.EX) (before_execute fwd g s) = x at *
  obtain ⟨d1, d2, d3, -, -, -, -, d8, -⟩ := decode_frame fwd (g StageId.DRF) x
  obtain ⟨d9, d10⟩ := plain_decode fwd (g StageId.DRF) x (by rw [x3]; exact hDp)
  have d11 := d10 x4
  have hcm4 : (decode fwd (g StageId.DRF) x).code_memory = code := by
    rw [(decode_static fwd _ _).2.2.1, hcm3]
  generalize decode fwd (g StageId.DRF) x = y at *
  have yF : y.stage_F = s.stage_F := by rw [d3, x2]
  have ypc : y.pc = 4000 + 4 * (i : Int) := by rw [d8, x1, hpc]
  have yDp : is_plain y.stage_DRF.opcode = true := by rw [d9, x3]; exact hDp
  have yMp : is_plain y.stage_MEM.opcode = true := by rw [d1]; exact x5
  have yWp : is_plain y.stage_WB.opcode = true := by rw [d2]; exact x6
  have yFb : y.stage_F.busy = false := by rw [yF]; exact hFb
  have yFp : is_plain y.stage_F.opcode = true := by rw [yF]; exact hFp
  have hidx : get_code_index y.pc = (i : Int) := by rw [ypc]; exact get_code_index_cell i
  constructor
  · apply fetch_inv_clock
    rcases Bool.eq_false_or_eq_true y.stage_F.stalled with hFs | hFs
    · rcases Bool.eq_false_or_eq_true y.stage_DRF.stalled with hDs | hDs
      · rw [fetch_frozen y hFs hDs]
        exact Or.inl ⟨⟨i, hih, ypc⟩, yFb, yFp, yDp, d11, yMp, yWp⟩
      · rw [fetch_release y hFs hDs]
        exact Or.inl ⟨⟨i, hih, ypc⟩, yFb, yFp, yFp, d11, yMp, yWp⟩
    · rcases Nat.lt_or_ge i h with hlt | hge
      · have hop := hh.1 i hlt
        rcases Bool.eq_false_or_eq_true y.stage_DRF.stalled with hDs | hDs
        · rw [fetch_hold y yFb hFs hDs]
          refine Or.inl ⟨⟨i + 1, by omega, ?_⟩, yFb, ?_, yDp, d11, yMp, yWp⟩
          · show y.pc + 4 = _
            rw [ypc]; push_cast; ring
          · show is_plain (y.code_memory (get_code_index y.pc)).opcode = true
            rw [hcm4, hidx]; exact hop
        · rw [fetch_live y yFb hFs hDs]
          refine Or.inl ⟨⟨i + 1, by omega, ?_⟩, yFb, ?_, ?_, d11, yMp, yWp⟩
          · show y.pc + 4 = _
            rw [ypc]; push_cast; ring
          · show is_plain (y.code_memory (get_code_index y.pc)).opcode = true
            rw [hcm4, hidx]; exact hop
          · show is_plain (y.code_memory (get_code_index y.pc)).opcode = true
            rw [hcm4, hidx]; exact hop
      · have hie : i = h := by omega
        subst hie
        have hop := hh.2
        rcases Bool.eq_false_or_eq_true y.stage_DRF.stalled with hDs | hDs
        · rw [fetch_hold y yFb hFs hDs]
          refine Or.inr (Or.inr (Or.inl ⟨?_, yFb, rfl, ?_, hDs, yDp, d11, yMp, yWp⟩))
          · show y.pc + 4 = _
            rw [ypc]; ring
          · show (y.code_memory (get_code_index y.pc)).opcode = Opcode.HALT
            rw [hcm4, hidx]; exact hop
        · rw [fetch_live y yFb hFs hDs]
          refine Or.inr (Or.inl ⟨?_, yFb, hFs, ?_, yFb, hFs, d11, yMp, yWp⟩)
          · show y.pc + 4 = _
            rw [ypc]; ring
          · show (y.code_memory (get_code_index y.pc)).opcode = Opcode.HALT
            rw [hcm4, hidx]; exact hop
  · intro idx hr
    obtain ⟨-, -, e⟩ := fetch_read_some y idx hr
    rw [e, hidx]
    omega

/-- The tick in which the `HALT` is decoded: `fetch` reads cell `h + 1`. -/
theorem tick_halt_in_decode {h : Nat} (fwd : Bool) (g : StageId → CPU_Stage) (s : APEX_CPU)
    (hi : halt_in_decode h s) :
    fetch_inv h (APEX_cpu_tick fwd g s)
      ∧ ∀ idx, fetch_read (before_fetch fwd g s) = some idx → 0 ≤ idx ∧ idx ≤ (h : Int) + 1 := by
  obtain ⟨hpc, hFb, hFs, hDo, hDb, hDs, hXp, hMp, hWp⟩ := hi
  obtain ⟨-, -, -, -, x1, x2, x3, x4, x5, x6, -, -⟩ := plain_back fwd g s hXp hMp hWp
  rw [tick_eq_fetch, before_fetch_eq]
  generalize execute fwd (g StageId.EX) (before_execute fwd g s) = x at *
  have xDo : x.stage_DRF.opcode = Opcode.HALT := by rw [x3]; exact hDo
  have xDb : x.stage_DRF.busy = false := by rw [x3]; exact hDb
  have xDs : x.stage_DRF.stalled = false := by rw [x3]; exact hDs
  have xFb : x.stage_F.busy = false := by rw [x2]; exact hFb
  have xFs : x.stage_F.stalled = false := by rw [x2]; exact hFs
  have hidx : get_code_index x.pc = (h : Int) + 1 := by
    rw [x1, hpc]
    have := get_code_index_cell (h + 1)
    push_cast at this
    exact this
  rcases Bool.eq_false_or_eq_true x.stage_EX.stalled with hXs | hXs
  · rw [decode_halt_hold fwd _ x xDb xDs xDo hXs]
    constructor
    · apply fetch_inv_clock
      rw [fetch_hold _ (by exact xFb) (by exact xFs) (by rfl)]
      exact Or.inr (Or.inr (Or.inr (Or.inr (Or.inl
        ⟨rfl, rfl, xDo, xDb, hXs, x4, x5, x6⟩))))
    · intro idx hr
      obtain ⟨-, -, e⟩ := fetch_read_some _ idx hr
      rw [e]
      show 0 ≤ get_code_index x.pc ∧ get_code_index x.pc ≤ _
      rw [hidx]
      omega
  · rw [decode_halt fwd _ x xDb xDs xDo hXs]
    constructor
    · apply fetch_inv_clock
      rw [fetch_live _ (by exact xFb) (by exact xFs) (by exact xDs)]
      exact Or.inr (Or.inr (Or.inr (Or.inl ⟨xDo, xDb, xDs, x5, x6⟩)))
    · intro idx hr
      obtain ⟨-, -, e⟩ := fetch_read_some _ idx hr
      rw [e]
      show 0 ≤ get_code_index x.pc ∧ get_code_index x.pc ≤ _
      rw [hidx]
      omega

/-- A tick while the `HALT` is held in a stalled Fetch latch: no read. -/
theorem tick_halt_held {h : Nat} (fwd : Bool) (g : StageId → CPU_Stage) (s : APEX_CPU)
    (hi : halt_held h s) :
    fetch_inv h (APEX_cpu_tick fwd g s)
      ∧ ∀ idx, fetch_read (before_fetch fwd g s) = some idx → 0 ≤ idx ∧ idx ≤ (h : Int) + 1 := by
  obtain ⟨hpc, hFb, hFs, hFo, hDs, hDp, hXp, hMp, hWp⟩ := hi
  obtain ⟨-, -, -, -, x1, x2, x3, x4, x5, x6, -, -⟩ := plain_back fwd g s hXp hMp hWp
  rw [tick_eq_fetch, before_fetch_eq]
  generalize execute fwd (g StageId.EX) (before_execute fwd g s) = x at *
  obtain ⟨d1, d2, d3, -, -, -, -, d8, -⟩ := decode_frame fwd (g StageId.DRF) x
  obtain ⟨d9, d10⟩ := plain_decode fwd (g StageId.DRF) x (by rw [x3]; exact hDp)
  have d11 := d10 x4
  generalize decode fwd (g StageId.DRF) x = y at *
  have yF : y.stage_F = s.stage_F := by rw [d3, x2]
  have yFs : y.stage_F.stalled = true := by rw [yF]; exact hFs
  have yFb : y.stage_F.busy = false := by rw [yF]; exact hFb
  have yFo : y.stage_F.opcode = Opcode.HALT := by rw [yF]; exact hFo
  have ypc : y.pc = 4000 + 4 * ((h : Int) + 1) := by rw [d8, x1, hpc]
  have yDp : is_plain y.stage_DRF.opcode = true := by rw [d9, x3]; exact hDp
  have yMp : is_plain y.stage_MEM.opcode = true := by rw [d1]; exact x5
  have yWp : is_plain y.stage_WB.opcode = true := by rw [d2]; exact x6
  constructor
  · apply fetch_inv_clock
    rcases Bool.eq_false_or_eq_true y.stage_DRF.stalled with yDs | yDs
    · rw [fetch_frozen y yFs yDs]
      exact Or.inr (Or.inr (Or.inl ⟨ypc, yFb, yFs, yFo, yDs, yDp, d11, yMp, yWp⟩))
    · rw [fetch_release y yFs yDs]
      exact Or.inr (Or.inl ⟨ypc, yFb, rfl, yFo, yFb, rfl, d11, yMp, yWp⟩)
  · intro idx hr
    rw [fetch_read_stalled y yFs] at hr
    cases hr

/-- The tick in which the `HALT` is executed: Fetch and Decode are frozen
before `fetch` runs. -/
theorem tick_halt_in_ex {h : Nat} (fwd : Bool) (g : StageId → CPU_Stage) (s : APEX_CPU)
    (hi : halt_in_ex s) :
    fetch_inv h (APEX_cpu_tick fwd g s)
      ∧ ∀ idx, fetch_read (before_fetch fwd g s) = some idx → 0 ≤ idx ∧ idx ≤ (h : Int) + 1 := by
  obtain ⟨hXo, hXb, hXs, hMp, hWp⟩ := hi
  obtain ⟨w1, w2⟩ := plain_writeback fwd (g StageId.WB) s hWp
  obtain ⟨-, -, w5, -, -, -⟩ := writeback_frame fwd (g StageId.WB) s
  obtain ⟨-, -, -, m4, -, -⟩ := plain_memory fwd (g StageId.MEM) (writeback fwd (g StageId.WB) s)
    (by rw [w2]; exact hMp)
  have hb : lat_halt (before_execute fwd g s).stage_EX := by
    unfold before_execute
    rw [m4, w5]
    exact ⟨hXb, hXs, hXo⟩
  have he := execute_halt fwd (g StageId.EX) _ hb
  have h3 : halted_front (execute fwd (g StageId.EX) (before_execute fwd g s)) := by
    rw [he]
    exact ⟨⟨rfl, rfl, rfl⟩, ⟨rfl, rfl, rfl⟩, Or.inl hb.2.2, Or.inl hb.2.2⟩
  have hd := decode_frozen fwd (g StageId.DRF) _ h3.2.1
  have hf := fetch_frozen _ h3.1.2.1 h3.2.1.2.1
  rw [tick_eq_fetch, before_fetch_eq, hd, hf]
  constructor
  · apply fetch_inv_clock
    exact Or.inr (Or.inr (Or.inr (Or.inr (Or.inr h3))))
  · intro idx hr
    rw [fetch_read_stalled _ h3.1.2.1] at hr
    cases hr

/-- The tick that releases a `HALT` held in Decode behind a stalled `EX`. -/
theorem tick_halt_behind_stall {h : Nat} (fwd : Bool) (g : StageId → CPU_Stage) (s : APEX_CPU)
    (hi : halt_behind_stall s) :
    fetch_inv h (APEX_cpu_tick fwd g s)
      ∧ ∀ idx, fetch_read (before_fetch fwd g s) = some idx → 0 ≤ idx ∧ idx ≤ (h : Int) + 1 := by
  obtain ⟨hFs, hDs, hDo, hDb, hXs, hXp, hMp, hWp⟩ := hi
  obtain ⟨-, b2, b3, b4, -, -, -, -, -, -, b5, b6⟩ := plain_back fwd g s hXp hMp hWp
  rw [tick_eq_fetch, before_fetch_eq]
  generalize before_execute fwd g s = b at *
  rw [execute_stalled fwd _ b (by rw [b4]; exact hXs)]
  rw [decode_halt_retry fwd _ _ (by rw [← b3] at hDs; exact hDs)
    (by rw [← b3] at hDo; exact hDo) (by rfl)]
  rw [← b2] at hFs
  rw [← b3] at hDo hDb
  rw [← b4] at hXp
  constructor
  · apply fetch_inv_clock
    rw [fetch_release _ (by exact hFs) (by rfl)]
    exact Or.inr (Or.inr (Or.inr (Or.inl ⟨hDo, hDb, rfl, hXp, b6⟩)))
  · intro idx hr
    rw [fetch_read_stalled _ (by exact hFs)] at hr
    cases hr

/-- Every tick keeps the invariant, and its `fetch` call reads, if at all, at
an index in `0 .. h + 1`. -/
theorem fetch_inv_tick {code : Int → APEX_Instruction} {h : Nat} (fwd : Bool)
    (g : StageId → CPU_Stage) (hh : halt_at code h) (s : APEX_CPU)
    (hcm : s.code_memory = code) (hi : fetch_inv h s) :
    fetch_inv h (APEX_cpu_tick fwd g s)
      ∧ ∀ idx, fetch_read (before_fetch fwd g s) = some idx → 0 ≤ idx ∧ idx ≤ (h : Int) + 1 := by
  rcases hi with hi | hi | hi | hi | hi | hi
  · exact tick_front_open fwd g hh s hcm hi
  · exact tick_halt_in_decode fwd g s hi
  · exact tick_halt_held fwd g s hi
  · exact tick_halt_in_ex fwd g s hi
  · exact tick_halt_behind_stall fwd g s hi
  · obtain ⟨t1, t2, -⟩ := halted_front_tick fwd g s hi
    refine ⟨Or.inr (Or.inr (Or.inr (Or.inr (Or.inr t1)))), ?_⟩
    intro idx hr
    rw [fetch_read_stalled _ t2.1.2.1] at hr
    cases hr

theorem fetch_inv_run_ticks {code : Int → APEX_Instruction} {h : Nat} (fwd : Bool)
    (g : Int → StageId → CPU_Stage) (hh : halt_at code h) (k : Nat) :
    ∀ s, s.code_memory = code → fetch_inv h s → fetch_inv h (run_ticks fwd g k s) := by
  induction k with
  | zero => intro s _ hi; exact hi
  | succ k ih =>
    intro s hcm hi
    rw [run_ticks_succ]
    apply ih
    · rw [(tick_static fwd (g s.clock) s).2.2.1, hcm]
    · exact (fetch_inv_tick fwd (g s.clock) hh s hcm hi).1

set_option maxRecDepth 100000 in
/-- In tick 5 of the example program `fetch` is called with a Fetch latch that
is neither busy nor stalled and `pc = 4016`: it reads cell 4. -/
theorem example_fetch_in_tick_5 :
    fetch_read (before_fetch true
        (zero_locals (run_ticks true zero_locals 4
          (initial_state zero_cpu prog_example (fun _ => empty_instruction) 100)).clock)
        (run_ticks true zero_locals 4
          (initial_state zero_cpu prog_example (fun _ => empty_instruction) 100))) = some 4
      ∧ (run_ticks true zero_locals 4
          (initial_state zero_cpu prog_example (fun _ => empty_instruction) 100)).code_memory_size
          = 4
      ∧ run_done 4000 (run_ticks true zero_locals 4
          (initial_state zero_cpu prog_example (fun _ => empty_instruction) 100)) = false := by
  generalize hs : run_ticks true zero_locals 4
    (initial_state zero_cpu prog_example (fun _ => empty_instruction) 100) = s
  simp only [initial_state, APEX_cpu_init, prog_example, MOVC, ADD, HALT, zero_stage,
    zero_cpu, empty_instruction] at hs
  iterate 4
    rw [run_ticks_succ] at hs
    simp [APEX_cpu_tick, writeback, memory, execute, decode, decode_copy, decode_read,
      decode_retry, fetch, code_of, get_code_index_eq, Create_NOP, zero_locals, zero_stage,
      is_arith, is_reg_reg, arith_ahead, valid_after_memset, zero_of, write_apply] at hs
  simp only [run_ticks] at hs
  subst hs
  simp [fetch_read, before_fetch, run_done, writeback, memory, execute, decode, decode_copy,
    decode_read, decode_retry, get_code_index_eq, Create_NOP, zero_locals, zero_stage,
    is_arith, is_reg_reg, arith_ahead, zero_of, write_apply]

/-- C26 (the claim as written fails): the example program `MOVC R1,#5;
MOVC R2,#10; ADD R3,R1,R2; HALT` has 4 instructions, the last one is `HALT`
and it contains no branch and no `JUMP`; the driver runs tick 5 (the exit test
fails after 4 ticks), and in that tick, in which the `HALT` is decoded,
`fetch` reads code memory at index 4, which is `code_memory_size`. -/
theorem C26_reads_cell_beyond :
    prog_example.getLast? = some HALT
      ∧ (∀ ins ∈ prog_example, ins.opcode ≠ Opcode.BZ ∧ ins.opcode ≠ Opcode.BNZ
          ∧ ins.opcode ≠ Opcode.JUMP)
      ∧ run_done 4000 (run_ticks true zero_locals 4
          (initial_state zero_cpu prog_example (fun _ => empty_instruction) 100)) = false
      ∧ fetch_read (before_fetch true
          (zero_locals (run_ticks true zero_locals 4
            (initial_state zero_cpu prog_example (fun _ => empty_instruction) 100)).clock)
          (run_ticks true zero_locals 4
            (initial_state zero_cpu prog_example (fun _ => empty_instruction) 100))) = some 4
      ∧ (run_ticks true zero_locals 4
          (initial_state zero_cpu prog_example (fun _ => empty_instruction) 100)).code_memory_size
          = 4 := by
  obtain ⟨h1, h2, h3⟩ := example_fetch_in_tick_5
  exact ⟨by simp [prog_example], by simp [prog_example, MOVC, ADD, HALT], h3, h1, h2⟩

/-- C26 (amended): let code memory hold no branch and no `JUMP` before its
first `HALT`, which is in cell `h` of a program of `size > h` instructions.
In every run from the state `APEX_cpu_init` builds, with or without
forwarding, whenever the `fetch` call of a tick reads code memory, its index
`get_code_index(pc)` satisfies `0 ≤ index ≤ h + 1`, hence
`index ≤ code_memory_size`: `fetch` reads at most one cell beyond the first
`HALT` (the cell after it, in the tick in which the `HALT` is decoded), which
lies beyond the program when the `HALT` is the last instruction. -/
theorem C26_fetch_index_bound (fwd : Bool) (g : Int → StageId → CPU_Stage) (m : APEX_CPU)
    (code : Int → APEX_Instruction) (size cycles : Int) (h : Nat) (hh : halt_at code h)
    (hsize : (h : Int) < size) (k : Nat) (idx : Int)
    (hr : fetch_read (before_fetch fwd
        (g (run_ticks fwd g k (APEX_cpu_init m code size cycles)).clock)
        (run_ticks fwd g k (APEX_cpu_init m code size cycles))) = some idx) :
    0 ≤ idx ∧ idx ≤ (h : Int) + 1
      ∧ idx ≤ (run_ticks fwd g k (APEX_cpu_init m code size cycles)).code_memory_size := by
  have h0 : fetch_inv h (APEX_cpu_init m code size cycles) := by
    refine Or.inl ⟨⟨0, Nat.zero_le _, by simp [APEX_cpu_init]⟩, rfl, rfl, rfl, rfl, rfl, rfl⟩
  have hk := fetch_inv_run_ticks fwd g hh k _ rfl h0
  have hcm : (run_ticks fwd g k (APEX_cpu_init m code size cycles)).code_memory = code := by
    rw [(run_ticks_static fwd g k _).2.2.1]; rfl
  have hb := (fetch_inv_tick fwd _ hh _ hcm hk).2 idx hr
  refine ⟨hb.1, hb.2, ?_⟩
  rw [(run_ticks_static fwd g k _).2.2.2]
  show idx ≤ size
  omega

/-- C26 (amended), at a concrete instance: the example program, whose `HALT`
is in cell 3 of 4; the read at index 4 in tick 5 is within the bound. -/
theorem C26_fetch_index_bound_witness :
    halt_at (code_of prog_example (fun _ => empty_instruction)) 3
      ∧ fetch_read (before_fetch true
          (zero_locals (run_ticks true zero_locals 4
            (APEX_cpu_init zero_cpu (code_of prog_example (fun _ => empty_instruction)) 4
              100)).clock)
          (run_ticks true zero_locals 4
            (APEX_cpu_init zero_cpu (code_of prog_example (fun _ => empty_instruction)) 4
              100))) = some 4
      ∧ (0 : Int) ≤ 4 ∧ (4 : Int) ≤ ((3 : Nat) : Int) + 1
      ∧ (4 : Int) ≤ (run_ticks true zero_locals 4
          (APEX_cpu_init zero_cpu (code_of prog_example (fun _ => empty_instruction)) 4
            100)).code_memory_size := by
  have hh : halt_at (code_of prog_example (fun _ => empty_instruction)) 3 := by
    constructor
    · intro j hj
      interval_cases j <;> simp [code_of, prog_example, MOVC, ADD, is_plain]
    · simp [code_of, prog_example, HALT]
  have hr : fetch_read (before_fetch true
      (zero_locals (run_ticks true zero_locals 4
        (APEX_cpu_init zero_cpu (code_of prog_example (fun _ => empty_instruction)) 4
          100)).clock)
      (run_ticks true zero_locals 4
        (APEX_cpu_init zero_cpu (code_of prog_example (fun _ => empty_instruction)) 4
          100))) = some 4 := example_fetch_in_tick_5.1
  exact ⟨hh, hr, C26_fetch_index_bound true zero_locals zero_cpu _ 4 100 3 hh (by decide) 4 4 hr⟩
end APEX
